import Mathlib

/-!
RGBA to RGB conversion kernels (`main.cpp`).

Shallow embedding of the conversion kernels, the verifier and the fixture
generator of `main.cpp`.

* A buffer is a list of bytes.  A C pointer into a buffer is the byte offset
  from the start of that buffer.
* Every load and every store is bounds-checked against the buffer it touches:
  an access outside the buffer makes the whole call return `none`.
* A `for(; i < bound; ++i)` loop whose body changes neither `i` nor `bound`
  runs `bound - i` times (truncated subtraction); `for_loop` recurses on that
  trip count and hands the running index to the body.
* `size_t` is 64 bits wide; the only subtraction on it that can wrap,
  `num_blocks - 1`, is modelled with explicit wrap-around.
* `COPY_RGBA_TO_RGB__AVX2__DO_PREFETCH` is `0` by default, so the prefetch
  hints are compiled out; they are not modelled.
-/

namespace RgbaToRgb

/-! ## Memory model -/

/-- A byte buffer (`std::vector<uint8_t>`, or the memory behind a `uint8_t*`). -/
abbrev Buf := List UInt8

/-- Number of values of a `size_t` (64-bit target). -/
def SIZE_T_RANGE : Nat := 2 ^ 64

/-- Subtraction on `size_t` operands: wraps around modulo `2 ^ 64`. -/
def size_t_sub (a b : Nat) : Nat := (a + SIZE_T_RANGE - b % SIZE_T_RANGE) % SIZE_T_RANGE

/-- Read of the byte `mem[off]`. -/
def load (mem : Buf) (off : Nat) : Option UInt8 := mem[off]?

/-- Read of the `n` bytes `mem[off .. off + n)`. -/
def load_bytes (mem : Buf) (off n : Nat) : Option (List UInt8) :=
  if off + n ≤ mem.length then some ((mem.drop off).take n) else none

/-- Contents of `mem` after the bytes `bs` have been written at offset `off`. -/
def write_bytes (mem : Buf) (off : Nat) (bs : List UInt8) : Buf :=
  mem.take off ++ bs ++ mem.drop (off + bs.length)

/-- Write of the bytes `bs` to `mem[off .. off + bs.length)`. -/
def store_bytes (mem : Buf) (off : Nat) (bs : List UInt8) : Option Buf :=
  if off + bs.length ≤ mem.length then some (write_bytes mem off bs) else none

/-- Write of one byte: `mem[off] = v`. -/
def store (mem : Buf) (off : Nat) (v : UInt8) : Option Buf := store_bytes mem off [v]

/-- Call `memcpy(dst + dst_off, src + src_off, n)`. -/
def memcpy (dst : Buf) (dst_off : Nat) (src : Buf) (src_off : Nat) (n : Nat) : Option Buf :=
  (load_bytes src src_off n).bind fun bs =>
  store_bytes dst dst_off bs

/-- Loop `for(; i < bound; ++i) body`, given its trip count `bound - i`. -/
def for_loop {σ : Type} (body : Nat → σ → Option σ) : Nat → Nat → σ → Option σ
  | 0, _, s => some s
  | k + 1, i, s => (body i s).bind (for_loop body k (i + 1))

/-- Sequencing of two bounds-checked steps: `f` runs on the result of `x`, unless
`x` was an access outside its buffer. -/
@[noinline]
def and_then {α β : Type} (x : Option α) (f : α → Option β) : Option β := x.bind f

/-! ## AVX2 registers and intrinsics -/

/-- A 256-bit register seen as 32 bytes, byte 0 the least significant. -/
abbrev M256 := Fin 32 → UInt8

/-- A 128-bit register seen as 16 bytes. -/
abbrev M128 := Fin 16 → UInt8

/-- Intrinsic `_mm256_set_epi8(e31, ..., e0)`: the arguments are given from the
most significant byte down, each a `char`. -/
def _mm256_set_epi8 (e : List Int) : M256 :=
  fun i => UInt8.ofNat ((e.reverse.getD i.val 0) % 256).toNat

/-- Intrinsic `_mm256_loadu_si256`: unaligned load of 32 bytes at `mem + off`. -/
def _mm256_loadu_si256 (mem : Buf) (off : Nat) : Option M256 :=
  if h : off + 32 ≤ mem.length then
    some (fun i => mem.get ⟨off + i.val, by omega⟩)
  else none

/-- Intrinsic `_mm256_shuffle_epi8(a, b)`: within each 128-bit lane, byte `i` of
the result is zero when bit 7 of `b[i]` is set, and otherwise the byte of the
same lane of `a` selected by the low four bits of `b[i]`. -/
def _mm256_shuffle_epi8 (a b : M256) : M256 :=
  fun i =>
    if 128 ≤ (b i).toNat then 0
    else a ⟨16 * (i.val / 16) + (b i).toNat % 16, by omega⟩

/-- Intrinsic `_mm256_extracti128_si256(a, imm8)`: the low (`imm8 = 0`) or high
(`imm8 = 1`) 128-bit half of `a`. -/
def _mm256_extracti128_si256 (a : M256) (imm8 : Nat) : M128 :=
  fun i => a ⟨16 * (imm8 % 2) + i.val, by omega⟩

/-- Intrinsic `_mm_srli_si128(a, imm8)`: shift right by `imm8` bytes, zero fill. -/
def _mm_srli_si128 (a : M128) (imm8 : Nat) : M128 :=
  fun i => if h : i.val + imm8 < 16 then a ⟨i.val + imm8, h⟩ else 0

/-- Intrinsic `_mm_storeu_si128`: unaligned store of all 16 bytes at `mem + off`. -/
def _mm_storeu_si128 (mem : Buf) (off : Nat) (a : M128) : Option Buf :=
  store_bytes mem off (List.ofFn a)

/-- Intrinsic `_mm_storeu_si64`: unaligned store of the low 8 bytes at `mem + off`. -/
def _mm_storeu_si64 (mem : Buf) (off : Nat) (a : M128) : Option Buf :=
  store_bytes mem off ((List.ofFn a).take 8)

/-- Intrinsic `_mm_storeu_si32`: unaligned store of the low 4 bytes at `mem + off`. -/
def _mm_storeu_si32 (mem : Buf) (off : Nat) (a : M128) : Option Buf :=
  store_bytes mem off ((List.ofFn a).take 4)

/-! ## Fixture and verifier -/

/-- Function `make_ascending_data`: a zero-filled vector of `size` bytes whose
byte `i` is then set to `(i + 1) % 256`. -/
def make_ascending_data (size : Nat) : Option Buf :=
  for_loop (fun i data => store data i (UInt8.ofNat ((i + 1) % 256)))
    (size - 0) 0 (List.replicate size 0)

/-- An argument of a `fprintf` call. -/
inductive PrintfArg
  | num (n : Nat)
  | str (s : String)
deriving DecidableEq

/-- One call that writes to `stdout`. -/
inductive StdoutCall
  | fputs (s : String)
  | fprintf (fmt : String) (args : List PrintfArg)
deriving DecidableEq

/-- Dump loop of `compare_rgba_to_rgb`:
`for(r = 0; r < count; ++r) { fprintf("%d ", buf[r]); if((r+1) % group == 0) fputs("| "); }`. -/
def compare_rgba_to_rgb.dump (buf : Buf) (group count : Nat) (out : List StdoutCall) :
    Option (List StdoutCall) :=
  for_loop (fun r out =>
      and_then (load buf r) fun x =>
      let out := out ++ [StdoutCall.fprintf "%d " [PrintfArg.num x.toNat]]
      if ((r + 1) % group) = 0 then some (out ++ [StdoutCall.fputs "| "]) else some out)
    (count - 0) 0 out

/-- Pixel loop of `compare_rgba_to_rgb`, given its remaining trip count; it returns
from the function at the first mismatch. -/
def compare_rgba_to_rgb.loop (rgba rgb : Buf) (num_pixels : Nat) :
    Nat → Nat → List StdoutCall → Option (Bool × List StdoutCall)
  | 0, _, out => some (true, out)
  | k + 1, i, out =>
    and_then (load rgba ((i * 4)    )) fun rgba_r =>
    and_then (load rgba ((i * 4) + 1)) fun rgba_g =>
    and_then (load rgba ((i * 4) + 2)) fun rgba_b =>
    and_then (load rgba ((i * 4) + 3)) fun rgba_a =>
    and_then (load rgb ((i * 3)    )) fun rgb_r =>
    and_then (load rgb ((i * 3) + 1)) fun rgb_g =>
    and_then (load rgb ((i * 3) + 2)) fun rgb_b =>
    if (rgba_r != rgb_r) || (rgba_g != rgb_g) || (rgba_b != rgb_b) then
      let out := out ++ [StdoutCall.fputs "rgba: ["]
      and_then (compare_rgba_to_rgb.dump rgba 4 (num_pixels * 4) out) fun out =>
      let out := out ++ [StdoutCall.fputs "]\nrgb: ["]
      and_then (compare_rgba_to_rgb.dump rgb 3 (num_pixels * 3) out) fun out =>
      let out := out ++ [StdoutCall.fputs "]\n"]
      let out := out ++ [StdoutCall.fprintf
        "Mismatch at i=%zu: RGBA(%d, %d, %d, %d) but got RGB(%d, %d, %d)\n"
        [PrintfArg.num i, PrintfArg.num rgba_r.toNat, PrintfArg.num rgba_g.toNat,
         PrintfArg.num rgba_g.toNat, PrintfArg.num rgba_a.toNat,
         PrintfArg.num rgb_r.toNat, PrintfArg.num rgb_g.toNat, PrintfArg.num rgb_b.toNat]]
      some (false, out)
    else compare_rgba_to_rgb.loop rgba rgb num_pixels k (i + 1) out

/-- Function `compare_rgba_to_rgb`: the verdict and the calls made on `stdout`. -/
def compare_rgba_to_rgb (rgba rgb : Buf) (num_pixels : Nat) : Option (Bool × List StdoutCall) :=
  compare_rgba_to_rgb.loop rgba rgb num_pixels (num_pixels - 0) 0 []

/-! ## Scalar kernels -/

/-- Function `copy_rgba_to_rgb__memcpy`. -/
def copy_rgba_to_rgb__memcpy (rgba rgb : Buf) (num_pixels : Nat) : Option Buf :=
  for_loop (fun i rgb => memcpy rgb (i * (1 * 3)) rgba (i * (1 * 4)) (1 * 3))
    (num_pixels - 0) 0 rgb

/-- The two moving pointers of a kernel, as offsets into the source and the
destination buffer, and the current contents of the destination buffer. -/
structure Cursor where
  rgba : Nat
  rgb : Nat
  rgb_mem : Buf
deriving DecidableEq

/-- The statement group
`rgb[0] = rgba[0]; rgb[1] = rgba[1]; rgb[2] = rgba[2]; rgba += 4; rgb += 3;`. -/
def copy_pixel (rgba : Buf) (s : Cursor) : Option Cursor :=
  let d := s.rgb_mem
  and_then (load rgba (s.rgba + 0)) fun r =>
  and_then (store d (s.rgb + 0) r) fun d =>
  and_then (load rgba (s.rgba + 1)) fun g =>
  and_then (store d (s.rgb + 1) g) fun d =>
  and_then (load rgba (s.rgba + 2)) fun b =>
  and_then (store d (s.rgb + 2) b) fun d =>
  some ⟨s.rgba + 4, s.rgb + 3, d⟩

/-- Function `copy_rgba_to_rgb__raw_ptr`. -/
def copy_rgba_to_rgb__raw_ptr (rgba rgb : Buf) (num_pixels : Nat) : Option Buf :=
  let s : Cursor := ⟨0, 0, rgb⟩
  and_then (for_loop (fun _ s => copy_pixel rgba s) (num_pixels - 0) 0 s) fun s =>
  some s.rgb_mem

/-- Function `copy_rgba_to_rgb__raw_ptr__4pixels`. -/
def copy_rgba_to_rgb__raw_ptr__4pixels (rgba rgb : Buf) (num_pixels : Nat) : Option Buf :=
  let num_pixels_unrolled := num_pixels / 4
  let s : Cursor := ⟨0, 0, rgb⟩
  and_then (for_loop (fun _ s =>
      and_then (copy_pixel rgba s) fun s =>
      and_then (copy_pixel rgba s) fun s =>
      and_then (copy_pixel rgba s) fun s =>
      copy_pixel rgba s)
    (num_pixels_unrolled - 0) 0 s) fun s =>
  let i := num_pixels_unrolled * 4
  and_then (for_loop (fun _ s => copy_pixel rgba s) (num_pixels - i) i s) fun s =>
  some s.rgb_mem

/-! ## Vector kernels -/

/-- The constant `shuffle_mask` of `copy_rgba_to_rgb__avx2__8pixels`. -/
def copy_rgba_to_rgb__avx2__8pixels.shuffle_mask : M256 := _mm256_set_epi8
  [ -1, -1, -1, -1,
    14,13,12,  10,9,8,  6,5,4,  2,1,0,
    -1, -1, -1, -1,
    14,13,12,  10,9,8,  6,5,4,  2,1,0 ]

/-- Body of the main loop of `copy_rgba_to_rgb__avx2__8pixels`: one block that is
not the last one, stored with overshooting 16-byte stores. -/
def copy_rgba_to_rgb__avx2__8pixels.main_block (rgba : Buf) (s : Cursor) : Option Cursor :=
  let d := s.rgb_mem
  and_then (_mm256_loadu_si256 rgba s.rgba) fun v =>
  let v := _mm256_shuffle_epi8 v shuffle_mask
  let part_128 := _mm256_extracti128_si256 v 0
  and_then (_mm_storeu_si128 d s.rgb part_128) fun d =>
  let part_128 := _mm256_extracti128_si256 v 1
  and_then (_mm_storeu_si128 d (s.rgb + 12) part_128) fun d =>
  some ⟨s.rgba + 32, s.rgb + 24, d⟩

/-- The last block of `copy_rgba_to_rgb__avx2__8pixels`, stored precisely. -/
def copy_rgba_to_rgb__avx2__8pixels.last_block (rgba : Buf) (s : Cursor) : Option Cursor :=
  let d := s.rgb_mem
  and_then (_mm256_loadu_si256 rgba s.rgba) fun v =>
  let v := _mm256_shuffle_epi8 v shuffle_mask
  let part_128 := _mm256_extracti128_si256 v 0
  and_then (_mm_storeu_si128 d s.rgb part_128) fun d =>
  let part_128 := _mm256_extracti128_si256 v 1
  and_then (_mm_storeu_si64 d (s.rgb + 12) part_128) fun d =>
  let part_128 := _mm_srli_si128 part_128 8
  and_then (_mm_storeu_si32 d (s.rgb + 20) part_128) fun d =>
  some ⟨s.rgba + 32, s.rgb + 24, d⟩

/-- Function `copy_rgba_to_rgb__avx2__8pixels`. -/
def copy_rgba_to_rgb__avx2__8pixels (rgba rgb : Buf) (num_pixels : Nat) : Option Buf :=
  let s : Cursor := ⟨0, 0, rgb⟩
  let num_8pixel_blocks := num_pixels / 8
  and_then (
    if num_8pixel_blocks > 0 then
      and_then (for_loop (fun _ s => copy_rgba_to_rgb__avx2__8pixels.main_block rgba s)
        (size_t_sub num_8pixel_blocks 1 - 0) 0 s) fun s =>
      copy_rgba_to_rgb__avx2__8pixels.last_block rgba s
    else some s) fun s =>
  let i := num_8pixel_blocks * 8
  and_then (for_loop (fun _ s => copy_pixel rgba s) (num_pixels - i) i s) fun s =>
  some s.rgb_mem

/-- The constant `shuffle_mask` of `copy_rgba_to_rgb__avx2__16pixels`. -/
def copy_rgba_to_rgb__avx2__16pixels.shuffle_mask : M256 := _mm256_set_epi8
  [ -1, -1, -1, -1,
    14,13,12,  10,9,8,  6,5,4,  2,1,0,
    -1, -1, -1, -1,
    14,13,12,  10,9,8,  6,5,4,  2,1,0 ]

/-- Body of the main loop of `copy_rgba_to_rgb__avx2__16pixels`: one block that is
not the last one, stored with overshooting 16-byte stores. -/
def copy_rgba_to_rgb__avx2__16pixels.main_block (rgba : Buf) (s : Cursor) : Option Cursor :=
  let d := s.rgb_mem
  and_then (_mm256_loadu_si256 rgba s.rgba) fun v0 =>
  and_then (_mm256_loadu_si256 rgba (s.rgba + 32)) fun v1 =>
  let v0 := _mm256_shuffle_epi8 v0 shuffle_mask
  let v1 := _mm256_shuffle_epi8 v1 shuffle_mask
  let part_128 := _mm256_extracti128_si256 v0 0
  and_then (_mm_storeu_si128 d s.rgb part_128) fun d =>
  let part_128 := _mm256_extracti128_si256 v0 1
  and_then (_mm_storeu_si128 d (s.rgb + 12) part_128) fun d =>
  let part_128 := _mm256_extracti128_si256 v1 0
  and_then (_mm_storeu_si128 d (s.rgb + 24) part_128) fun d =>
  let part_128 := _mm256_extracti128_si256 v1 1
  and_then (_mm_storeu_si128 d (s.rgb + 36) part_128) fun d =>
  some ⟨s.rgba + 64, s.rgb + 48, d⟩

/-- The last block of `copy_rgba_to_rgb__avx2__16pixels`, stored precisely. -/
def copy_rgba_to_rgb__avx2__16pixels.last_block (rgba : Buf) (s : Cursor) : Option Cursor :=
  let d := s.rgb_mem
  and_then (_mm256_loadu_si256 rgba s.rgba) fun v0 =>
  and_then (_mm256_loadu_si256 rgba (s.rgba + 32)) fun v1 =>
  let v0 := _mm256_shuffle_epi8 v0 shuffle_mask
  let v1 := _mm256_shuffle_epi8 v1 shuffle_mask
  let part_128 := _mm256_extracti128_si256 v0 0
  and_then (_mm_storeu_si128 d s.rgb part_128) fun d =>
  let part_128 := _mm256_extracti128_si256 v0 1
  and_then (_mm_storeu_si128 d (s.rgb + 12) part_128) fun d =>
  let part_128 := _mm256_extracti128_si256 v1 0
  and_then (_mm_storeu_si128 d (s.rgb + 24) part_128) fun d =>
  let part_128 := _mm256_extracti128_si256 v1 1
  and_then (_mm_storeu_si64 d (s.rgb + 36) part_128) fun d =>
  let part_128 := _mm_srli_si128 part_128 8
  and_then (_mm_storeu_si32 d (s.rgb + 44) part_128) fun d =>
  some ⟨s.rgba + 64, s.rgb + 48, d⟩

/-- Function `copy_rgba_to_rgb__avx2__16pixels`. -/
def copy_rgba_to_rgb__avx2__16pixels (rgba rgb : Buf) (num_pixels : Nat) : Option Buf :=
  let s : Cursor := ⟨0, 0, rgb⟩
  let num_16pixel_blocks := num_pixels / 16
  and_then (
    if num_16pixel_blocks > 0 then
      and_then (for_loop (fun _ s => copy_rgba_to_rgb__avx2__16pixels.main_block rgba s)
        (size_t_sub num_16pixel_blocks 1 - 0) 0 s) fun s =>
      copy_rgba_to_rgb__avx2__16pixels.last_block rgba s
    else some s) fun s =>
  let i := num_16pixel_blocks * 16
  and_then (for_loop (fun _ s => copy_pixel rgba s) (num_pixels - i) i s) fun s =>
  some s.rgb_mem

/-- The constant `shuffle_mask` of `copy_rgba_to_rgb__avx2__32pixels`. -/
def copy_rgba_to_rgb__avx2__32pixels.shuffle_mask : M256 := _mm256_set_epi8
  [ -1, -1, -1, -1,
    14,13,12,  10,9,8,  6,5,4,  2,1,0,
    -1, -1, -1, -1,
    14,13,12,  10,9,8,  6,5,4,  2,1,0 ]

/-- Body of the main loop of `copy_rgba_to_rgb__avx2__32pixels`: one block that is
not the last one, stored with overshooting 16-byte stores. -/
def copy_rgba_to_rgb__avx2__32pixels.main_block (rgba : Buf) (s : Cursor) : Option Cursor :=
  let d := s.rgb_mem
  and_then (_mm256_loadu_si256 rgba s.rgba) fun v0 =>
  and_then (_mm256_loadu_si256 rgba (s.rgba + 32)) fun v1 =>
  and_then (_mm256_loadu_si256 rgba (s.rgba + 64)) fun v2 =>
  and_then (_mm256_loadu_si256 rgba (s.rgba + 96)) fun v3 =>
  let v0 := _mm256_shuffle_epi8 v0 shuffle_mask
  let v1 := _mm256_shuffle_epi8 v1 shuffle_mask
  let v2 := _mm256_shuffle_epi8 v2 shuffle_mask
  let v3 := _mm256_shuffle_epi8 v3 shuffle_mask
  let part_128 := _mm256_extracti128_si256 v0 0
  and_then (_mm_storeu_si128 d s.rgb part_128) fun d =>
  let part_128 := _mm256_extracti128_si256 v0 1
  and_then (_mm_storeu_si128 d (s.rgb + 12) part_128) fun d =>
  let part_128 := _mm256_extracti128_si256 v1 0
  and_then (_mm_storeu_si128 d (s.rgb + 24) part_128) fun d =>
  let part_128 := _mm256_extracti128_si256 v1 1
  and_then (_mm_storeu_si128 d (s.rgb + 36) part_128) fun d =>
  let part_128 := _mm256_extracti128_si256 v2 0
  and_then (_mm_storeu_si128 d (s.rgb + 48) part_128) fun d =>
  let part_128 := _mm256_extracti128_si256 v2 1
  and_then (_mm_storeu_si128 d (s.rgb + 60) part_128) fun d =>
  let part_128 := _mm256_extracti128_si256 v3 0
  and_then (_mm_storeu_si128 d (s.rgb + 72) part_128) fun d =>
  let part_128 := _mm256_extracti128_si256 v3 1
  and_then (_mm_storeu_si128 d (s.rgb + 84) part_128) fun d =>
  some ⟨s.rgba + 128, s.rgb + 96, d⟩

/-- The last block of `copy_rgba_to_rgb__avx2__32pixels`, stored precisely. -/
def copy_rgba_to_rgb__avx2__32pixels.last_block (rgba : Buf) (s : Cursor) : Option Cursor :=
  let d := s.rgb_mem
  and_then (_mm256_loadu_si256 rgba s.rgba) fun v0 =>
  and_then (_mm256_loadu_si256 rgba (s.rgba + 32)) fun v1 =>
  and_then (_mm256_loadu_si256 rgba (s.rgba + 64)) fun v2 =>
  and_then (_mm256_loadu_si256 rgba (s.rgba + 96)) fun v3 =>
  let v0 := _mm256_shuffle_epi8 v0 shuffle_mask
  let v1 := _mm256_shuffle_epi8 v1 shuffle_mask
  let v2 := _mm256_shuffle_epi8 v2 shuffle_mask
  let v3 := _mm256_shuffle_epi8 v3 shuffle_mask
  let part_128 := _mm256_extracti128_si256 v0 0
  and_then (_mm_storeu_si128 d s.rgb part_128) fun d =>
  let part_128 := _mm256_extracti128_si256 v0 1
  and_then (_mm_storeu_si128 d (s.rgb + 12) part_128) fun d =>
  let part_128 := _mm256_extracti128_si256 v1 0
  and_then (_mm_storeu_si128 d (s.rgb + 24) part_128) fun d =>
  let part_128 := _mm256_extracti128_si256 v1 1
  and_then (_mm_storeu_si128 d (s.rgb + 36) part_128) fun d =>
  let part_128 := _mm256_extracti128_si256 v2 0
  and_then (_mm_storeu_si128 d (s.rgb + 48) part_128) fun d =>
  let part_128 := _mm256_extracti128_si256 v2 1
  and_then (_mm_storeu_si128 d (s.rgb + 60) part_128) fun d =>
  let part_128 := _mm256_extracti128_si256 v3 0
  and_then (_mm_storeu_si128 d (s.rgb + 72) part_128) fun d =>
  let part_128 := _mm256_extracti128_si256 v3 1
  and_then (_mm_storeu_si64 d (s.rgb + 84) part_128) fun d =>
  let part_128 := _mm_srli_si128 part_128 8
  and_then (_mm_storeu_si32 d (s.rgb + 92) part_128) fun d =>
  some ⟨s.rgba + 128, s.rgb + 96, d⟩

/-- Function `copy_rgba_to_rgb__avx2__32pixels`. -/
def copy_rgba_to_rgb__avx2__32pixels (rgba rgb : Buf) (num_pixels : Nat) : Option Buf :=
  let s : Cursor := ⟨0, 0, rgb⟩
  let num_32pixel_blocks := num_pixels / 32
  and_then (
    if num_32pixel_blocks > 0 then
      and_then (for_loop (fun _ s => copy_rgba_to_rgb__avx2__32pixels.main_block rgba s)
        (size_t_sub num_32pixel_blocks 1 - 0) 0 s) fun s =>
      copy_rgba_to_rgb__avx2__32pixels.last_block rgba s
    else some s) fun s =>
  let i := num_32pixel_blocks * 32
  and_then (for_loop (fun _ s => copy_pixel rgba s) (num_pixels - i) i s) fun s =>
  some s.rgb_mem

/-- The constant `shuffle_mask` of `copy_rgba_to_rgb__avx2__64pixels`. -/
def copy_rgba_to_rgb__avx2__64pixels.shuffle_mask : M256 := _mm256_set_epi8
  [ -1, -1, -1, -1,
    14,13,12,  10,9,8,  6,5,4,  2,1,0,
    -1, -1, -1, -1,
    14,13,12,  10,9,8,  6,5,4,  2,1,0 ]

/-- Body of the main loop of `copy_rgba_to_rgb__avx2__64pixels`: one block that is
not the last one, stored with overshooting 16-byte stores. -/
def copy_rgba_to_rgb__avx2__64pixels.main_block (rgba : Buf) (s : Cursor) : Option Cursor :=
  let d := s.rgb_mem
  and_then (_mm256_loadu_si256 rgba s.rgba) fun v0 =>
  and_then (_mm256_loadu_si256 rgba (s.rgba + 32)) fun v1 =>
  and_then (_mm256_loadu_si256 rgba (s.rgba + 64)) fun v2 =>
  and_then (_mm256_loadu_si256 rgba (s.rgba + 96)) fun v3 =>
  and_then (_mm256_loadu_si256 rgba (s.rgba + 128)) fun v4 =>
  and_then (_mm256_loadu_si256 rgba (s.rgba + 160)) fun v5 =>
  and_then (_mm256_loadu_si256 rgba (s.rgba + 192)) fun v6 =>
  and_then (_mm256_loadu_si256 rgba (s.rgba + 224)) fun v7 =>
  let v0 := _mm256_shuffle_epi8 v0 shuffle_mask
  let v1 := _mm256_shuffle_epi8 v1 shuffle_mask
  let v2 := _mm256_shuffle_epi8 v2 shuffle_mask
  let v3 := _mm256_shuffle_epi8 v3 shuffle_mask
  let v4 := _mm256_shuffle_epi8 v4 shuffle_mask
  let v5 := _mm256_shuffle_epi8 v5 shuffle_mask
  let v6 := _mm256_shuffle_epi8 v6 shuffle_mask
  let v7 := _mm256_shuffle_epi8 v7 shuffle_mask
  let part_128 := _mm256_extracti128_si256 v0 0
  and_then (_mm_storeu_si128 d s.rgb part_128) fun d =>
  let part_128 := _mm256_extracti128_si256 v0 1
  and_then (_mm_storeu_si128 d (s.rgb + 12) part_128) fun d =>
  let part_128 := _mm256_extracti128_si256 v1 0
  and_then (_mm_storeu_si128 d (s.rgb + 24) part_128) fun d =>
  let part_128 := _mm256_extracti128_si256 v1 1
  and_then (_mm_storeu_si128 d (s.rgb + 36) part_128) fun d =>
  let part_128 := _mm256_extracti128_si256 v2 0
  and_then (_mm_storeu_si128 d (s.rgb + 48) part_128) fun d =>
  let part_128 := _mm256_extracti128_si256 v2 1
  and_then (_mm_storeu_si128 d (s.rgb + 60) part_128) fun d =>
  let part_128 := _mm256_extracti128_si256 v3 0
  and_then (_mm_storeu_si128 d (s.rgb + 72) part_128) fun d =>
  let part_128 := _mm256_extracti128_si256 v3 1
  and_then (_mm_storeu_si128 d (s.rgb + 84) part_128) fun d =>
  let part_128 := _mm256_extracti128_si256 v4 0
  and_then (_mm_storeu_si128 d (s.rgb + 96) part_128) fun d =>
  let part_128 := _mm256_extracti128_si256 v4 1
  and_then (_mm_storeu_si128 d (s.rgb + 108) part_128) fun d =>
  let part_128 := _mm256_extracti128_si256 v5 0
  and_then (_mm_storeu_si128 d (s.rgb + 120) part_128) fun d =>
  let part_128 := _mm256_extracti128_si256 v5 1
  and_then (_mm_storeu_si128 d (s.rgb + 132) part_128) fun d =>
  let part_128 := _mm256_extracti128_si256 v6 0
  and_then (_mm_storeu_si128 d (s.rgb + 144) part_128) fun d =>
  let part_128 := _mm256_extracti128_si256 v6 1
  and_then (_mm_storeu_si128 d (s.rgb + 156) part_128) fun d =>
  let part_128 := _mm256_extracti128_si256 v7 0
  and_then (_mm_storeu_si128 d (s.rgb + 168) part_128) fun d =>
  let part_128 := _mm256_extracti128_si256 v7 1
  and_then (_mm_storeu_si128 d (s.rgb + 180) part_128) fun d =>
  some ⟨s.rgba + 256, s.rgb + 192, d⟩

/-- The last block of `copy_rgba_to_rgb__avx2__64pixels`, stored precisely. -/
def copy_rgba_to_rgb__avx2__64pixels.last_block (rgba : Buf) (s : Cursor) : Option Cursor :=
  let d := s.rgb_mem
  and_then (_mm256_loadu_si256 rgba s.rgba) fun v0 =>
  and_then (_mm256_loadu_si256 rgba (s.rgba + 32)) fun v1 =>
  and_then (_mm256_loadu_si256 rgba (s.rgba + 64)) fun v2 =>
  and_then (_mm256_loadu_si256 rgba (s.rgba + 96)) fun v3 =>
  and_then (_mm256_loadu_si256 rgba (s.rgba + 128)) fun v4 =>
  and_then (_mm256_loadu_si256 rgba (s.rgba + 160)) fun v5 =>
  and_then (_mm256_loadu_si256 rgba (s.rgba + 192)) fun v6 =>
  and_then (_mm256_loadu_si256 rgba (s.rgba + 224)) fun v7 =>
  let v0 := _mm256_shuffle_epi8 v0 shuffle_mask
  let v1 := _mm256_shuffle_epi8 v1 shuffle_mask
  let v2 := _mm256_shuffle_epi8 v2 shuffle_mask
  let v3 := _mm256_shuffle_epi8 v3 shuffle_mask
  let v4 := _mm256_shuffle_epi8 v4 shuffle_mask
  let v5 := _mm256_shuffle_epi8 v5 shuffle_mask
  let v6 := _mm256_shuffle_epi8 v6 shuffle_mask
  let v7 := _mm256_shuffle_epi8 v7 shuffle_mask
  let part_128 := _mm256_extracti128_si256 v0 0
  and_then (_mm_storeu_si128 d s.rgb part_128) fun d =>
  let part_128 := _mm256_extracti128_si256 v0 1
  and_then (_mm_storeu_si128 d (s.rgb + 12) part_128) fun d =>
  let part_128 := _mm256_extracti128_si256 v1 0
  and_then (_mm_storeu_si128 d (s.rgb + 24) part_128) fun d =>
  let part_128 := _mm256_extracti128_si256 v1 1
  and_then (_mm_storeu_si128 d (s.rgb + 36) part_128) fun d =>
  let part_128 := _mm256_extracti128_si256 v2 0
  and_then (_mm_storeu_si128 d (s.rgb + 48) part_128) fun d =>
  let part_128 := _mm256_extracti128_si256 v2 1
  and_then (_mm_storeu_si128 d (s.rgb + 60) part_128) fun d =>
  let part_128 := _mm256_extracti128_si256 v3 0
  and_then (_mm_storeu_si128 d (s.rgb + 72) part_128) fun d =>
  let part_128 := _mm256_extracti128_si256 v3 1
  and_then (_mm_storeu_si128 d (s.rgb + 84) part_128) fun d =>
  let part_128 := _mm256_extracti128_si256 v4 0
  and_then (_mm_storeu_si128 d (s.rgb + 96) part_128) fun d =>
  let part_128 := _mm256_extracti128_si256 v4 1
  and_then (_mm_storeu_si128 d (s.rgb + 108) part_128) fun d =>
  let part_128 := _mm256_extracti128_si256 v5 0
  and_then (_mm_storeu_si128 d (s.rgb + 120) part_128) fun d =>
  let part_128 := _mm256_extracti128_si256 v5 1
  and_then (_mm_storeu_si128 d (s.rgb + 132) part_128) fun d =>
  let part_128 := _mm256_extracti128_si256 v6 0
  and_then (_mm_storeu_si128 d (s.rgb + 144) part_128) fun d =>
  let part_128 := _mm256_extracti128_si256 v6 1
  and_then (_mm_storeu_si128 d (s.rgb + 156) part_128) fun d =>
  let part_128 := _mm256_extracti128_si256 v7 0
  and_then (_mm_storeu_si128 d (s.rgb + 168) part_128) fun d =>
  let part_128 := _mm256_extracti128_si256 v7 1
  and_then (_mm_storeu_si64 d (s.rgb + 180) part_128) fun d =>
  let part_128 := _mm_srli_si128 part_128 8
  and_then (_mm_storeu_si32 d (s.rgb + 188) part_128) fun d =>
  some ⟨s.rgba + 256, s.rgb + 192, d⟩

/-- Function `copy_rgba_to_rgb__avx2__64pixels`. -/
def copy_rgba_to_rgb__avx2__64pixels (rgba rgb : Buf) (num_pixels : Nat) : Option Buf :=
  let s : Cursor := ⟨0, 0, rgb⟩
  let num_64pixel_blocks := num_pixels / 64
  and_then (
    if num_64pixel_blocks > 0 then
      and_then (for_loop (fun _ s => copy_rgba_to_rgb__avx2__64pixels.main_block rgba s)
        (size_t_sub num_64pixel_blocks 1 - 0) 0 s) fun s =>
      copy_rgba_to_rgb__avx2__64pixels.last_block rgba s
    else some s) fun s =>
  let i := num_64pixel_blocks * 64
  and_then (for_loop (fun _ s => copy_pixel rgba s) (num_pixels - i) i s) fun s =>
  some s.rgb_mem

/-! ## Validation driver -/

/-- A conversion kernel: source buffer, destination buffer, pixel count. -/
abbrev test_func_t := Buf → Buf → Nat → Option Buf

/-- The kernel list `registry` of `main` (build with AVX2). -/
def registry : List (String × test_func_t) :=
  [ ("memcpy (1 pixel)",       copy_rgba_to_rgb__memcpy)
  , ("raw_pointers (1 pixel)", copy_rgba_to_rgb__raw_ptr)
  , ("raw_pointers (4 pixel)", copy_rgba_to_rgb__raw_ptr__4pixels)
  , ("avx2 (8 pixels)",  copy_rgba_to_rgb__avx2__8pixels)
  , ("avx2 (16 pixels)", copy_rgba_to_rgb__avx2__16pixels)
  , ("avx2 (32 pixels)", copy_rgba_to_rgb__avx2__32pixels)
  , ("avx2 (64 pixels)", copy_rgba_to_rgb__avx2__64pixels) ]

/-- Body of the inner validation loop of `main` for one registry entry and one
pixel count: the calls it makes on `stdout`. -/
def validation_step (t : String × test_func_t) (num_pixels : Nat) : Option (List StdoutCall) :=
  let name := t.1
  let func := t.2
  and_then (make_ascending_data (num_pixels * 4)) fun rgba =>
  let rgb : Buf := List.replicate (num_pixels * 3) 0
  and_then (func rgba rgb num_pixels) fun rgb =>
  and_then (compare_rgba_to_rgb rgba rgb num_pixels) fun r =>
  if r.1 == false then
    some (r.2 ++ [StdoutCall.fprintf "%s failed for %zu pixels\n"
      [PrintfArg.str name, PrintfArg.num num_pixels]])
  else some r.2

/-! ## Specification vocabulary -/

/-- State of a destination buffer `out` during a conversion of `src` into `dst`:
the length is that of `dst`, the bytes below offset `a` hold the converted pixels
(output byte `j` is source byte `4 * (j / 3) + j % 3`), and the bytes from
offset `b` on still hold what `dst` held. -/
def Converted (src dst out : Buf) (a b : Nat) : Prop :=
  out.length = dst.length ∧
  (∀ j, j < a → out[j]? = src[4 * (j / 3) + j % 3]?) ∧
  (∀ j, b ≤ j → out[j]? = dst[j]?)

/-- Position of a kernel after `p` pixels: both pointers stand at pixel `p`, the
destination holds the first `p` converted pixels, and at most `slack` bytes past
them have been disturbed. -/
def CursorAt (src dst : Buf) (s : Cursor) (p slack : Nat) : Prop :=
  s.rgba = 4 * p ∧ s.rgb = 3 * p ∧ Converted src dst s.rgb_mem (3 * p) (3 * p + slack)

/-- A step `f` of a kernel that, whenever it succeeds, has moved the destination
pointer forward by `w` bytes inside a destination buffer of unchanged length. -/
def Advances (f : Cursor → Option Cursor) (w : Nat) : Prop :=
  ∀ s s', f s = some s' →
    s'.rgb = s.rgb + w ∧ s'.rgb_mem.length = s.rgb_mem.length ∧ s'.rgb ≤ s'.rgb_mem.length

/-! ## Verifier output and block footprints: vocabulary -/

/-- Pixel `i` of `rgb` carries the R, G and B bytes of pixel `i` of `rgba`. -/
def pixel_matches (rgba rgb : Buf) (i : Nat) : Prop :=
  ∀ k, k < 3 → rgb[3 * i + k]? = rgba[4 * i + k]?

instance pixel_matches.decidable (rgba rgb : Buf) (i : Nat) :
    Decidable (pixel_matches rgba rgb i) := by
  unfold pixel_matches
  exact inferInstance

/-- The calls a dump loop of `compare_rgba_to_rgb` makes for the first `count` bytes
of `buf`: each byte in index order, and a separator after every `group`-th byte. -/
def dump_calls (buf : Buf) (group count : Nat) : List StdoutCall :=
  ((List.range count).map fun r =>
    StdoutCall.fprintf "%d " [PrintfArg.num (buf.getD r 0).toNat] ::
      (if ((r + 1) % group) = 0 then [StdoutCall.fputs "| "] else [])).flatten

/-- The mismatch line of `compare_rgba_to_rgb` for pixel `i`, with the arguments the
source passes to that `fprintf`, in its order. -/
def mismatch_line (rgba rgb : Buf) (i : Nat) : StdoutCall :=
  StdoutCall.fprintf "Mismatch at i=%zu: RGBA(%d, %d, %d, %d) but got RGB(%d, %d, %d)\n"
    [PrintfArg.num i, PrintfArg.num (rgba.getD (i * 4) 0).toNat,
     PrintfArg.num (rgba.getD (i * 4 + 1) 0).toNat,
     PrintfArg.num (rgba.getD (i * 4 + 1) 0).toNat,
     PrintfArg.num (rgba.getD (i * 4 + 3) 0).toNat,
     PrintfArg.num (rgb.getD (i * 3) 0).toNat, PrintfArg.num (rgb.getD (i * 3 + 1) 0).toNat,
     PrintfArg.num (rgb.getD (i * 3 + 2) 0).toNat]

/-- The calls of `compare_rgba_to_rgb` that dump both buffers before the mismatch
line. -/
def mismatch_dump (rgba rgb : Buf) (num_pixels : Nat) : List StdoutCall :=
  [StdoutCall.fputs "rgba: ["] ++ dump_calls rgba 4 (num_pixels * 4) ++
  [StdoutCall.fputs "]\nrgb: ["] ++ dump_calls rgb 3 (num_pixels * 3) ++
  [StdoutCall.fputs "]\n"]

/-- The calls `compare_rgba_to_rgb` makes when it finds a mismatch at pixel `i`: the
two buffer dumps and then the mismatch line. -/
def mismatch_calls (rgba rgb : Buf) (num_pixels i : Nat) : List StdoutCall :=
  mismatch_dump rgba rgb num_pixels ++ [mismatch_line rgba rgb i]

/-- Effect of some stores on a destination `mem`, giving `out`: the length is kept, the
bytes below offset `lo` and the bytes from offset `b` on are those of `mem`, and the
bytes in `[lo, a)` hold the converted pixels (output byte `j` is source byte
`4 * (j / 3) + j % 3`). -/
def Region (src mem out : Buf) (lo a b : Nat) : Prop :=
  out.length = mem.length ∧
  (∀ j, j < lo → out[j]? = mem[j]?) ∧
  (∀ j, lo ≤ j → j < a → out[j]? = src[4 * (j / 3) + j % 3]?) ∧
  (∀ j, b ≤ j → out[j]? = mem[j]?)

/-- One vector kernel of the source: its block width in pixels, the body of its main
loop, its last block, and the kernel itself. -/
structure VectorKernel where
  W : Nat
  main_block : Buf → Cursor → Option Cursor
  last_block : Buf → Cursor → Option Cursor
  kernel : test_func_t

/-- The width-8 vector kernel `copy_rgba_to_rgb__avx2__8pixels` and its two blocks. -/
def vector_kernel_8 : VectorKernel :=
  ⟨8, copy_rgba_to_rgb__avx2__8pixels.main_block,
    copy_rgba_to_rgb__avx2__8pixels.last_block, copy_rgba_to_rgb__avx2__8pixels⟩

/-- The width-16 vector kernel `copy_rgba_to_rgb__avx2__16pixels` and its two blocks. -/
def vector_kernel_16 : VectorKernel :=
  ⟨16, copy_rgba_to_rgb__avx2__16pixels.main_block,
    copy_rgba_to_rgb__avx2__16pixels.last_block, copy_rgba_to_rgb__avx2__16pixels⟩

/-- The width-32 vector kernel `copy_rgba_to_rgb__avx2__32pixels` and its two blocks. -/
def vector_kernel_32 : VectorKernel :=
  ⟨32, copy_rgba_to_rgb__avx2__32pixels.main_block,
    copy_rgba_to_rgb__avx2__32pixels.last_block, copy_rgba_to_rgb__avx2__32pixels⟩

/-- The width-64 vector kernel `copy_rgba_to_rgb__avx2__64pixels` and its two blocks. -/
def vector_kernel_64 : VectorKernel :=
  ⟨64, copy_rgba_to_rgb__avx2__64pixels.main_block,
    copy_rgba_to_rgb__avx2__64pixels.last_block, copy_rgba_to_rgb__avx2__64pixels⟩

/-- The four vector kernels of the source. -/
def vector_kernels : List VectorKernel :=
  [vector_kernel_8, vector_kernel_16, vector_kernel_32, vector_kernel_64]

/-- The control structure shared by the four vector kernels, with the trip count of
the main loop, the loop body and the last block left open: the guard on the block
count, the main loop and the last block, then the scalar remainder loop. -/
def vector_kernel_run (W main_trips : Nat) (main_block last_block : Buf → Cursor → Option Cursor)
    (rgba rgb : Buf) (num_pixels : Nat) : Option Buf :=
  let s : Cursor := ⟨0, 0, rgb⟩
  let num_blocks := num_pixels / W
  and_then (
    if num_blocks > 0 then
      and_then (for_loop (fun _ s => main_block rgba s) main_trips 0 s) fun s =>
      last_block rgba s
    else some s) fun s =>
  let i := num_blocks * W
  and_then (for_loop (fun _ s => copy_pixel rgba s) (num_pixels - i) i s) fun s =>
  some s.rgb_mem

/-- Body of the unrolled loop of `copy_rgba_to_rgb__raw_ptr__4pixels`: the per-pixel
statement group four times ("Pixel 1" to "Pixel 4"). -/
def copy_rgba_to_rgb__raw_ptr__4pixels.unrolled_body (rgba : Buf) (s : Cursor) : Option Cursor :=
  and_then (copy_pixel rgba s) fun s =>
  and_then (copy_pixel rgba s) fun s =>
  and_then (copy_pixel rgba s) fun s =>
  copy_pixel rgba s

/-- The dump of an `n`-pixel buffer in the words of the specification: pixel by pixel,
the `group` bytes of the pixel in index order, and the separator after them. -/
def pixel_dump (buf : Buf) (group n : Nat) : List StdoutCall :=
  ((List.range n).map fun i =>
    ((List.range group).map fun k =>
      StdoutCall.fprintf "%d " [PrintfArg.num (buf.getD (i * group + k) 0).toNat]) ++
    [StdoutCall.fputs "| "]).flatten

/-- One observable step of the validation sweep of `main`: a call that writes to
`stdout`, or the call `func(rgba.data(), rgb.data(), num_pixels)` of the registry
entry called `name`. -/
inductive SweepEvent
  | out (c : StdoutCall)
  | invoke (name : String) (num_pixels : Nat)
deriving DecidableEq

/-- The pair `(num_pixels, name)` of a kernel call of the sweep, nothing for a write
to `stdout`. -/
def SweepEvent.invocation : SweepEvent → Option (Nat × String)
  | SweepEvent.invoke name num_pixels => some (num_pixels, name)
  | SweepEvent.out _ => none

/-- The call on `stdout` of a write of the sweep, nothing for a kernel call. -/
def SweepEvent.stdout : SweepEvent → Option StdoutCall
  | SweepEvent.out c => some c
  | SweepEvent.invoke _ _ => none

/-- The vector `num_pixels_cases` of `main`: `0 .. 512` pushed by the loop, then
`800 * 600` and `1920 * 1080`. -/
def num_pixels_cases : List Nat :=
  List.range (512 + 1) ++ [800 * 600, 1920 * 1080]

/-- Inner validation loop of `main`, `for(const test_name_and_func_t& t : registry)`,
as the steps it takes. The verifier is a parameter: `check num_pixels t` is the value
that `compare_rgba_to_rgb` returns for the pair and the calls it makes on `stdout`. -/
def main.validation_kernels (check : Nat → String × test_func_t → Bool × List StdoutCall)
    (num_pixels : Nat) : List (String × test_func_t) → List SweepEvent
  | [] => []
  | t :: rest =>
    let name := t.1
    let r := check num_pixels t
    [SweepEvent.invoke name num_pixels] ++ r.2.map SweepEvent.out ++
    (if r.1 == false then
      [SweepEvent.out (StdoutCall.fprintf "%s failed for %zu pixels\n"
        [PrintfArg.str name, PrintfArg.num num_pixels])]
    else []) ++
    main.validation_kernels check num_pixels rest

/-- Outer validation loop of `main`,
`for(size_t i = 0; i < num_pixels_cases.size(); ++i)`, from index `i` on, `cases`
being the cases from that index on. -/
def main.validation_cases (check : Nat → String × test_func_t → Bool × List StdoutCall) :
    Nat → List Nat → List SweepEvent
  | _, [] => []
  | i, num_pixels :: cases =>
    [SweepEvent.out (StdoutCall.fprintf "%zu. Validation case: %zu pixels\n"
      [PrintfArg.num i, PrintfArg.num num_pixels])] ++
    main.validation_kernels check num_pixels registry ++
    main.validation_cases check (i + 1) cases

/-- The validation section of `main`. -/
def main.validation (check : Nat → String × test_func_t → Bool × List StdoutCall) :
    List SweepEvent :=
  main.validation_cases check 0 num_pixels_cases

/-! ## Theorems -/

/-! ## Memory lemmas -/

theorem length_write_bytes (mem : Buf) (off : Nat) (bs : List UInt8)
    (h : off + bs.length ≤ mem.length) : (write_bytes mem off bs).length = mem.length := by
  simp only [write_bytes, List.length_append, List.length_take, List.length_drop]
  omega

theorem getElem?_write_bytes (mem : Buf) (off : Nat) (bs : List UInt8) (j : Nat)
    (h : off + bs.length ≤ mem.length) :
    (write_bytes mem off bs)[j]? =
      if j < off then mem[j]? else if j < off + bs.length then bs[j - off]? else mem[j]? := by
  have hoff : off ≤ mem.length := by omega
  have htake : (mem.take off).length = off := by simp [List.length_take, hoff]
  unfold write_bytes
  by_cases h1 : j < off
  · rw [if_pos h1, List.append_assoc, List.getElem?_append_left (by omega),
      List.getElem?_take_of_lt h1]
  · rw [if_neg h1, List.append_assoc, List.getElem?_append_right (by omega), htake]
    by_cases h2 : j < off + bs.length
    · rw [if_pos h2, List.getElem?_append_left (by omega)]
    · rw [if_neg h2, List.getElem?_append_right (by omega), List.getElem?_drop]
      congr 1
      omega

theorem store_bytes_eq (mem : Buf) (off : Nat) (bs : List UInt8)
    (h : off + bs.length ≤ mem.length) :
    store_bytes mem off bs = some (write_bytes mem off bs) := by
  simp [store_bytes, h]

theorem and_then_some {α β : Type} (a : α) (f : α → Option β) : and_then (some a) f = f a := rfl

theorem and_then_none {α β : Type} (f : α → Option β) : and_then none f = none := rfl

/-! ## The conversion invariant -/

theorem Converted.init (src dst : Buf) : Converted src dst dst 0 0 :=
  ⟨rfl, fun _ h => absurd h (Nat.not_lt_zero _), fun _ _ => rfl⟩

theorem Converted.mono {src dst out : Buf} {a b b' : Nat} (h : Converted src dst out a b)
    (hb : b ≤ b') : Converted src dst out a b' :=
  ⟨h.1, h.2.1, fun j hj => h.2.2 j (Nat.le_trans hb hj)⟩

theorem Converted.write {src dst out : Buf} {a b : Nat} (bs : List UInt8) (c : Nat)
    (h : Converted src dst out a b) (hb : b ≤ a + bs.length)
    (hlen : a + bs.length ≤ dst.length) (hc : c ≤ bs.length)
    (hbs : ∀ j, j < c → bs[j]? = src[4 * ((a + j) / 3) + (a + j) % 3]?) :
    Converted src dst (write_bytes out a bs) (a + c) (a + bs.length) := by
  obtain ⟨h1, h2, h3⟩ := h
  have hlen' : a + bs.length ≤ out.length := by omega
  refine ⟨by rw [length_write_bytes _ _ _ hlen', h1], ?_, ?_⟩
  · intro j hj
    rw [getElem?_write_bytes _ _ _ _ hlen']
    by_cases hja : j < a
    · rw [if_pos hja]; exact h2 j hja
    · rw [if_neg hja, if_pos (by omega)]
      have := hbs (j - a) (by omega)
      rw [this]
      congr 2 <;> congr 1 <;> omega
  · intro j hj
    rw [getElem?_write_bytes _ _ _ _ hlen', if_neg (by omega), if_neg (by omega)]
    exact h3 j (by omega)

theorem Converted.unique {src dst out out' : Buf} {a : Nat}
    (h : Converted src dst out a a) (h' : Converted src dst out' a a) : out = out' := by
  apply List.ext_getElem?
  intro j
  by_cases hj : j < a
  · rw [h.2.1 j hj, h'.2.1 j hj]
  · rw [h.2.2 j (by omega), h'.2.2 j (by omega)]

/-! ## Scalar steps -/

theorem copy_byte {src dst d : Buf} {p k : Nat} (hk : k < 3)
    (hc : Converted src dst d (3 * p + k) (3 * p + k))
    (hsrc : 4 * p + k < src.length) (hdst : 3 * p + k < dst.length) :
    ∃ x d', load src (4 * p + k) = some x ∧ store d (3 * p + k) x = some d' ∧
      Converted src dst d' (3 * p + k + 1) (3 * p + k + 1) := by
  have hx : src[4 * p + k]? = some (src[4 * p + k]) := List.getElem?_eq_getElem hsrc
  refine ⟨src[4 * p + k], write_bytes d (3 * p + k) [src[4 * p + k]], hx, ?_, ?_⟩
  · exact store_bytes_eq _ _ _ (by rw [hc.1]; simpa using hdst)
  · refine Converted.write [src[4 * p + k]] 1 hc (by simp) (by simpa using hdst) (by simp) ?_
    intro j hj
    have hj0 : j = 0 := by omega
    subst hj0
    have e : 4 * ((3 * p + k + 0) / 3) + (3 * p + k + 0) % 3 = 4 * p + k := by omega
    rw [e, hx]
    rfl

theorem copy_pixel_spec {src dst : Buf} {s : Cursor} {p : Nat} (h : CursorAt src dst s p 0)
    (hsrc : 4 * (p + 1) ≤ src.length) (hdst : 3 * (p + 1) ≤ dst.length) :
    ∃ s', copy_pixel src s = some s' ∧ CursorAt src dst s' (p + 1) 0 := by
  obtain ⟨hra, hrb, hc⟩ := h
  obtain ⟨x0, d0, hl0, hs0, c0⟩ := copy_byte (k := 0) (by omega) hc (by omega) (by omega)
  obtain ⟨x1, d1, hl1, hs1, c1⟩ := copy_byte (k := 1) (by omega) c0 (by omega) (by omega)
  obtain ⟨x2, d2, hl2, hs2, c2⟩ := copy_byte (k := 2) (by omega) c1 (by omega) (by omega)
  refine ⟨⟨s.rgba + 4, s.rgb + 3, d2⟩, ?_, ?_⟩
  · simp only [copy_pixel, hra, hrb, hl0, hs0, hl1, hs1, hl2, hs2, and_then_some]
  · exact ⟨by simp only [hra]; omega, by simp only [hrb]; omega, c2⟩

theorem pixel_loop_spec (src dst : Buf) (k : Nat) :
    ∀ (i : Nat) (s : Cursor) (p : Nat), CursorAt src dst s p 0 →
      4 * (p + k) ≤ src.length → 3 * (p + k) ≤ dst.length →
      ∃ s', for_loop (fun _ s => copy_pixel src s) k i s = some s' ∧
        CursorAt src dst s' (p + k) 0 := by
  induction k with
  | zero => intro i s p h _ _; exact ⟨s, rfl, h⟩
  | succ k ih =>
    intro i s p h hsrc hdst
    obtain ⟨s1, e1, h1⟩ := copy_pixel_spec h (by omega) (by omega)
    obtain ⟨s2, e2, h2⟩ := ih (i + 1) s1 (p + 1) h1 (by omega) (by omega)
    refine ⟨s2, ?_, ?_⟩
    · simp only [for_loop, e1, Option.some_bind, e2]
    · have e : p + (k + 1) = p + 1 + k := by omega
      rw [e]; exact h2

theorem memcpy_step {src dst d : Buf} {i : Nat} (hc : Converted src dst d (3 * i) (3 * i))
    (hsrc : 4 * (i + 1) ≤ src.length) (hdst : 3 * (i + 1) ≤ dst.length) :
    ∃ d', memcpy d (i * (1 * 3)) src (i * (1 * 4)) (1 * 3) = some d' ∧
      Converted src dst d' (3 * (i + 1)) (3 * (i + 1)) := by
  have hlenbs : ((src.drop (i * (1 * 4))).take (1 * 3)).length = 3 := by
    simp only [List.length_take, List.length_drop]; omega
  refine ⟨write_bytes d (i * (1 * 3)) ((src.drop (i * (1 * 4))).take (1 * 3)), ?_, ?_⟩
  · have h1 : load_bytes src (i * (1 * 4)) (1 * 3) = some ((src.drop (i * (1 * 4))).take (1 * 3)) := by
      simp only [load_bytes]; rw [if_pos (by omega)]
    simp only [memcpy, h1, Option.some_bind]
    exact store_bytes_eq _ _ _ (by rw [hlenbs, hc.1]; omega)
  · have e3 : i * (1 * 3) = 3 * i := by omega
    have key := Converted.write ((src.drop (i * (1 * 4))).take (1 * 3)) 3 hc
      (by rw [hlenbs]; omega) (by rw [hlenbs]; omega) (by rw [hlenbs]) (by
        intro j hj
        rw [List.getElem?_take_of_lt (by omega), List.getElem?_drop]
        congr 1; omega)
    rw [hlenbs] at key
    rw [e3]
    have e : 3 * (i + 1) = 3 * i + 3 := by omega
    rw [e]; exact key

theorem memcpy_loop_spec (src dst : Buf) (k : Nat) :
    ∀ (i : Nat) (d : Buf), Converted src dst d (3 * i) (3 * i) →
      4 * (i + k) ≤ src.length → 3 * (i + k) ≤ dst.length →
      ∃ d', for_loop (fun i rgb => memcpy rgb (i * (1 * 3)) src (i * (1 * 4)) (1 * 3)) k i d
          = some d' ∧ Converted src dst d' (3 * (i + k)) (3 * (i + k)) := by
  induction k with
  | zero => intro i d h _ _; exact ⟨d, rfl, h⟩
  | succ k ih =>
    intro i d h hsrc hdst
    obtain ⟨d1, e1, h1⟩ := memcpy_step h (by omega) (by omega)
    obtain ⟨d2, e2, h2⟩ := ih (i + 1) d1 h1 (by omega) (by omega)
    refine ⟨d2, ?_, ?_⟩
    · simp only [for_loop, e1, Option.some_bind, e2]
    · have e : i + (k + 1) = i + 1 + k := by omega
      rw [e]; exact h2

/-! ## Scalar kernels -/

theorem memcpy_kernel_spec (src dst : Buf) (n : Nat)
    (hsrc : 4 * n ≤ src.length) (hdst : 3 * n ≤ dst.length) :
    ∃ out, copy_rgba_to_rgb__memcpy src dst n = some out ∧
      Converted src dst out (3 * n) (3 * n) := by
  obtain ⟨d, e, h⟩ := memcpy_loop_spec src dst n 0 dst
    (Converted.init src dst) (by omega) (by omega)
  refine ⟨d, ?_, ?_⟩
  · simpa only [copy_rgba_to_rgb__memcpy, Nat.sub_zero] using e
  · simpa only [Nat.zero_add] using h

theorem CursorAt.start (src dst : Buf) : CursorAt src dst ⟨0, 0, dst⟩ 0 0 :=
  ⟨rfl, rfl, Converted.init src dst⟩

theorem raw_ptr_kernel_spec (src dst : Buf) (n : Nat)
    (hsrc : 4 * n ≤ src.length) (hdst : 3 * n ≤ dst.length) :
    ∃ out, copy_rgba_to_rgb__raw_ptr src dst n = some out ∧
      Converted src dst out (3 * n) (3 * n) := by
  obtain ⟨s, e, h⟩ := pixel_loop_spec src dst n 0 ⟨0, 0, dst⟩ 0
    (CursorAt.start src dst) (by omega) (by omega)
  refine ⟨s.rgb_mem, ?_, ?_⟩
  · simp only [copy_rgba_to_rgb__raw_ptr, Nat.sub_zero, e, and_then_some]
  · simpa only [Nat.zero_add, Nat.add_zero] using h.2.2

/-! ## The shuffle mask -/

theorem shuffle_lane (v : M256) (h : Fin 2) (j : Fin 12) :
    _mm256_extracti128_si256
        (_mm256_shuffle_epi8 v copy_rgba_to_rgb__avx2__8pixels.shuffle_mask) h.val
        ⟨j.val, by omega⟩
      = v ⟨16 * h.val + 4 * (j.val / 3) + j.val % 3, by omega⟩ := by
  fin_cases h <;> fin_cases j <;> rfl

theorem shuffle_mask_16_eq : copy_rgba_to_rgb__avx2__16pixels.shuffle_mask
    = copy_rgba_to_rgb__avx2__8pixels.shuffle_mask := rfl

theorem shuffle_mask_32_eq : copy_rgba_to_rgb__avx2__32pixels.shuffle_mask
    = copy_rgba_to_rgb__avx2__8pixels.shuffle_mask := rfl

theorem shuffle_mask_64_eq : copy_rgba_to_rgb__avx2__64pixels.shuffle_mask
    = copy_rgba_to_rgb__avx2__8pixels.shuffle_mask := rfl

theorem loadu_some (mem : Buf) (off : Nat) (h : off + 32 ≤ mem.length) :
    ∃ v, _mm256_loadu_si256 mem off = some v := by
  simp only [_mm256_loadu_si256, dif_pos h]
  exact ⟨_, rfl⟩

theorem loadu_apply {mem : Buf} {off : Nat} {v : M256}
    (hv : _mm256_loadu_si256 mem off = some v) (i : Fin 32) :
    off + 32 ≤ mem.length ∧ mem[off + i.val]? = some (v i) := by
  unfold _mm256_loadu_si256 at hv
  split at hv
  · rename_i h
    injection hv with hv
    subst hv
    exact ⟨h, List.getElem?_eq_getElem _⟩
  · exact absurd hv (by simp)

theorem lane_getElem? {src : Buf} {so : Nat} {v : M256}
    (hv : _mm256_loadu_si256 src so = some v) {h : Nat} (hh : h < 2) {j : Nat} (hj : j < 12) :
    (List.ofFn (_mm256_extracti128_si256
        (_mm256_shuffle_epi8 v copy_rgba_to_rgb__avx2__8pixels.shuffle_mask) h))[j]?
      = src[so + 16 * h + 4 * (j / 3) + j % 3]? := by
  have hlen : j < (List.ofFn (_mm256_extracti128_si256
        (_mm256_shuffle_epi8 v copy_rgba_to_rgb__avx2__8pixels.shuffle_mask) h)).length := by
    rw [List.length_ofFn]; omega
  rw [List.getElem?_eq_getElem hlen, List.getElem_ofFn]
  have key := shuffle_lane v ⟨h, hh⟩ ⟨j, hj⟩
  have hsrc := (loadu_apply hv ⟨16 * h + 4 * (j / 3) + j % 3, by omega⟩).2
  simp only at key hsrc
  rw [key, ← hsrc]
  congr 1
  omega

theorem Converted.congr {src dst out : Buf} {a b a' b' : Nat} (h : Converted src dst out a b)
    (ha : a = a') (hb : b = b') : Converted src dst out a' b' := by
  subst ha; subst hb; exact h

/-! ## Lane stores -/

theorem store_lane_si128 {src dst d : Buf} {so q b : Nat} {v : M256} (o h : Nat)
    (hv : _mm256_loadu_si256 src so = some v) (hc : Converted src dst d (3 * q) b)
    (hh : h < 2) (hq : so + 16 * h = 4 * q) (ho : o = 3 * q)
    (hb : b ≤ 3 * q + 16) (hdst : 3 * q + 16 ≤ dst.length) :
    ∃ d', _mm_storeu_si128 d o (_mm256_extracti128_si256
        (_mm256_shuffle_epi8 v copy_rgba_to_rgb__avx2__8pixels.shuffle_mask) h) = some d' ∧
      Converted src dst d' (3 * (q + 4)) (3 * (q + 4) + 4) := by
  subst ho
  have hl : (List.ofFn (_mm256_extracti128_si256
      (_mm256_shuffle_epi8 v copy_rgba_to_rgb__avx2__8pixels.shuffle_mask) h)).length = 16 :=
    List.length_ofFn _
  refine ⟨_, store_bytes_eq _ _ _ (by rw [hl, hc.1]; exact hdst), ?_⟩
  have key := Converted.write _ 12 hc (by rw [hl]; exact hb) (by rw [hl]; exact hdst)
    (by rw [hl]; omega) (by
      intro j hj
      rw [lane_getElem? hv hh hj]
      congr 1; omega)
  rw [hl] at key
  exact key.congr (by omega) (by omega)

theorem store_lane_si64 {src dst d : Buf} {so q b : Nat} {v : M256} (o h : Nat)
    (hv : _mm256_loadu_si256 src so = some v) (hc : Converted src dst d (3 * q) b)
    (hh : h < 2) (hq : so + 16 * h = 4 * q) (ho : o = 3 * q)
    (hb : b ≤ 3 * q + 8) (hdst : 3 * q + 8 ≤ dst.length) :
    ∃ d', _mm_storeu_si64 d o (_mm256_extracti128_si256
        (_mm256_shuffle_epi8 v copy_rgba_to_rgb__avx2__8pixels.shuffle_mask) h) = some d' ∧
      Converted src dst d' (3 * q + 8) (3 * q + 8) := by
  subst ho
  have hl : ((List.ofFn (_mm256_extracti128_si256
      (_mm256_shuffle_epi8 v copy_rgba_to_rgb__avx2__8pixels.shuffle_mask) h)).take 8).length
      = 8 := by
    rw [List.length_take, List.length_ofFn]; rfl
  refine ⟨_, store_bytes_eq _ _ _ (by rw [hl, hc.1]; exact hdst), ?_⟩
  have key := Converted.write _ 8 hc (by rw [hl]; exact hb) (by rw [hl]; exact hdst)
    (by rw [hl]) (by
      intro j hj
      rw [List.getElem?_take_of_lt hj, lane_getElem? hv hh (by omega)]
      congr 1; omega)
  rw [hl] at key
  exact key

theorem store_lane_si32 {src dst d : Buf} {so q b : Nat} {v : M256} (o h : Nat)
    (hv : _mm256_loadu_si256 src so = some v) (hc : Converted src dst d (3 * q + 8) b)
    (hh : h < 2) (hq : so + 16 * h = 4 * q) (ho : o = 3 * q + 8)
    (hb : b ≤ 3 * q + 12) (hdst : 3 * q + 12 ≤ dst.length) :
    ∃ d', _mm_storeu_si32 d o (_mm_srli_si128 (_mm256_extracti128_si256
        (_mm256_shuffle_epi8 v copy_rgba_to_rgb__avx2__8pixels.shuffle_mask) h) 8) = some d' ∧
      Converted src dst d' (3 * (q + 4)) (3 * (q + 4)) := by
  subst ho
  have hl : ((List.ofFn (_mm_srli_si128 (_mm256_extracti128_si256
      (_mm256_shuffle_epi8 v copy_rgba_to_rgb__avx2__8pixels.shuffle_mask) h) 8)).take 4).length
      = 4 := by
    rw [List.length_take, List.length_ofFn]; rfl
  refine ⟨_, store_bytes_eq _ _ _ (by rw [hl, hc.1]; exact hdst), ?_⟩
  have key := Converted.write _ 4 hc (by rw [hl]; exact hb) (by rw [hl]; exact hdst)
    (by rw [hl]) (by
      intro j hj
      have hlen : j < (List.ofFn (_mm_srli_si128 (_mm256_extracti128_si256
          (_mm256_shuffle_epi8 v copy_rgba_to_rgb__avx2__8pixels.shuffle_mask) h) 8)).length := by
        rw [List.length_ofFn]; omega
      have hlen' : j + 8 < (List.ofFn (_mm256_extracti128_si256
          (_mm256_shuffle_epi8 v copy_rgba_to_rgb__avx2__8pixels.shuffle_mask) h)).length := by
        rw [List.length_ofFn]; omega
      have h8 : j + 8 < 16 := by omega
      have hsh := lane_getElem? hv hh (show j + 8 < 12 by omega)
      rw [List.getElem?_eq_getElem hlen', List.getElem_ofFn] at hsh
      rw [List.getElem?_take_of_lt hj, List.getElem?_eq_getElem hlen, List.getElem_ofFn]
      simp only [_mm_srli_si128, dif_pos h8]
      rw [hsh]
      congr 1; omega)
  rw [hl] at key
  exact key.congr (by omega) (by omega)

theorem and_then_of_eq_some {α β : Type} {x : Option α} {a : α} (h : x = some a)
    (f : α → Option β) : and_then x f = f a := by
  subst h; rfl

/-! ## Vector blocks -/

theorem main_block_8_spec {src dst : Buf} {s : Cursor} {p : Nat}
    (h : CursorAt src dst s p 4) (hsrc : 4 * (p + 8) ≤ src.length)
    (hdst : 3 * (p + 8) + 4 ≤ dst.length) :
    ∃ s', copy_rgba_to_rgb__avx2__8pixels.main_block src s = some s' ∧
      CursorAt src dst s' (p + 8) 4 := by
  obtain ⟨ra, rb, mem⟩ := s
  obtain ⟨hra, hrb, c0⟩ := h
  simp only at hra hrb c0
  subst hra hrb
  obtain ⟨v0, hv0⟩ := loadu_some src (4 * p) (by omega)
  obtain ⟨d1, e1, c1⟩ := store_lane_si128 (3 * p) 0 hv0 c0
    (by omega) (by omega) (by omega) (by omega) (by omega)
  obtain ⟨d2, e2, c2⟩ := store_lane_si128 (3 * p + 12) 1 hv0 c1
    (by omega) (by omega) (by omega) (by omega) (by omega)
  refine ⟨⟨4 * p + 32, 3 * p + 24, d2⟩, ?_, ⟨by simp only; omega, by simp only; omega,
    c2.congr (by omega) (by omega)⟩⟩
  refine (and_then_of_eq_some hv0 _).trans ?_
  refine (and_then_of_eq_some e1 _).trans ?_
  refine (and_then_of_eq_some e2 _).trans ?_
  rfl

theorem last_block_8_spec {src dst : Buf} {s : Cursor} {p : Nat}
    (h : CursorAt src dst s p 4) (hsrc : 4 * (p + 8) ≤ src.length)
    (hdst : 3 * (p + 8) ≤ dst.length) :
    ∃ s', copy_rgba_to_rgb__avx2__8pixels.last_block src s = some s' ∧
      CursorAt src dst s' (p + 8) 0 := by
  obtain ⟨ra, rb, mem⟩ := s
  obtain ⟨hra, hrb, c0⟩ := h
  simp only at hra hrb c0
  subst hra hrb
  obtain ⟨v0, hv0⟩ := loadu_some src (4 * p) (by omega)
  obtain ⟨d1, e1, c1⟩ := store_lane_si128 (3 * p) 0 hv0 c0
    (by omega) (by omega) (by omega) (by omega) (by omega)
  obtain ⟨d2, e2, c2⟩ := store_lane_si64 (3 * p + 12) 1 hv0 c1
    (by omega) (by omega) (by omega) (by omega) (by omega)
  obtain ⟨d3, e3, c3⟩ := store_lane_si32 (3 * p + 20) 1 hv0 c2
    (by omega) (by omega) (by omega) (by omega) (by omega)
  refine ⟨⟨4 * p + 32, 3 * p + 24, d3⟩, ?_, ⟨by simp only; omega, by simp only; omega,
    c3.congr (by omega) (by omega)⟩⟩
  refine (and_then_of_eq_some hv0 _).trans ?_
  refine (and_then_of_eq_some e1 _).trans ?_
  refine (and_then_of_eq_some e2 _).trans ?_
  refine (and_then_of_eq_some e3 _).trans ?_
  rfl

theorem main_block_16_spec {src dst : Buf} {s : Cursor} {p : Nat}
    (h : CursorAt src dst s p 4) (hsrc : 4 * (p + 16) ≤ src.length)
    (hdst : 3 * (p + 16) + 4 ≤ dst.length) :
    ∃ s', copy_rgba_to_rgb__avx2__16pixels.main_block src s = some s' ∧
      CursorAt src dst s' (p + 16) 4 := by
  obtain ⟨ra, rb, mem⟩ := s
  obtain ⟨hra, hrb, c0⟩ := h
  simp only at hra hrb c0
  subst hra hrb
  obtain ⟨v0, hv0⟩ := loadu_some src (4 * p) (by omega)
  obtain ⟨v1, hv1⟩ := loadu_some src (4 * p + 32) (by omega)
  obtain ⟨d1, e1, c1⟩ := store_lane_si128 (3 * p) 0 hv0 c0
    (by omega) (by omega) (by omega) (by omega) (by omega)
  obtain ⟨d2, e2, c2⟩ := store_lane_si128 (3 * p + 12) 1 hv0 c1
    (by omega) (by omega) (by omega) (by omega) (by omega)
  obtain ⟨d3, e3, c3⟩ := store_lane_si128 (3 * p + 24) 0 hv1 c2
    (by omega) (by omega) (by omega) (by omega) (by omega)
  obtain ⟨d4, e4, c4⟩ := store_lane_si128 (3 * p + 36) 1 hv1 c3
    (by omega) (by omega) (by omega) (by omega) (by omega)
  refine ⟨⟨4 * p + 64, 3 * p + 48, d4⟩, ?_, ⟨by simp only; omega, by simp only; omega,
    c4.congr (by omega) (by omega)⟩⟩
  refine (and_then_of_eq_some hv0 _).trans ?_
  refine (and_then_of_eq_some hv1 _).trans ?_
  refine (and_then_of_eq_some e1 _).trans ?_
  refine (and_then_of_eq_some e2 _).trans ?_
  refine (and_then_of_eq_some e3 _).trans ?_
  refine (and_then_of_eq_some e4 _).trans ?_
  rfl

theorem last_block_16_spec {src dst : Buf} {s : Cursor} {p : Nat}
    (h : CursorAt src dst s p 4) (hsrc : 4 * (p + 16) ≤ src.length)
    (hdst : 3 * (p + 16) ≤ dst.length) :
    ∃ s', copy_rgba_to_rgb__avx2__16pixels.last_block src s = some s' ∧
      CursorAt src dst s' (p + 16) 0 := by
  obtain ⟨ra, rb, mem⟩ := s
  obtain ⟨hra, hrb, c0⟩ := h
  simp only at hra hrb c0
  subst hra hrb
  obtain ⟨v0, hv0⟩ := loadu_some src (4 * p) (by omega)
  obtain ⟨v1, hv1⟩ := loadu_some src (4 * p + 32) (by omega)
  obtain ⟨d1, e1, c1⟩ := store_lane_si128 (3 * p) 0 hv0 c0
    (by omega) (by omega) (by omega) (by omega) (by omega)
  obtain ⟨d2, e2, c2⟩ := store_lane_si128 (3 * p + 12) 1 hv0 c1
    (by omega) (by omega) (by omega) (by omega) (by omega)
  obtain ⟨d3, e3, c3⟩ := store_lane_si128 (3 * p + 24) 0 hv1 c2
    (by omega) (by omega) (by omega) (by omega) (by omega)
  obtain ⟨d4, e4, c4⟩ := store_lane_si64 (3 * p + 36) 1 hv1 c3
    (by omega) (by omega) (by omega) (by omega) (by omega)
  obtain ⟨d5, e5, c5⟩ := store_lane_si32 (3 * p + 44) 1 hv1 c4
    (by omega) (by omega) (by omega) (by omega) (by omega)
  refine ⟨⟨4 * p + 64, 3 * p + 48, d5⟩, ?_, ⟨by simp only; omega, by simp only; omega,
    c5.congr (by omega) (by omega)⟩⟩
  refine (and_then_of_eq_some hv0 _).trans ?_
  refine (and_then_of_eq_some hv1 _).trans ?_
  refine (and_then_of_eq_some e1 _).trans ?_
  refine (and_then_of_eq_some e2 _).trans ?_
  refine (and_then_of_eq_some e3 _).trans ?_
  refine (and_then_of_eq_some e4 _).trans ?_
  refine (and_then_of_eq_some e5 _).trans ?_
  rfl

theorem main_block_32_spec {src dst : Buf} {s : Cursor} {p : Nat}
    (h : CursorAt src dst s p 4) (hsrc : 4 * (p + 32) ≤ src.length)
    (hdst : 3 * (p + 32) + 4 ≤ dst.length) :
    ∃ s', copy_rgba_to_rgb__avx2__32pixels.main_block src s = some s' ∧
      CursorAt src dst s' (p + 32) 4 := by
  obtain ⟨ra, rb, mem⟩ := s
  obtain ⟨hra, hrb, c0⟩ := h
  simp only at hra hrb c0
  subst hra hrb
  obtain ⟨v0, hv0⟩ := loadu_some src (4 * p) (by omega)
  obtain ⟨v1, hv1⟩ := loadu_some src (4 * p + 32) (by omega)
  obtain ⟨v2, hv2⟩ := loadu_some src (4 * p + 64) (by omega)
  obtain ⟨v3, hv3⟩ := loadu_some src (4 * p + 96) (by omega)
  obtain ⟨d1, e1, c1⟩ := store_lane_si128 (3 * p) 0 hv0 c0
    (by omega) (by omega) (by omega) (by omega) (by omega)
  obtain ⟨d2, e2, c2⟩ := store_lane_si128 (3 * p + 12) 1 hv0 c1
    (by omega) (by omega) (by omega) (by omega) (by omega)
  obtain ⟨d3, e3, c3⟩ := store_lane_si128 (3 * p + 24) 0 hv1 c2
    (by omega) (by omega) (by omega) (by omega) (by omega)
  obtain ⟨d4, e4, c4⟩ := store_lane_si128 (3 * p + 36) 1 hv1 c3
    (by omega) (by omega) (by omega) (by omega) (by omega)
  obtain ⟨d5, e5, c5⟩ := store_lane_si128 (3 * p + 48) 0 hv2 c4
    (by omega) (by omega) (by omega) (by omega) (by omega)
  obtain ⟨d6, e6, c6⟩ := store_lane_si128 (3 * p + 60) 1 hv2 c5
    (by omega) (by omega) (by omega) (by omega) (by omega)
  obtain ⟨d7, e7, c7⟩ := store_lane_si128 (3 * p + 72) 0 hv3 c6
    (by omega) (by omega) (by omega) (by omega) (by omega)
  obtain ⟨d8, e8, c8⟩ := store_lane_si128 (3 * p + 84) 1 hv3 c7
    (by omega) (by omega) (by omega) (by omega) (by omega)
  refine ⟨⟨4 * p + 128, 3 * p + 96, d8⟩, ?_, ⟨by simp only; omega, by simp only; omega,
    c8.congr (by omega) (by omega)⟩⟩
  refine (and_then_of_eq_some hv0 _).trans ?_
  refine (and_then_of_eq_some hv1 _).trans ?_
  refine (and_then_of_eq_some hv2 _).trans ?_
  refine (and_then_of_eq_some hv3 _).trans ?_
  refine (and_then_of_eq_some e1 _).trans ?_
  refine (and_then_of_eq_some e2 _).trans ?_
  refine (and_then_of_eq_some e3 _).trans ?_
  refine (and_then_of_eq_some e4 _).trans ?_
  refine (and_then_of_eq_some e5 _).trans ?_
  refine (and_then_of_eq_some e6 _).trans ?_
  refine (and_then_of_eq_some e7 _).trans ?_
  refine (and_then_of_eq_some e8 _).trans ?_
  rfl

theorem last_block_32_spec {src dst : Buf} {s : Cursor} {p : Nat}
    (h : CursorAt src dst s p 4) (hsrc : 4 * (p + 32) ≤ src.length)
    (hdst : 3 * (p + 32) ≤ dst.length) :
    ∃ s', copy_rgba_to_rgb__avx2__32pixels.last_block src s = some s' ∧
      CursorAt src dst s' (p + 32) 0 := by
  obtain ⟨ra, rb, mem⟩ := s
  obtain ⟨hra, hrb, c0⟩ := h
  simp only at hra hrb c0
  subst hra hrb
  obtain ⟨v0, hv0⟩ := loadu_some src (4 * p) (by omega)
  obtain ⟨v1, hv1⟩ := loadu_some src (4 * p + 32) (by omega)
  obtain ⟨v2, hv2⟩ := loadu_some src (4 * p + 64) (by omega)
  obtain ⟨v3, hv3⟩ := loadu_some src (4 * p + 96) (by omega)
  obtain ⟨d1, e1, c1⟩ := store_lane_si128 (3 * p) 0 hv0 c0
    (by omega) (by omega) (by omega) (by omega) (by omega)
  obtain ⟨d2, e2, c2⟩ := store_lane_si128 (3 * p + 12) 1 hv0 c1
    (by omega) (by omega) (by omega) (by omega) (by omega)
  obtain ⟨d3, e3, c3⟩ := store_lane_si128 (3 * p + 24) 0 hv1 c2
    (by omega) (by omega) (by omega) (by omega) (by omega)
  obtain ⟨d4, e4, c4⟩ := store_lane_si128 (3 * p + 36) 1 hv1 c3
    (by omega) (by omega) (by omega) (by omega) (by omega)
  obtain ⟨d5, e5, c5⟩ := store_lane_si128 (3 * p + 48) 0 hv2 c4
    (by omega) (by omega) (by omega) (by omega) (by omega)
  obtain ⟨d6, e6, c6⟩ := store_lane_si128 (3 * p + 60) 1 hv2 c5
    (by omega) (by omega) (by omega) (by omega) (by omega)
  obtain ⟨d7, e7, c7⟩ := store_lane_si128 (3 * p + 72) 0 hv3 c6
    (by omega) (by omega) (by omega) (by omega) (by omega)
  obtain ⟨d8, e8, c8⟩ := store_lane_si64 (3 * p + 84) 1 hv3 c7
    (by omega) (by omega) (by omega) (by omega) (by omega)
  obtain ⟨d9, e9, c9⟩ := store_lane_si32 (3 * p + 92) 1 hv3 c8
    (by omega) (by omega) (by omega) (by omega) (by omega)
  refine ⟨⟨4 * p + 128, 3 * p + 96, d9⟩, ?_, ⟨by simp only; omega, by simp only; omega,
    c9.congr (by omega) (by omega)⟩⟩
  refine (and_then_of_eq_some hv0 _).trans ?_
  refine (and_then_of_eq_some hv1 _).trans ?_
  refine (and_then_of_eq_some hv2 _).trans ?_
  refine (and_then_of_eq_some hv3 _).trans ?_
  refine (and_then_of_eq_some e1 _).trans ?_
  refine (and_then_of_eq_some e2 _).trans ?_
  refine (and_then_of_eq_some e3 _).trans ?_
  refine (and_then_of_eq_some e4 _).trans ?_
  refine (and_then_of_eq_some e5 _).trans ?_
  refine (and_then_of_eq_some e6 _).trans ?_
  refine (and_then_of_eq_some e7 _).trans ?_
  refine (and_then_of_eq_some e8 _).trans ?_
  refine (and_then_of_eq_some e9 _).trans ?_
  rfl

theorem main_block_64_spec {src dst : Buf} {s : Cursor} {p : Nat}
    (h : CursorAt src dst s p 4) (hsrc : 4 * (p + 64) ≤ src.length)
    (hdst : 3 * (p + 64) + 4 ≤ dst.length) :
    ∃ s', copy_rgba_to_rgb__avx2__64pixels.main_block src s = some s' ∧
      CursorAt src dst s' (p + 64) 4 := by
  obtain ⟨ra, rb, mem⟩ := s
  obtain ⟨hra, hrb, c0⟩ := h
  simp only at hra hrb c0
  subst hra hrb
  obtain ⟨v0, hv0⟩ := loadu_some src (4 * p) (by omega)
  obtain ⟨v1, hv1⟩ := loadu_some src (4 * p + 32) (by omega)
  obtain ⟨v2, hv2⟩ := loadu_some src (4 * p + 64) (by omega)
  obtain ⟨v3, hv3⟩ := loadu_some src (4 * p + 96) (by omega)
  obtain ⟨v4, hv4⟩ := loadu_some src (4 * p + 128) (by omega)
  obtain ⟨v5, hv5⟩ := loadu_some src (4 * p + 160) (by omega)
  obtain ⟨v6, hv6⟩ := loadu_some src (4 * p + 192) (by omega)
  obtain ⟨v7, hv7⟩ := loadu_some src (4 * p + 224) (by omega)
  obtain ⟨d1, e1, c1⟩ := store_lane_si128 (3 * p) 0 hv0 c0
    (by omega) (by omega) (by omega) (by omega) (by omega)
  obtain ⟨d2, e2, c2⟩ := store_lane_si128 (3 * p + 12) 1 hv0 c1
    (by omega) (by omega) (by omega) (by omega) (by omega)
  obtain ⟨d3, e3, c3⟩ := store_lane_si128 (3 * p + 24) 0 hv1 c2
    (by omega) (by omega) (by omega) (by omega) (by omega)
  obtain ⟨d4, e4, c4⟩ := store_lane_si128 (3 * p + 36) 1 hv1 c3
    (by omega) (by omega) (by omega) (by omega) (by omega)
  obtain ⟨d5, e5, c5⟩ := store_lane_si128 (3 * p + 48) 0 hv2 c4
    (by omega) (by omega) (by omega) (by omega) (by omega)
  obtain ⟨d6, e6, c6⟩ := store_lane_si128 (3 * p + 60) 1 hv2 c5
    (by omega) (by omega) (by omega) (by omega) (by omega)
  obtain ⟨d7, e7, c7⟩ := store_lane_si128 (3 * p + 72) 0 hv3 c6
    (by omega) (by omega) (by omega) (by omega) (by omega)
  obtain ⟨d8, e8, c8⟩ := store_lane_si128 (3 * p + 84) 1 hv3 c7
    (by omega) (by omega) (by omega) (by omega) (by omega)
  obtain ⟨d9, e9, c9⟩ := store_lane_si128 (3 * p + 96) 0 hv4 c8
    (by omega) (by omega) (by omega) (by omega) (by omega)
  obtain ⟨d10, e10, c10⟩ := store_lane_si128 (3 * p + 108) 1 hv4 c9
    (by omega) (by omega) (by omega) (by omega) (by omega)
  obtain ⟨d11, e11, c11⟩ := store_lane_si128 (3 * p + 120) 0 hv5 c10
    (by omega) (by omega) (by omega) (by omega) (by omega)
  obtain ⟨d12, e12, c12⟩ := store_lane_si128 (3 * p + 132) 1 hv5 c11
    (by omega) (by omega) (by omega) (by omega) (by omega)
  obtain ⟨d13, e13, c13⟩ := store_lane_si128 (3 * p + 144) 0 hv6 c12
    (by omega) (by omega) (by omega) (by omega) (by omega)
  obtain ⟨d14, e14, c14⟩ := store_lane_si128 (3 * p + 156) 1 hv6 c13
    (by omega) (by omega) (by omega) (by omega) (by omega)
  obtain ⟨d15, e15, c15⟩ := store_lane_si128 (3 * p + 168) 0 hv7 c14
    (by omega) (by omega) (by omega) (by omega) (by omega)
  obtain ⟨d16, e16, c16⟩ := store_lane_si128 (3 * p + 180) 1 hv7 c15
    (by omega) (by omega) (by omega) (by omega) (by omega)
  refine ⟨⟨4 * p + 256, 3 * p + 192, d16⟩, ?_, ⟨by simp only; omega, by simp only; omega,
    c16.congr (by omega) (by omega)⟩⟩
  refine (and_then_of_eq_some hv0 _).trans ?_
  refine (and_then_of_eq_some hv1 _).trans ?_
  refine (and_then_of_eq_some hv2 _).trans ?_
  refine (and_then_of_eq_some hv3 _).trans ?_
  refine (and_then_of_eq_some hv4 _).trans ?_
  refine (and_then_of_eq_some hv5 _).trans ?_
  refine (and_then_of_eq_some hv6 _).trans ?_
  refine (and_then_of_eq_some hv7 _).trans ?_
  refine (and_then_of_eq_some e1 _).trans ?_
  refine (and_then_of_eq_some e2 _).trans ?_
  refine (and_then_of_eq_some e3 _).trans ?_
  refine (and_then_of_eq_some e4 _).trans ?_
  refine (and_then_of_eq_some e5 _).trans ?_
  refine (and_then_of_eq_some e6 _).trans ?_
  refine (and_then_of_eq_some e7 _).trans ?_
  refine (and_then_of_eq_some e8 _).trans ?_
  refine (and_then_of_eq_some e9 _).trans ?_
  refine (and_then_of_eq_some e10 _).trans ?_
  refine (and_then_of_eq_some e11 _).trans ?_
  refine (and_then_of_eq_some e12 _).trans ?_
  refine (and_then_of_eq_some e13 _).trans ?_
  refine (and_then_of_eq_some e14 _).trans ?_
  refine (and_then_of_eq_some e15 _).trans ?_
  refine (and_then_of_eq_some e16 _).trans ?_
  rfl

theorem last_block_64_spec {src dst : Buf} {s : Cursor} {p : Nat}
    (h : CursorAt src dst s p 4) (hsrc : 4 * (p + 64) ≤ src.length)
    (hdst : 3 * (p + 64) ≤ dst.length) :
    ∃ s', copy_rgba_to_rgb__avx2__64pixels.last_block src s = some s' ∧
      CursorAt src dst s' (p + 64) 0 := by
  obtain ⟨ra, rb, mem⟩ := s
  obtain ⟨hra, hrb, c0⟩ := h
  simp only at hra hrb c0
  subst hra hrb
  obtain ⟨v0, hv0⟩ := loadu_some src (4 * p) (by omega)
  obtain ⟨v1, hv1⟩ := loadu_some src (4 * p + 32) (by omega)
  obtain ⟨v2, hv2⟩ := loadu_some src (4 * p + 64) (by omega)
  obtain ⟨v3, hv3⟩ := loadu_some src (4 * p + 96) (by omega)
  obtain ⟨v4, hv4⟩ := loadu_some src (4 * p + 128) (by omega)
  obtain ⟨v5, hv5⟩ := loadu_some src (4 * p + 160) (by omega)
  obtain ⟨v6, hv6⟩ := loadu_some src (4 * p + 192) (by omega)
  obtain ⟨v7, hv7⟩ := loadu_some src (4 * p + 224) (by omega)
  obtain ⟨d1, e1, c1⟩ := store_lane_si128 (3 * p) 0 hv0 c0
    (by omega) (by omega) (by omega) (by omega) (by omega)
  obtain ⟨d2, e2, c2⟩ := store_lane_si128 (3 * p + 12) 1 hv0 c1
    (by omega) (by omega) (by omega) (by omega) (by omega)
  obtain ⟨d3, e3, c3⟩ := store_lane_si128 (3 * p + 24) 0 hv1 c2
    (by omega) (by omega) (by omega) (by omega) (by omega)
  obtain ⟨d4, e4, c4⟩ := store_lane_si128 (3 * p + 36) 1 hv1 c3
    (by omega) (by omega) (by omega) (by omega) (by omega)
  obtain ⟨d5, e5, c5⟩ := store_lane_si128 (3 * p + 48) 0 hv2 c4
    (by omega) (by omega) (by omega) (by omega) (by omega)
  obtain ⟨d6, e6, c6⟩ := store_lane_si128 (3 * p + 60) 1 hv2 c5
    (by omega) (by omega) (by omega) (by omega) (by omega)
  obtain ⟨d7, e7, c7⟩ := store_lane_si128 (3 * p + 72) 0 hv3 c6
    (by omega) (by omega) (by omega) (by omega) (by omega)
  obtain ⟨d8, e8, c8⟩ := store_lane_si128 (3 * p + 84) 1 hv3 c7
    (by omega) (by omega) (by omega) (by omega) (by omega)
  obtain ⟨d9, e9, c9⟩ := store_lane_si128 (3 * p + 96) 0 hv4 c8
    (by omega) (by omega) (by omega) (by omega) (by omega)
  obtain ⟨d10, e10, c10⟩ := store_lane_si128 (3 * p + 108) 1 hv4 c9
    (by omega) (by omega) (by omega) (by omega) (by omega)
  obtain ⟨d11, e11, c11⟩ := store_lane_si128 (3 * p + 120) 0 hv5 c10
    (by omega) (by omega) (by omega) (by omega) (by omega)
  obtain ⟨d12, e12, c12⟩ := store_lane_si128 (3 * p + 132) 1 hv5 c11
    (by omega) (by omega) (by omega) (by omega) (by omega)
  obtain ⟨d13, e13, c13⟩ := store_lane_si128 (3 * p + 144) 0 hv6 c12
    (by omega) (by omega) (by omega) (by omega) (by omega)
  obtain ⟨d14, e14, c14⟩ := store_lane_si128 (3 * p + 156) 1 hv6 c13
    (by omega) (by omega) (by omega) (by omega) (by omega)
  obtain ⟨d15, e15, c15⟩ := store_lane_si128 (3 * p + 168) 0 hv7 c14
    (by omega) (by omega) (by omega) (by omega) (by omega)
  obtain ⟨d16, e16, c16⟩ := store_lane_si64 (3 * p + 180) 1 hv7 c15
    (by omega) (by omega) (by omega) (by omega) (by omega)
  obtain ⟨d17, e17, c17⟩ := store_lane_si32 (3 * p + 188) 1 hv7 c16
    (by omega) (by omega) (by omega) (by omega) (by omega)
  refine ⟨⟨4 * p + 256, 3 * p + 192, d17⟩, ?_, ⟨by simp only; omega, by simp only; omega,
    c17.congr (by omega) (by omega)⟩⟩
  refine (and_then_of_eq_some hv0 _).trans ?_
  refine (and_then_of_eq_some hv1 _).trans ?_
  refine (and_then_of_eq_some hv2 _).trans ?_
  refine (and_then_of_eq_some hv3 _).trans ?_
  refine (and_then_of_eq_some hv4 _).trans ?_
  refine (and_then_of_eq_some hv5 _).trans ?_
  refine (and_then_of_eq_some hv6 _).trans ?_
  refine (and_then_of_eq_some hv7 _).trans ?_
  refine (and_then_of_eq_some e1 _).trans ?_
  refine (and_then_of_eq_some e2 _).trans ?_
  refine (and_then_of_eq_some e3 _).trans ?_
  refine (and_then_of_eq_some e4 _).trans ?_
  refine (and_then_of_eq_some e5 _).trans ?_
  refine (and_then_of_eq_some e6 _).trans ?_
  refine (and_then_of_eq_some e7 _).trans ?_
  refine (and_then_of_eq_some e8 _).trans ?_
  refine (and_then_of_eq_some e9 _).trans ?_
  refine (and_then_of_eq_some e10 _).trans ?_
  refine (and_then_of_eq_some e11 _).trans ?_
  refine (and_then_of_eq_some e12 _).trans ?_
  refine (and_then_of_eq_some e13 _).trans ?_
  refine (and_then_of_eq_some e14 _).trans ?_
  refine (and_then_of_eq_some e15 _).trans ?_
  refine (and_then_of_eq_some e16 _).trans ?_
  refine (and_then_of_eq_some e17 _).trans ?_
  rfl

/-! ## Loops over blocks -/

theorem block_loop_spec (src dst : Buf) (body : Cursor → Option Cursor) (W slack : Nat)
    (hbody : ∀ (s : Cursor) (p : Nat), CursorAt src dst s p slack →
      4 * (p + W) ≤ src.length → 3 * (p + W) + slack ≤ dst.length →
      ∃ s', body s = some s' ∧ CursorAt src dst s' (p + W) slack)
    (k : Nat) :
    ∀ (i : Nat) (s : Cursor) (p : Nat), CursorAt src dst s p slack →
      4 * (p + W * k) ≤ src.length → 3 * (p + W * k) + slack ≤ dst.length →
      ∃ s', for_loop (fun _ s => body s) k i s = some s' ∧
        CursorAt src dst s' (p + W * k) slack := by
  induction k with
  | zero => intro i s p h _ _; exact ⟨s, rfl, h⟩
  | succ k ih =>
    intro i s p h hsrc hdst
    have hk : W * (k + 1) = W + W * k := by rw [Nat.mul_succ, Nat.add_comm]
    rw [hk] at hsrc hdst
    obtain ⟨s1, e1, h1⟩ := hbody s p h (by omega) (by omega)
    obtain ⟨s2, e2, h2⟩ := ih (i + 1) s1 (p + W) h1 (by omega) (by omega)
    refine ⟨s2, ?_, ?_⟩
    · simp only [for_loop, e1, Option.some_bind, e2]
    · have e : p + W * (k + 1) = p + W + W * k := by omega
      rw [e]; exact h2

theorem CursorAt.relax {src dst : Buf} {s : Cursor} {p a b : Nat} (h : CursorAt src dst s p a)
    (hab : a ≤ b) : CursorAt src dst s p b :=
  ⟨h.1, h.2.1, h.2.2.mono (by omega)⟩

theorem size_t_sub_one (b : Nat) (hpos : 0 < b) (hb : b < 2 ^ 64) : size_t_sub b 1 = b - 1 := by
  unfold size_t_sub SIZE_T_RANGE
  omega

theorem batch_4_spec {src dst : Buf} (s : Cursor) (p : Nat) (h : CursorAt src dst s p 0)
    (hsrc : 4 * (p + 4) ≤ src.length) (hdst : 3 * (p + 4) + 0 ≤ dst.length) :
    ∃ s', (and_then (copy_pixel src s) fun s =>
        and_then (copy_pixel src s) fun s =>
        and_then (copy_pixel src s) fun s =>
        copy_pixel src s) = some s' ∧ CursorAt src dst s' (p + 4) 0 := by
  obtain ⟨s1, e1, h1⟩ := copy_pixel_spec h (by omega) (by omega)
  obtain ⟨s2, e2, h2⟩ := copy_pixel_spec h1 (by omega) (by omega)
  obtain ⟨s3, e3, h3⟩ := copy_pixel_spec h2 (by omega) (by omega)
  obtain ⟨s4, e4, h4⟩ := copy_pixel_spec h3 (by omega) (by omega)
  refine ⟨s4, ?_, h4.1, h4.2.1, h4.2.2.congr (by omega) (by omega)⟩
  simp only [e1, e2, e3, e4, and_then_some]

theorem raw_ptr_4pixels_kernel_spec (src dst : Buf) (n : Nat)
    (hsrc : 4 * n ≤ src.length) (hdst : 3 * n ≤ dst.length) :
    ∃ out, copy_rgba_to_rgb__raw_ptr__4pixels src dst n = some out ∧
      Converted src dst out (3 * n) (3 * n) := by
  have hdiv : 4 * (n / 4) ≤ n := Nat.mul_div_le n 4
  obtain ⟨s1, e1, h1⟩ := block_loop_spec src dst _ 4 0 batch_4_spec (n / 4) 0 ⟨0, 0, dst⟩ 0
    (CursorAt.start src dst) (by omega) (by omega)
  obtain ⟨s2, e2, h2⟩ := pixel_loop_spec src dst (n - n / 4 * 4) (n / 4 * 4) s1 _ h1
    (by omega) (by omega)
  refine ⟨s2.rgb_mem, ?_, h2.2.2.congr (by omega) (by omega)⟩
  simp only [copy_rgba_to_rgb__raw_ptr__4pixels, Nat.sub_zero, e1, e2, and_then_some]

/-! ## Vector kernels -/

theorem vector_kernel_spec (src dst : Buf) (main last : Cursor → Option Cursor) (W : Nat)
    (hW : 2 ≤ W)
    (hmain : ∀ (s : Cursor) (p : Nat), CursorAt src dst s p 4 →
      4 * (p + W) ≤ src.length → 3 * (p + W) + 4 ≤ dst.length →
      ∃ s', main s = some s' ∧ CursorAt src dst s' (p + W) 4)
    (hlast : ∀ (s : Cursor) (p : Nat), CursorAt src dst s p 4 →
      4 * (p + W) ≤ src.length → 3 * (p + W) ≤ dst.length →
      ∃ s', last s = some s' ∧ CursorAt src dst s' (p + W) 0)
    (n : Nat) (hn : n < 2 ^ 64) (hsrc : 4 * n ≤ src.length) (hdst : 3 * n ≤ dst.length) :
    ∃ out,
      (and_then (
        if n / W > 0 then
          and_then (for_loop (fun _ s => main s) (size_t_sub (n / W) 1 - 0) 0 ⟨0, 0, dst⟩)
            fun s => last s
        else some ⟨0, 0, dst⟩) fun s =>
      and_then (for_loop (fun _ s => copy_pixel src s) (n - n / W * W) (n / W * W) s) fun s =>
      some s.rgb_mem) = some out ∧ Converted src dst out (3 * n) (3 * n) := by
  have hdiv : W * (n / W) ≤ n := Nat.mul_div_le n W
  have hcomm : n / W * W = W * (n / W) := Nat.mul_comm _ _
  have hblocks : ∃ s1, (if n / W > 0 then
          and_then (for_loop (fun _ s => main s) (size_t_sub (n / W) 1 - 0) 0 ⟨0, 0, dst⟩)
            fun s => last s
        else some ⟨0, 0, dst⟩) = some s1 ∧ CursorAt src dst s1 (W * (n / W)) 0 := by
    by_cases hB : n / W > 0
    · have hBlt : n / W < 2 ^ 64 := Nat.lt_of_le_of_lt (Nat.div_le_self n W) hn
      have hsplit : W * (n / W) = W * (n / W - 1) + W := by
        have : n / W = (n / W - 1) + 1 := by omega
        calc W * (n / W) = W * ((n / W - 1) + 1) := by rw [← this]
          _ = W * (n / W - 1) + W := by rw [Nat.mul_succ]
      obtain ⟨s1, e1, h1⟩ := block_loop_spec src dst main W 4 hmain (n / W - 1) 0 ⟨0, 0, dst⟩ 0
        ((CursorAt.start src dst).relax (by omega)) (by omega) (by omega)
      obtain ⟨s2, e2, h2⟩ := hlast s1 _ h1 (by omega) (by omega)
      refine ⟨s2, ?_, ?_⟩
      · rw [if_pos hB, size_t_sub_one _ hB hBlt, Nat.sub_zero, e1, and_then_some, e2]
      · have e : 0 + W * (n / W - 1) + W = W * (n / W) := by omega
        rw [← e]; exact h2
    · refine ⟨⟨0, 0, dst⟩, by rw [if_neg hB], ?_⟩
      have e : n / W = 0 := Nat.eq_zero_of_not_pos hB
      rw [e, Nat.mul_zero]
      exact CursorAt.start src dst
  obtain ⟨s1, e1, h1⟩ := hblocks
  obtain ⟨s2, e2, h2⟩ := pixel_loop_spec src dst (n - n / W * W) (n / W * W) s1 _ h1
    (by omega) (by omega)
  refine ⟨s2.rgb_mem, ?_, h2.2.2.congr (by omega) (by omega)⟩
  rw [e1, and_then_some, e2, and_then_some]

theorem avx2_8pixels_kernel_spec (src dst : Buf) (n : Nat) (hn : n < 2 ^ 64)
    (hsrc : 4 * n ≤ src.length) (hdst : 3 * n ≤ dst.length) :
    ∃ out, copy_rgba_to_rgb__avx2__8pixels src dst n = some out ∧
      Converted src dst out (3 * n) (3 * n) :=
  vector_kernel_spec src dst _ _ 8 (by omega)
    (fun _ _ h => main_block_8_spec h) (fun _ _ h => last_block_8_spec h) n hn hsrc hdst

theorem avx2_16pixels_kernel_spec (src dst : Buf) (n : Nat) (hn : n < 2 ^ 64)
    (hsrc : 4 * n ≤ src.length) (hdst : 3 * n ≤ dst.length) :
    ∃ out, copy_rgba_to_rgb__avx2__16pixels src dst n = some out ∧
      Converted src dst out (3 * n) (3 * n) :=
  vector_kernel_spec src dst _ _ 16 (by omega)
    (fun _ _ h => main_block_16_spec h) (fun _ _ h => last_block_16_spec h) n hn hsrc hdst

theorem avx2_32pixels_kernel_spec (src dst : Buf) (n : Nat) (hn : n < 2 ^ 64)
    (hsrc : 4 * n ≤ src.length) (hdst : 3 * n ≤ dst.length) :
    ∃ out, copy_rgba_to_rgb__avx2__32pixels src dst n = some out ∧
      Converted src dst out (3 * n) (3 * n) :=
  vector_kernel_spec src dst _ _ 32 (by omega)
    (fun _ _ h => main_block_32_spec h) (fun _ _ h => last_block_32_spec h) n hn hsrc hdst

theorem avx2_64pixels_kernel_spec (src dst : Buf) (n : Nat) (hn : n < 2 ^ 64)
    (hsrc : 4 * n ≤ src.length) (hdst : 3 * n ≤ dst.length) :
    ∃ out, copy_rgba_to_rgb__avx2__64pixels src dst n = some out ∧
      Converted src dst out (3 * n) (3 * n) :=
  vector_kernel_spec src dst _ _ 64 (by omega)
    (fun _ _ h => main_block_64_spec h) (fun _ _ h => last_block_64_spec h) n hn hsrc hdst

/-! ## Verifier and fixture -/

theorem load_of_lt {mem : Buf} {off : Nat} (h : off < mem.length) :
    load mem off = some (mem.get ⟨off, h⟩) :=
  List.getElem?_eq_getElem h

theorem load_converted {rgba rgb : Buf} {n i c : Nat}
    (hconv : ∀ j, j < 3 * n → rgb[j]? = rgba[4 * (j / 3) + j % 3]?)
    (hi : i < n) (hc : c < 3) (h : i * 4 + c < rgba.length) :
    load rgb (i * 3 + c) = some (rgba.get ⟨i * 4 + c, h⟩) := by
  have e : 4 * ((i * 3 + c) / 3) + (i * 3 + c) % 3 = i * 4 + c := by omega
  unfold load
  rw [hconv (i * 3 + c) (by omega), e]
  exact List.getElem?_eq_getElem h

theorem compare_loop_true {rgba rgb : Buf} {n : Nat} (out : List StdoutCall)
    (hsrc : 4 * n ≤ rgba.length)
    (hconv : ∀ j, j < 3 * n → rgb[j]? = rgba[4 * (j / 3) + j % 3]?) (k : Nat) :
    ∀ i, i + k ≤ n → compare_rgba_to_rgb.loop rgba rgb n k i out = some (true, out) := by
  induction k with
  | zero => intro i _; rfl
  | succ k ih =>
    intro i hi
    have a0 : load rgba (i * 4) = some (rgba.get ⟨i * 4 + 0, by omega⟩) :=
      load_of_lt (by omega)
    have a1 := load_of_lt (show i * 4 + 1 < rgba.length by omega)
    have a2 := load_of_lt (show i * 4 + 2 < rgba.length by omega)
    have a3 := load_of_lt (show i * 4 + 3 < rgba.length by omega)
    have b0 : load rgb (i * 3) = some (rgba.get ⟨i * 4 + 0, by omega⟩) :=
      load_converted (c := 0) hconv (by omega) (by omega) (by omega)
    have b1 := load_converted (c := 1) hconv (show i < n by omega) (by omega) (by omega)
    have b2 := load_converted (c := 2) hconv (show i < n by omega) (by omega) (by omega)
    simp only [compare_rgba_to_rgb.loop, a0, a1, a2, a3, b0, b1, b2, and_then_some,
      bne_self_eq_false, Bool.or_self, Bool.false_eq_true, if_false]
    exact ih (i + 1) (by omega)

theorem compare_of_converted {src dst out : Buf} {n : Nat} (hsrc : 4 * n ≤ src.length)
    (h : Converted src dst out (3 * n) (3 * n)) :
    compare_rgba_to_rgb src out n = some (true, []) :=
  compare_loop_true [] hsrc h.2.1 (n - 0) 0 (by omega)

theorem ascending_loop_some (k : Nat) :
    ∀ (i : Nat) (data : Buf), i + k ≤ data.length →
      ∃ data', for_loop (fun i data => store data i (UInt8.ofNat ((i + 1) % 256))) k i data
        = some data' ∧ data'.length = data.length := by
  induction k with
  | zero => intro i data _; exact ⟨data, rfl, rfl⟩
  | succ k ih =>
    intro i data hi
    have hb : i + [UInt8.ofNat ((i + 1) % 256)].length ≤ data.length := by
      simp only [List.length_singleton]; omega
    have e1 : store data i (UInt8.ofNat ((i + 1) % 256))
        = some (write_bytes data i [UInt8.ofNat ((i + 1) % 256)]) := store_bytes_eq _ _ _ hb
    have hl := length_write_bytes data i [UInt8.ofNat ((i + 1) % 256)] hb
    obtain ⟨d2, e2, h2⟩ := ih (i + 1) _ (by rw [hl]; omega)
    exact ⟨d2, by simp only [for_loop, e1, Option.some_bind, e2], by rw [h2, hl]⟩

theorem make_ascending_data_some (size : Nat) :
    ∃ data, make_ascending_data size = some data ∧ data.length = size := by
  obtain ⟨d, e, h⟩ := ascending_loop_some size 0 (List.replicate size 0)
    (by rw [List.length_replicate]; omega)
  exact ⟨d, by simpa only [make_ascending_data, Nat.sub_zero] using e,
    by rw [h, List.length_replicate]⟩

/-! ## All kernels of the registry -/

theorem registry_kernel_spec (t : String × test_func_t) (ht : t ∈ registry) (src dst : Buf)
    (n : Nat) (hn : n < 2 ^ 64) (hsrc : 4 * n ≤ src.length) (hdst : 3 * n ≤ dst.length) :
    ∃ out, t.2 src dst n = some out ∧ Converted src dst out (3 * n) (3 * n) := by
  simp only [registry, List.mem_cons, List.mem_singleton, List.not_mem_nil, or_false] at ht
  rcases ht with h | h | h | h | h | h | h <;> subst h
  · exact memcpy_kernel_spec src dst n hsrc hdst
  · exact raw_ptr_kernel_spec src dst n hsrc hdst
  · exact raw_ptr_4pixels_kernel_spec src dst n hsrc hdst
  · exact avx2_8pixels_kernel_spec src dst n hn hsrc hdst
  · exact avx2_16pixels_kernel_spec src dst n hn hsrc hdst
  · exact avx2_32pixels_kernel_spec src dst n hn hsrc hdst
  · exact avx2_64pixels_kernel_spec src dst n hn hsrc hdst

theorem validation_step_passes (t : String × test_func_t) (ht : t ∈ registry) (n : Nat)
    (hn : n < 2 ^ 64) : validation_step t n = some [] := by
  obtain ⟨rgba, e1, hl⟩ := make_ascending_data_some (n * 4)
  obtain ⟨out, e2, hc⟩ := registry_kernel_spec t ht rgba (List.replicate (n * 3) 0) n hn
    (by omega) (by rw [List.length_replicate]; omega)
  have e3 := compare_of_converted (show 4 * n ≤ rgba.length by omega) hc
  simp only [validation_step, e1, e2, e3, and_then_some]
  rfl

/-! ## Failure of a call whose destination is too short -/

theorem and_then_eq_some {α β : Type} {x : Option α} {f : α → Option β} {b : β}
    (h : and_then x f = some b) : ∃ a, x = some a ∧ f a = some b := by
  cases x with
  | none => exact absurd h (by simp [and_then])
  | some a => exact ⟨a, rfl, h⟩

theorem store_bytes_some {mem mem' : Buf} {off : Nat} {bs : List UInt8}
    (h : store_bytes mem off bs = some mem') :
    off + bs.length ≤ mem.length ∧ mem'.length = mem.length := by
  unfold store_bytes at h
  split at h
  · rename_i hb
    injection h with h
    subst h
    exact ⟨hb, length_write_bytes _ _ _ hb⟩
  · exact absurd h (by simp)

theorem store_some {mem mem' : Buf} {off : Nat} {v : UInt8} (h : store mem off v = some mem') :
    off + 1 ≤ mem.length ∧ mem'.length = mem.length :=
  store_bytes_some h

theorem storeu_si128_some {mem mem' : Buf} {off : Nat} {a : M128}
    (h : _mm_storeu_si128 mem off a = some mem') :
    off + 16 ≤ mem.length ∧ mem'.length = mem.length := by
  have := store_bytes_some h
  rwa [List.length_ofFn] at this

theorem storeu_si64_some {mem mem' : Buf} {off : Nat} {a : M128}
    (h : _mm_storeu_si64 mem off a = some mem') :
    off + 8 ≤ mem.length ∧ mem'.length = mem.length := by
  have := store_bytes_some h
  rwa [List.length_take, List.length_ofFn] at this

theorem storeu_si32_some {mem mem' : Buf} {off : Nat} {a : M128}
    (h : _mm_storeu_si32 mem off a = some mem') :
    off + 4 ≤ mem.length ∧ mem'.length = mem.length := by
  have := store_bytes_some h
  rwa [List.length_take, List.length_ofFn] at this

theorem copy_pixel_advances (src : Buf) : Advances (copy_pixel src) 3 := by
  intro s s' h
  obtain ⟨r, -, h⟩ := and_then_eq_some h
  obtain ⟨d1, hd1, h⟩ := and_then_eq_some h
  obtain ⟨g, -, h⟩ := and_then_eq_some h
  obtain ⟨d2, hd2, h⟩ := and_then_eq_some h
  obtain ⟨b, -, h⟩ := and_then_eq_some h
  obtain ⟨d3, hd3, h⟩ := and_then_eq_some h
  have l1 := store_some hd1
  have l2 := store_some hd2
  have l3 := store_some hd3
  injection h with h
  subst h
  exact ⟨rfl, by simp only; omega, by simp only; omega⟩

theorem main_block_8_advances (src : Buf) :
    Advances (copy_rgba_to_rgb__avx2__8pixels.main_block src) 24 := by
  intro s s' h
  obtain ⟨v0, -, h⟩ := and_then_eq_some h
  obtain ⟨d1, hd1, h⟩ := and_then_eq_some h
  have l1 := storeu_si128_some hd1
  obtain ⟨d2, hd2, h⟩ := and_then_eq_some h
  have l2 := storeu_si128_some hd2
  injection h with h
  subst h
  exact ⟨rfl, by simp only; omega, by simp only; omega⟩

theorem last_block_8_advances (src : Buf) :
    Advances (copy_rgba_to_rgb__avx2__8pixels.last_block src) 24 := by
  intro s s' h
  obtain ⟨v0, -, h⟩ := and_then_eq_some h
  obtain ⟨d1, hd1, h⟩ := and_then_eq_some h
  have l1 := storeu_si128_some hd1
  obtain ⟨d2, hd2, h⟩ := and_then_eq_some h
  have l2 := storeu_si64_some hd2
  obtain ⟨d3, hd3, h⟩ := and_then_eq_some h
  have l3 := storeu_si32_some hd3
  injection h with h
  subst h
  exact ⟨rfl, by simp only; omega, by simp only; omega⟩

theorem main_block_16_advances (src : Buf) :
    Advances (copy_rgba_to_rgb__avx2__16pixels.main_block src) 48 := by
  intro s s' h
  obtain ⟨v0, -, h⟩ := and_then_eq_some h
  obtain ⟨v1, -, h⟩ := and_then_eq_some h
  obtain ⟨d1, hd1, h⟩ := and_then_eq_some h
  have l1 := storeu_si128_some hd1
  obtain ⟨d2, hd2, h⟩ := and_then_eq_some h
  have l2 := storeu_si128_some hd2
  obtain ⟨d3, hd3, h⟩ := and_then_eq_some h
  have l3 := storeu_si128_some hd3
  obtain ⟨d4, hd4, h⟩ := and_then_eq_some h
  have l4 := storeu_si128_some hd4
  injection h with h
  subst h
  exact ⟨rfl, by simp only; omega, by simp only; omega⟩

theorem last_block_16_advances (src : Buf) :
    Advances (copy_rgba_to_rgb__avx2__16pixels.last_block src) 48 := by
  intro s s' h
  obtain ⟨v0, -, h⟩ := and_then_eq_some h
  obtain ⟨v1, -, h⟩ := and_then_eq_some h
  obtain ⟨d1, hd1, h⟩ := and_then_eq_some h
  have l1 := storeu_si128_some hd1
  obtain ⟨d2, hd2, h⟩ := and_then_eq_some h
  have l2 := storeu_si128_some hd2
  obtain ⟨d3, hd3, h⟩ := and_then_eq_some h
  have l3 := storeu_si128_some hd3
  obtain ⟨d4, hd4, h⟩ := and_then_eq_some h
  have l4 := storeu_si64_some hd4
  obtain ⟨d5, hd5, h⟩ := and_then_eq_some h
  have l5 := storeu_si32_some hd5
  injection h with h
  subst h
  exact ⟨rfl, by simp only; omega, by simp only; omega⟩

theorem main_block_32_advances (src : Buf) :
    Advances (copy_rgba_to_rgb__avx2__32pixels.main_block src) 96 := by
  intro s s' h
  obtain ⟨v0, -, h⟩ := and_then_eq_some h
  obtain ⟨v1, -, h⟩ := and_then_eq_some h
  obtain ⟨v2, -, h⟩ := and_then_eq_some h
  obtain ⟨v3, -, h⟩ := and_then_eq_some h
  obtain ⟨d1, hd1, h⟩ := and_then_eq_some h
  have l1 := storeu_si128_some hd1
  obtain ⟨d2, hd2, h⟩ := and_then_eq_some h
  have l2 := storeu_si128_some hd2
  obtain ⟨d3, hd3, h⟩ := and_then_eq_some h
  have l3 := storeu_si128_some hd3
  obtain ⟨d4, hd4, h⟩ := and_then_eq_some h
  have l4 := storeu_si128_some hd4
  obtain ⟨d5, hd5, h⟩ := and_then_eq_some h
  have l5 := storeu_si128_some hd5
  obtain ⟨d6, hd6, h⟩ := and_then_eq_some h
  have l6 := storeu_si128_some hd6
  obtain ⟨d7, hd7, h⟩ := and_then_eq_some h
  have l7 := storeu_si128_some hd7
  obtain ⟨d8, hd8, h⟩ := and_then_eq_some h
  have l8 := storeu_si128_some hd8
  injection h with h
  subst h
  exact ⟨rfl, by simp only; omega, by simp only; omega⟩

theorem last_block_32_advances (src : Buf) :
    Advances (copy_rgba_to_rgb__avx2__32pixels.last_block src) 96 := by
  intro s s' h
  obtain ⟨v0, -, h⟩ := and_then_eq_some h
  obtain ⟨v1, -, h⟩ := and_then_eq_some h
  obtain ⟨v2, -, h⟩ := and_then_eq_some h
  obtain ⟨v3, -, h⟩ := and_then_eq_some h
  obtain ⟨d1, hd1, h⟩ := and_then_eq_some h
  have l1 := storeu_si128_some hd1
  obtain ⟨d2, hd2, h⟩ := and_then_eq_some h
  have l2 := storeu_si128_some hd2
  obtain ⟨d3, hd3, h⟩ := and_then_eq_some h
  have l3 := storeu_si128_some hd3
  obtain ⟨d4, hd4, h⟩ := and_then_eq_some h
  have l4 := storeu_si128_some hd4
  obtain ⟨d5, hd5, h⟩ := and_then_eq_some h
  have l5 := storeu_si128_some hd5
  obtain ⟨d6, hd6, h⟩ := and_then_eq_some h
  have l6 := storeu_si128_some hd6
  obtain ⟨d7, hd7, h⟩ := and_then_eq_some h
  have l7 := storeu_si128_some hd7
  obtain ⟨d8, hd8, h⟩ := and_then_eq_some h
  have l8 := storeu_si64_some hd8
  obtain ⟨d9, hd9, h⟩ := and_then_eq_some h
  have l9 := storeu_si32_some hd9
  injection h with h
  subst h
  exact ⟨rfl, by simp only; omega, by simp only; omega⟩

theorem main_block_64_advances (src : Buf) :
    Advances (copy_rgba_to_rgb__avx2__64pixels.main_block src) 192 := by
  intro s s' h
  obtain ⟨v0, -, h⟩ := and_then_eq_some h
  obtain ⟨v1, -, h⟩ := and_then_eq_some h
  obtain ⟨v2, -, h⟩ := and_then_eq_some h
  obtain ⟨v3, -, h⟩ := and_then_eq_some h
  obtain ⟨v4, -, h⟩ := and_then_eq_some h
  obtain ⟨v5, -, h⟩ := and_then_eq_some h
  obtain ⟨v6, -, h⟩ := and_then_eq_some h
  obtain ⟨v7, -, h⟩ := and_then_eq_some h
  obtain ⟨d1, hd1, h⟩ := and_then_eq_some h
  have l1 := storeu_si128_some hd1
  obtain ⟨d2, hd2, h⟩ := and_then_eq_some h
  have l2 := storeu_si128_some hd2
  obtain ⟨d3, hd3, h⟩ := and_then_eq_some h
  have l3 := storeu_si128_some hd3
  obtain ⟨d4, hd4, h⟩ := and_then_eq_some h
  have l4 := storeu_si128_some hd4
  obtain ⟨d5, hd5, h⟩ := and_then_eq_some h
  have l5 := storeu_si128_some hd5
  obtain ⟨d6, hd6, h⟩ := and_then_eq_some h
  have l6 := storeu_si128_some hd6
  obtain ⟨d7, hd7, h⟩ := and_then_eq_some h
  have l7 := storeu_si128_some hd7
  obtain ⟨d8, hd8, h⟩ := and_then_eq_some h
  have l8 := storeu_si128_some hd8
  obtain ⟨d9, hd9, h⟩ := and_then_eq_some h
  have l9 := storeu_si128_some hd9
  obtain ⟨d10, hd10, h⟩ := and_then_eq_some h
  have l10 := storeu_si128_some hd10
  obtain ⟨d11, hd11, h⟩ := and_then_eq_some h
  have l11 := storeu_si128_some hd11
  obtain ⟨d12, hd12, h⟩ := and_then_eq_some h
  have l12 := storeu_si128_some hd12
  obtain ⟨d13, hd13, h⟩ := and_then_eq_some h
  have l13 := storeu_si128_some hd13
  obtain ⟨d14, hd14, h⟩ := and_then_eq_some h
  have l14 := storeu_si128_some hd14
  obtain ⟨d15, hd15, h⟩ := and_then_eq_some h
  have l15 := storeu_si128_some hd15
  obtain ⟨d16, hd16, h⟩ := and_then_eq_some h
  have l16 := storeu_si128_some hd16
  injection h with h
  subst h
  exact ⟨rfl, by simp only; omega, by simp only; omega⟩

theorem last_block_64_advances (src : Buf) :
    Advances (copy_rgba_to_rgb__avx2__64pixels.last_block src) 192 := by
  intro s s' h
  obtain ⟨v0, -, h⟩ := and_then_eq_some h
  obtain ⟨v1, -, h⟩ := and_then_eq_some h
  obtain ⟨v2, -, h⟩ := and_then_eq_some h
  obtain ⟨v3, -, h⟩ := and_then_eq_some h
  obtain ⟨v4, -, h⟩ := and_then_eq_some h
  obtain ⟨v5, -, h⟩ := and_then_eq_some h
  obtain ⟨v6, -, h⟩ := and_then_eq_some h
  obtain ⟨v7, -, h⟩ := and_then_eq_some h
  obtain ⟨d1, hd1, h⟩ := and_then_eq_some h
  have l1 := storeu_si128_some hd1
  obtain ⟨d2, hd2, h⟩ := and_then_eq_some h
  have l2 := storeu_si128_some hd2
  obtain ⟨d3, hd3, h⟩ := and_then_eq_some h
  have l3 := storeu_si128_some hd3
  obtain ⟨d4, hd4, h⟩ := and_then_eq_some h
  have l4 := storeu_si128_some hd4
  obtain ⟨d5, hd5, h⟩ := and_then_eq_some h
  have l5 := storeu_si128_some hd5
  obtain ⟨d6, hd6, h⟩ := and_then_eq_some h
  have l6 := storeu_si128_some hd6
  obtain ⟨d7, hd7, h⟩ := and_then_eq_some h
  have l7 := storeu_si128_some hd7
  obtain ⟨d8, hd8, h⟩ := and_then_eq_some h
  have l8 := storeu_si128_some hd8
  obtain ⟨d9, hd9, h⟩ := and_then_eq_some h
  have l9 := storeu_si128_some hd9
  obtain ⟨d10, hd10, h⟩ := and_then_eq_some h
  have l10 := storeu_si128_some hd10
  obtain ⟨d11, hd11, h⟩ := and_then_eq_some h
  have l11 := storeu_si128_some hd11
  obtain ⟨d12, hd12, h⟩ := and_then_eq_some h
  have l12 := storeu_si128_some hd12
  obtain ⟨d13, hd13, h⟩ := and_then_eq_some h
  have l13 := storeu_si128_some hd13
  obtain ⟨d14, hd14, h⟩ := and_then_eq_some h
  have l14 := storeu_si128_some hd14
  obtain ⟨d15, hd15, h⟩ := and_then_eq_some h
  have l15 := storeu_si128_some hd15
  obtain ⟨d16, hd16, h⟩ := and_then_eq_some h
  have l16 := storeu_si64_some hd16
  obtain ⟨d17, hd17, h⟩ := and_then_eq_some h
  have l17 := storeu_si32_some hd17
  injection h with h
  subst h
  exact ⟨rfl, by simp only; omega, by simp only; omega⟩

theorem Advances.and_then {f g : Cursor → Option Cursor} {a b : Nat} (hf : Advances f a)
    (hg : Advances g b) : Advances (fun s => RgbaToRgb.and_then (f s) g) (a + b) := by
  intro s s' h
  obtain ⟨s1, h1, h2⟩ := and_then_eq_some h
  have k1 := hf s s1 h1
  have k2 := hg s1 s' h2
  exact ⟨by omega, by omega, k2.2.2⟩

theorem Advances.loop {f : Cursor → Option Cursor} {w : Nat} (hf : Advances f w) (k : Nat) :
    ∀ (i : Nat) (s s' : Cursor), s.rgb ≤ s.rgb_mem.length →
      for_loop (fun _ s => f s) k i s = some s' →
      s'.rgb = s.rgb + w * k ∧ s'.rgb_mem.length = s.rgb_mem.length ∧
        s'.rgb ≤ s'.rgb_mem.length := by
  induction k with
  | zero =>
    intro i s s' hs h
    injection h with h
    subst h
    exact ⟨by omega, rfl, hs⟩
  | succ k ih =>
    intro i s s' hs h
    simp only [for_loop, Option.bind_eq_some] at h
    obtain ⟨s1, h1, h2⟩ := h
    have k1 := hf s s1 h1
    have k2 := ih (i + 1) s1 s' k1.2.2 h2
    have e : w * (k + 1) = w + w * k := by rw [Nat.mul_succ, Nat.add_comm]
    exact ⟨by omega, by omega, k2.2.2⟩

theorem memcpy_some {src d d' : Buf} {i : Nat}
    (h : memcpy d (i * (1 * 3)) src (i * (1 * 4)) (1 * 3) = some d') :
    3 * (i + 1) ≤ d.length ∧ d'.length = d.length := by
  simp only [memcpy, Option.bind_eq_some] at h
  obtain ⟨bs, h1, h2⟩ := h
  have hl : bs.length = 3 := by
    unfold load_bytes at h1
    split at h1
    · rename_i hb
      injection h1 with h1
      subst h1
      simp only [List.length_take, List.length_drop]
      omega
    · exact absurd h1 (by simp)
  have k := store_bytes_some h2
  rw [hl] at k
  exact ⟨by omega, k.2⟩

theorem memcpy_loop_some {src : Buf} (k : Nat) :
    ∀ (i : Nat) (d d' : Buf), 3 * i ≤ d.length →
      for_loop (fun i rgb => memcpy rgb (i * (1 * 3)) src (i * (1 * 4)) (1 * 3)) k i d = some d' →
      3 * (i + k) ≤ d.length ∧ d'.length = d.length := by
  induction k with
  | zero =>
    intro i d d' hd h
    injection h with h
    subst h
    exact ⟨hd, rfl⟩
  | succ k ih =>
    intro i d d' hd h
    simp only [for_loop, Option.bind_eq_some] at h
    obtain ⟨d1, h1, h2⟩ := h
    have k1 := memcpy_some h1
    have k2 := ih (i + 1) d1 d' (by omega) h2
    exact ⟨by omega, by omega⟩

theorem memcpy_kernel_some {src dst out : Buf} {n : Nat}
    (h : copy_rgba_to_rgb__memcpy src dst n = some out) : 3 * n ≤ dst.length := by
  have k := memcpy_loop_some (n - 0) 0 dst out (by omega) h
  omega

theorem raw_ptr_kernel_some {src dst out : Buf} {n : Nat}
    (h : copy_rgba_to_rgb__raw_ptr src dst n = some out) : 3 * n ≤ dst.length := by
  obtain ⟨s1, h1, -⟩ := and_then_eq_some h
  have k := (copy_pixel_advances src).loop (n - 0) 0 ⟨0, 0, dst⟩ s1 (Nat.zero_le _) h1
  simp only at k
  omega

theorem raw_ptr_4pixels_kernel_some {src dst out : Buf} {n : Nat}
    (h : copy_rgba_to_rgb__raw_ptr__4pixels src dst n = some out) : 3 * n ≤ dst.length := by
  obtain ⟨s1, h1, h⟩ := and_then_eq_some h
  obtain ⟨s2, h2, -⟩ := and_then_eq_some h
  have adv : Advances (fun s => RgbaToRgb.and_then (copy_pixel src s) fun s =>
      RgbaToRgb.and_then (copy_pixel src s) fun s =>
      RgbaToRgb.and_then (copy_pixel src s) fun s => copy_pixel src s) (3 + (3 + (3 + 3))) :=
    (copy_pixel_advances src).and_then ((copy_pixel_advances src).and_then
      ((copy_pixel_advances src).and_then (copy_pixel_advances src)))
  have k1 := adv.loop (n / 4 - 0) 0 ⟨0, 0, dst⟩ s1 (Nat.zero_le _) h1
  have k2 := (copy_pixel_advances src).loop _ _ s1 s2 k1.2.2 h2
  simp only at k1
  omega

theorem vector_kernel_some {src dst out : Buf} {main last : Cursor → Option Cursor} {W n : Nat}
    (hmain : Advances main (3 * W)) (hlast : Advances last (3 * W)) (hn : n < 2 ^ 64)
    (h : (RgbaToRgb.and_then (
        if n / W > 0 then
          RgbaToRgb.and_then
            (for_loop (fun _ s => main s) (size_t_sub (n / W) 1 - 0) 0 ⟨0, 0, dst⟩)
            fun s => last s
        else some ⟨0, 0, dst⟩) fun s =>
      RgbaToRgb.and_then
        (for_loop (fun _ s => copy_pixel src s) (n - n / W * W) (n / W * W) s) fun s =>
      some s.rgb_mem) = some out) : 3 * n ≤ dst.length := by
  obtain ⟨s1, h1, h⟩ := and_then_eq_some h
  obtain ⟨s2, h2, -⟩ := and_then_eq_some h
  have hdiv : W * (n / W) ≤ n := Nat.mul_div_le n W
  have hcomm : n / W * W = W * (n / W) := Nat.mul_comm _ _
  have key : s1.rgb = 3 * (W * (n / W)) ∧ s1.rgb_mem.length = dst.length ∧
      s1.rgb ≤ s1.rgb_mem.length := by
    by_cases hB : n / W > 0
    · rw [if_pos hB] at h1
      obtain ⟨s0, h0, h1⟩ := and_then_eq_some h1
      have hBlt : n / W < 2 ^ 64 := Nat.lt_of_le_of_lt (Nat.div_le_self n W) hn
      rw [size_t_sub_one _ hB hBlt, Nat.sub_zero] at h0
      have k0 := hmain.loop (n / W - 1) 0 ⟨0, 0, dst⟩ s0 (Nat.zero_le _) h0
      have k1 := hlast s0 s1 h1
      simp only at k0
      have hsplit : W * (n / W) = W * (n / W - 1) + W := by
        have : n / W = (n / W - 1) + 1 := by omega
        calc W * (n / W) = W * ((n / W - 1) + 1) := by rw [← this]
          _ = W * (n / W - 1) + W := by rw [Nat.mul_succ]
      have e3 : 3 * W * (n / W - 1) = 3 * (W * (n / W - 1)) := Nat.mul_assoc _ _ _
      exact ⟨by omega, by omega, k1.2.2⟩
    · rw [if_neg hB] at h1
      injection h1 with h1
      subst h1
      have e : n / W = 0 := Nat.eq_zero_of_not_pos hB
      rw [e, Nat.mul_zero]
      exact ⟨rfl, rfl, Nat.zero_le _⟩
  have k2 := (copy_pixel_advances src).loop _ _ s1 s2 key.2.2 h2
  rw [hcomm] at k2
  omega

theorem avx2_8pixels_kernel_some {src dst out : Buf} {n : Nat} (hn : n < 2 ^ 64)
    (h : copy_rgba_to_rgb__avx2__8pixels src dst n = some out) : 3 * n ≤ dst.length :=
  vector_kernel_some (main_block_8_advances src) (last_block_8_advances src) hn h

theorem avx2_16pixels_kernel_some {src dst out : Buf} {n : Nat} (hn : n < 2 ^ 64)
    (h : copy_rgba_to_rgb__avx2__16pixels src dst n = some out) : 3 * n ≤ dst.length :=
  vector_kernel_some (main_block_16_advances src) (last_block_16_advances src) hn h

theorem avx2_32pixels_kernel_some {src dst out : Buf} {n : Nat} (hn : n < 2 ^ 64)
    (h : copy_rgba_to_rgb__avx2__32pixels src dst n = some out) : 3 * n ≤ dst.length :=
  vector_kernel_some (main_block_32_advances src) (last_block_32_advances src) hn h

theorem avx2_64pixels_kernel_some {src dst out : Buf} {n : Nat} (hn : n < 2 ^ 64)
    (h : copy_rgba_to_rgb__avx2__64pixels src dst n = some out) : 3 * n ≤ dst.length :=
  vector_kernel_some (main_block_64_advances src) (last_block_64_advances src) hn h

theorem registry_kernel_some (t : String × test_func_t) (ht : t ∈ registry) {src dst out : Buf}
    {n : Nat} (hn : n < 2 ^ 64) (h : t.2 src dst n = some out) : 3 * n ≤ dst.length := by
  simp only [registry, List.mem_cons, List.mem_singleton, List.not_mem_nil, or_false] at ht
  rcases ht with e | e | e | e | e | e | e <;> subst e
  · exact memcpy_kernel_some h
  · exact raw_ptr_kernel_some h
  · exact raw_ptr_4pixels_kernel_some h
  · exact avx2_8pixels_kernel_some hn h
  · exact avx2_16pixels_kernel_some hn h
  · exact avx2_32pixels_kernel_some hn h
  · exact avx2_64pixels_kernel_some hn h

theorem registry_kernel_none (t : String × test_func_t) (ht : t ∈ registry) (src dst : Buf)
    {n : Nat} (hn : n < 2 ^ 64) (hdst : dst.length < 3 * n) : t.2 src dst n = none := by
  cases h : t.2 src dst n with
  | none => rfl
  | some out => exact absurd (registry_kernel_some t ht hn h) (by omega)

/-! ## Consequences of the invariant -/

theorem Converted.byte {src dst out : Buf} {n : Nat} (h : Converted src dst out (3 * n) (3 * n))
    (hsrc : 4 * n ≤ src.length) {i k : Nat} (hi : i < n) (hk : k < 3) :
    ∃ b, out[3 * i + k]? = some b ∧ src[4 * i + k]? = some b := by
  have hlt : 4 * i + k < src.length := by omega
  refine ⟨src[4 * i + k], ?_, List.getElem?_eq_getElem hlt⟩
  have e : 4 * ((3 * i + k) / 3) + (3 * i + k) % 3 = 4 * i + k := by omega
  rw [h.2.1 (3 * i + k) (by omega), e]
  exact List.getElem?_eq_getElem hlt

theorem Converted.of_agree {src1 src2 dst out : Buf} {a b n : Nat}
    (h : Converted src2 dst out a b) (h1 : src1.length = 4 * n) (h2 : src2.length = 4 * n)
    (hagree : ∀ j, j < 4 * n → j % 4 ≠ 3 → src1[j]? = src2[j]?) :
    Converted src1 dst out a b := by
  refine ⟨h.1, fun j hj => ?_, h.2.2⟩
  rw [h.2.1 j hj]
  by_cases hlt : 4 * (j / 3) + j % 3 < 4 * n
  · exact (hagree _ hlt (by omega)).symm
  · rw [List.getElem?_eq_none (by omega), List.getElem?_eq_none (by omega)]

theorem registry_kernel_eq (t t' : String × test_func_t) (ht : t ∈ registry)
    (ht' : t' ∈ registry) (src dst : Buf) (n : Nat) (hn : n < 2 ^ 64)
    (hsrc : 4 * n ≤ src.length) : t.2 src dst n = t'.2 src dst n := by
  by_cases hdst : 3 * n ≤ dst.length
  · obtain ⟨o, e, c⟩ := registry_kernel_spec t ht src dst n hn hsrc hdst
    obtain ⟨o', e', c'⟩ := registry_kernel_spec t' ht' src dst n hn hsrc hdst
    rw [e, e', c.unique c']
  · rw [registry_kernel_none t ht src dst hn (by omega),
      registry_kernel_none t' ht' src dst hn (by omega)]

theorem mem_registry_memcpy : ("memcpy (1 pixel)", copy_rgba_to_rgb__memcpy) ∈ registry :=
  List.mem_cons_self _ _

theorem vector_equiv_memcpy (t : String × test_func_t) (ht : t ∈ registry) (n : Nat)
    (hn : n < 2 ^ 64) (src dst : Buf) (hsrc : src.length = 4 * n) (hdst : 3 * n ≤ dst.length) :
    ∃ outv out1, t.2 src dst n = some outv ∧ copy_rgba_to_rgb__memcpy src dst n = some out1 ∧
      outv.take (3 * n) = out1.take (3 * n) := by
  obtain ⟨o, e, c⟩ := registry_kernel_spec t ht src dst n hn (by omega) hdst
  obtain ⟨o', e', c'⟩ := memcpy_kernel_spec src dst n (by omega) hdst
  exact ⟨o, o', e, e', by rw [c.unique c']⟩

/-! ## The claims -/

/-- C1: scalar kernel correctness. For every pixel count `n`, every source of `4n`
bytes and every destination of at least `3n` bytes, `copy_rgba_to_rgb__memcpy`
returns, and afterwards destination byte `3i + k` equals source byte `4i + k`
for every pixel `i < n` and channel `k < 3`. -/
theorem C1_memcpy_correct (n : Nat) (src dst : Buf) (hsrc : src.length = 4 * n)
    (hdst : 3 * n ≤ dst.length) :
    ∃ out, copy_rgba_to_rgb__memcpy src dst n = some out ∧
      ∀ i, i < n → ∀ k, k < 3 → ∃ b, out[3 * i + k]? = some b ∧ src[4 * i + k]? = some b := by
  obtain ⟨out, e, c⟩ := memcpy_kernel_spec src dst n (by omega) hdst
  exact ⟨out, e, fun i hi k hk => c.byte (by omega) hi hk⟩

/-- Witness for C1: the scenario `n = 1`, `src = [10, 20, 30, 40]`. -/
theorem C1_memcpy_correct_witness :
    ([10, 20, 30, 40] : Buf).length = 4 * 1 ∧ 3 * 1 ≤ ([0, 0, 0] : Buf).length ∧
    ∃ out, copy_rgba_to_rgb__memcpy [10, 20, 30, 40] [0, 0, 0] 1 = some out ∧
      ∀ i, i < 1 → ∀ k, k < 3 →
        ∃ b, out[3 * i + k]? = some b ∧ ([10, 20, 30, 40] : Buf)[4 * i + k]? = some b :=
  ⟨rfl, by decide, C1_memcpy_correct 1 [10, 20, 30, 40] [0, 0, 0] rfl (by decide)⟩

/-- C2: width-8 vector kernel equivalence. For every `n`, every source of `4n`
bytes and every initial destination of at least `3n` bytes,
`copy_rgba_to_rgb__avx2__8pixels` and `copy_rgba_to_rgb__memcpy` both return and the
first `3n` bytes of their destinations are identical. -/
theorem C2_avx2_8pixels_equiv_memcpy (n : Nat) (hn : n < 2 ^ 64) (src dst : Buf)
    (hsrc : src.length = 4 * n) (hdst : 3 * n ≤ dst.length) :
    ∃ outv out1, copy_rgba_to_rgb__avx2__8pixels src dst n = some outv ∧
      copy_rgba_to_rgb__memcpy src dst n = some out1 ∧
      outv.take (3 * n) = out1.take (3 * n) :=
  vector_equiv_memcpy ("avx2 (8 pixels)", copy_rgba_to_rgb__avx2__8pixels)
    (by simp [registry]) n hn src dst hsrc hdst

/-- Witness for C2: 17 pixels, that is two blocks of 8 and a remainder of 1. -/
theorem C2_avx2_8pixels_equiv_memcpy_witness :
    17 < 2 ^ 64 ∧ ((List.range 68).map UInt8.ofNat).length = 4 * 17 ∧
    3 * 17 ≤ (List.replicate 51 (0 : UInt8)).length ∧
    ∃ outv out1,
      copy_rgba_to_rgb__avx2__8pixels ((List.range 68).map UInt8.ofNat)
        (List.replicate 51 (0 : UInt8)) 17 = some outv ∧
      copy_rgba_to_rgb__memcpy ((List.range 68).map UInt8.ofNat)
        (List.replicate 51 (0 : UInt8)) 17 = some out1 ∧
      outv.take (3 * 17) = out1.take (3 * 17) :=
  ⟨by decide, by simp, by simp only [List.length_replicate]; decide,
    C2_avx2_8pixels_equiv_memcpy 17 (by decide) _ _ (by simp)
      (by simp only [List.length_replicate]; decide)⟩

/-- C3: width-16 vector kernel equivalence. For every `n`, every source of `4n`
bytes and every initial destination of at least `3n` bytes,
`copy_rgba_to_rgb__avx2__16pixels` and `copy_rgba_to_rgb__memcpy` both return and the
first `3n` bytes of their destinations are identical. -/
theorem C3_avx2_16pixels_equiv_memcpy (n : Nat) (hn : n < 2 ^ 64) (src dst : Buf)
    (hsrc : src.length = 4 * n) (hdst : 3 * n ≤ dst.length) :
    ∃ outv out1, copy_rgba_to_rgb__avx2__16pixels src dst n = some outv ∧
      copy_rgba_to_rgb__memcpy src dst n = some out1 ∧
      outv.take (3 * n) = out1.take (3 * n) :=
  vector_equiv_memcpy ("avx2 (16 pixels)", copy_rgba_to_rgb__avx2__16pixels)
    (by simp [registry]) n hn src dst hsrc hdst

/-- Witness for C3: 33 pixels, that is two blocks of 16 and a remainder of 1. -/
theorem C3_avx2_16pixels_equiv_memcpy_witness :
    33 < 2 ^ 64 ∧ ((List.range 132).map UInt8.ofNat).length = 4 * 33 ∧
    3 * 33 ≤ (List.replicate 99 (0 : UInt8)).length ∧
    ∃ outv out1,
      copy_rgba_to_rgb__avx2__16pixels ((List.range 132).map UInt8.ofNat)
        (List.replicate 99 (0 : UInt8)) 33 = some outv ∧
      copy_rgba_to_rgb__memcpy ((List.range 132).map UInt8.ofNat)
        (List.replicate 99 (0 : UInt8)) 33 = some out1 ∧
      outv.take (3 * 33) = out1.take (3 * 33) :=
  ⟨by decide, by simp, by simp only [List.length_replicate]; decide,
    C3_avx2_16pixels_equiv_memcpy 33 (by decide) _ _ (by simp)
      (by simp only [List.length_replicate]; decide)⟩

/-- C4: width-32 vector kernel equivalence. For every `n`, every source of `4n`
bytes and every initial destination of at least `3n` bytes,
`copy_rgba_to_rgb__avx2__32pixels` and `copy_rgba_to_rgb__memcpy` both return and the
first `3n` bytes of their destinations are identical. -/
theorem C4_avx2_32pixels_equiv_memcpy (n : Nat) (hn : n < 2 ^ 64) (src dst : Buf)
    (hsrc : src.length = 4 * n) (hdst : 3 * n ≤ dst.length) :
    ∃ outv out1, copy_rgba_to_rgb__avx2__32pixels src dst n = some outv ∧
      copy_rgba_to_rgb__memcpy src dst n = some out1 ∧
      outv.take (3 * n) = out1.take (3 * n) :=
  vector_equiv_memcpy ("avx2 (32 pixels)", copy_rgba_to_rgb__avx2__32pixels)
    (by simp [registry]) n hn src dst hsrc hdst

/-- Witness for C4: 65 pixels, that is two blocks of 32 and a remainder of 1. -/
theorem C4_avx2_32pixels_equiv_memcpy_witness :
    65 < 2 ^ 64 ∧ ((List.range 260).map UInt8.ofNat).length = 4 * 65 ∧
    3 * 65 ≤ (List.replicate 195 (0 : UInt8)).length ∧
    ∃ outv out1,
      copy_rgba_to_rgb__avx2__32pixels ((List.range 260).map UInt8.ofNat)
        (List.replicate 195 (0 : UInt8)) 65 = some outv ∧
      copy_rgba_to_rgb__memcpy ((List.range 260).map UInt8.ofNat)
        (List.replicate 195 (0 : UInt8)) 65 = some out1 ∧
      outv.take (3 * 65) = out1.take (3 * 65) :=
  ⟨by decide, by simp, by simp only [List.length_replicate]; decide,
    C4_avx2_32pixels_equiv_memcpy 65 (by decide) _ _ (by simp)
      (by simp only [List.length_replicate]; decide)⟩

/-- C5: width-64 vector kernel equivalence. For every `n`, every source of `4n`
bytes and every initial destination of at least `3n` bytes,
`copy_rgba_to_rgb__avx2__64pixels` and `copy_rgba_to_rgb__memcpy` both return and the
first `3n` bytes of their destinations are identical. -/
theorem C5_avx2_64pixels_equiv_memcpy (n : Nat) (hn : n < 2 ^ 64) (src dst : Buf)
    (hsrc : src.length = 4 * n) (hdst : 3 * n ≤ dst.length) :
    ∃ outv out1, copy_rgba_to_rgb__avx2__64pixels src dst n = some outv ∧
      copy_rgba_to_rgb__memcpy src dst n = some out1 ∧
      outv.take (3 * n) = out1.take (3 * n) :=
  vector_equiv_memcpy ("avx2 (64 pixels)", copy_rgba_to_rgb__avx2__64pixels)
    (by simp [registry]) n hn src dst hsrc hdst

/-- Witness for C5: 129 pixels, that is two blocks of 64 and a remainder of 1. -/
theorem C5_avx2_64pixels_equiv_memcpy_witness :
    129 < 2 ^ 64 ∧ ((List.range 516).map UInt8.ofNat).length = 4 * 129 ∧
    3 * 129 ≤ (List.replicate 387 (0 : UInt8)).length ∧
    ∃ outv out1,
      copy_rgba_to_rgb__avx2__64pixels ((List.range 516).map UInt8.ofNat)
        (List.replicate 387 (0 : UInt8)) 129 = some outv ∧
      copy_rgba_to_rgb__memcpy ((List.range 516).map UInt8.ofNat)
        (List.replicate 387 (0 : UInt8)) 129 = some out1 ∧
      outv.take (3 * 129) = out1.take (3 * 129) :=
  ⟨by decide, by simp, by simp only [List.length_replicate]; decide,
    C5_avx2_64pixels_equiv_memcpy 129 (by decide) _ _ (by simp)
      (by simp only [List.length_replicate]; decide)⟩

/-- C6: no overshoot in the vector kernels. For each width `W` in 8, 16, 32, 64,
every `n` and every source of `4n` bytes: with a destination of exactly `3n` bytes
the call returns, so every bounds-checked store it made lay inside `[0, 3n)`; and
in any destination of at least `3n` bytes every byte at an offset `>= 3n` keeps
the value it had before the call. -/
theorem C6_vector_no_overshoot (K : test_func_t)
    (hK : K ∈ [copy_rgba_to_rgb__avx2__8pixels, copy_rgba_to_rgb__avx2__16pixels,
      copy_rgba_to_rgb__avx2__32pixels, copy_rgba_to_rgb__avx2__64pixels])
    (n : Nat) (hn : n < 2 ^ 64) (src dst : Buf) (hsrc : src.length = 4 * n) :
    (dst.length = 3 * n → ∃ out, K src dst n = some out ∧ out.length = 3 * n) ∧
    (3 * n ≤ dst.length → ∃ out, K src dst n = some out ∧ out.length = dst.length ∧
      ∀ j, 3 * n ≤ j → out[j]? = dst[j]?) := by
  have key : 3 * n ≤ dst.length →
      ∃ out, K src dst n = some out ∧ Converted src dst out (3 * n) (3 * n) := by
    intro hdst
    simp only [List.mem_cons, List.mem_singleton, List.not_mem_nil, or_false] at hK
    rcases hK with e | e | e | e <;> subst e
    · exact avx2_8pixels_kernel_spec src dst n hn (by omega) hdst
    · exact avx2_16pixels_kernel_spec src dst n hn (by omega) hdst
    · exact avx2_32pixels_kernel_spec src dst n hn (by omega) hdst
    · exact avx2_64pixels_kernel_spec src dst n hn (by omega) hdst
  constructor
  · intro hdst
    obtain ⟨out, e, c⟩ := key (by omega)
    exact ⟨out, e, by rw [c.1, hdst]⟩
  · intro hdst
    obtain ⟨out, e, c⟩ := key hdst
    exact ⟨out, e, c.1, c.2.2⟩

/-- Witness for C6: the width-8 kernel on 17 pixels, destination of exactly 51 bytes. -/
theorem C6_vector_no_overshoot_witness :
    17 < 2 ^ 64 ∧ ((List.range 68).map UInt8.ofNat).length = 4 * 17 ∧
    (List.replicate 51 (0 : UInt8)).length = 3 * 17 ∧
    (∃ out, copy_rgba_to_rgb__avx2__8pixels ((List.range 68).map UInt8.ofNat)
        (List.replicate 51 (0 : UInt8)) 17 = some out ∧ out.length = 3 * 17) ∧
    (∃ out, copy_rgba_to_rgb__avx2__8pixels ((List.range 68).map UInt8.ofNat)
        (List.replicate 51 (0 : UInt8)) 17 = some out ∧
      out.length = (List.replicate 51 (0 : UInt8)).length ∧
      ∀ j, 3 * 17 ≤ j → out[j]? = (List.replicate 51 (0 : UInt8))[j]?) :=
  ⟨by decide, by simp, by simp only [List.length_replicate],
    (C6_vector_no_overshoot copy_rgba_to_rgb__avx2__8pixels (List.mem_cons_self _ _) 17
      (by decide) _ _ (by simp)).1 (by simp only [List.length_replicate]),
    (C6_vector_no_overshoot copy_rgba_to_rgb__avx2__8pixels (List.mem_cons_self _ _) 17
      (by decide) _ _ (by simp)).2 (by simp only [List.length_replicate]; decide)⟩

/-- C7: validation passes for every kernel. For every entry of the registry, every
`n`, every source of `4n` bytes and every initial destination of `3n` bytes, the
kernel returns and `compare_rgba_to_rgb` on its output returns `true` without
printing; in particular the validation step on `make_ascending_data(4n)` prints
nothing, so no "failed" line appears. -/
theorem C7_validation_passes (t : String × test_func_t) (ht : t ∈ registry) (n : Nat)
    (hn : n < 2 ^ 64) :
    (∀ src dst : Buf, src.length = 4 * n → dst.length = 3 * n →
      ∃ out, t.2 src dst n = some out ∧ compare_rgba_to_rgb src out n = some (true, [])) ∧
    validation_step t n = some [] := by
  refine ⟨fun src dst hsrc hdst => ?_, validation_step_passes t ht n hn⟩
  obtain ⟨out, e, c⟩ := registry_kernel_spec t ht src dst n hn (by omega) (by omega)
  exact ⟨out, e, compare_of_converted (by omega) c⟩

/-- Witness for C7: the width-64 kernel on 129 pixels. -/
theorem C7_validation_passes_witness :
    ("avx2 (64 pixels)", copy_rgba_to_rgb__avx2__64pixels) ∈ registry ∧ 129 < 2 ^ 64 ∧
    (∀ src dst : Buf, src.length = 4 * 129 → dst.length = 3 * 129 →
      ∃ out, copy_rgba_to_rgb__avx2__64pixels src dst 129 = some out ∧
        compare_rgba_to_rgb src out 129 = some (true, [])) ∧
    validation_step ("avx2 (64 pixels)", copy_rgba_to_rgb__avx2__64pixels) 129 = some [] :=
  ⟨by simp [registry], by decide,
    C7_validation_passes ("avx2 (64 pixels)", copy_rgba_to_rgb__avx2__64pixels)
      (by simp [registry]) 129 (by decide)⟩

/-- C8: unrolled kernel equivalence. For every `n`, every source of `4n` bytes and
every initial destination, `copy_rgba_to_rgb__raw_ptr__4pixels` and
`copy_rgba_to_rgb__memcpy` have the same result (the same destination contents, or
both an access outside a destination shorter than `3n` bytes); with at least `3n`
destination bytes both return a buffer. -/
theorem C8_raw_ptr_4pixels_equiv_memcpy (n : Nat) (src dst : Buf) (hsrc : src.length = 4 * n) :
    copy_rgba_to_rgb__raw_ptr__4pixels src dst n = copy_rgba_to_rgb__memcpy src dst n ∧
    (3 * n ≤ dst.length → ∃ out, copy_rgba_to_rgb__memcpy src dst n = some out) := by
  constructor
  · by_cases hdst : 3 * n ≤ dst.length
    · obtain ⟨o, e, c⟩ := raw_ptr_4pixels_kernel_spec src dst n (by omega) hdst
      obtain ⟨o', e', c'⟩ := memcpy_kernel_spec src dst n (by omega) hdst
      rw [e, e', c.unique c']
    · have h1 : copy_rgba_to_rgb__raw_ptr__4pixels src dst n = none := by
        cases h : copy_rgba_to_rgb__raw_ptr__4pixels src dst n with
        | none => rfl
        | some out => exact absurd (raw_ptr_4pixels_kernel_some h) hdst
      have h2 : copy_rgba_to_rgb__memcpy src dst n = none := by
        cases h : copy_rgba_to_rgb__memcpy src dst n with
        | none => rfl
        | some out => exact absurd (memcpy_kernel_some h) hdst
      rw [h1, h2]
  · intro hdst
    obtain ⟨o, e, -⟩ := memcpy_kernel_spec src dst n (by omega) hdst
    exact ⟨o, e⟩

/-- Witness for C8: 6 pixels, that is one batch of 4 and a remainder of 2. -/
theorem C8_raw_ptr_4pixels_equiv_memcpy_witness :
    ((List.range 24).map UInt8.ofNat).length = 4 * 6 ∧
    copy_rgba_to_rgb__raw_ptr__4pixels ((List.range 24).map UInt8.ofNat)
        (List.replicate 18 (0 : UInt8)) 6
      = copy_rgba_to_rgb__memcpy ((List.range 24).map UInt8.ofNat)
        (List.replicate 18 (0 : UInt8)) 6 ∧
    (3 * 6 ≤ (List.replicate 18 (0 : UInt8)).length →
      ∃ out, copy_rgba_to_rgb__memcpy ((List.range 24).map UInt8.ofNat)
        (List.replicate 18 (0 : UInt8)) 6 = some out) :=
  ⟨by simp, C8_raw_ptr_4pixels_equiv_memcpy 6 _ _ (by simp)⟩

/-- C9: pointer-arithmetic kernel equivalence. For every `n`, every source of `4n`
bytes and every initial destination, `copy_rgba_to_rgb__raw_ptr` (two pointers
advanced by 4 and 3 per pixel) and `copy_rgba_to_rgb__memcpy` (offsets `i*4` and
`i*3`) have the same result; with at least `3n` destination bytes both return a
buffer. -/
theorem C9_raw_ptr_equiv_memcpy (n : Nat) (src dst : Buf) (hsrc : src.length = 4 * n) :
    copy_rgba_to_rgb__raw_ptr src dst n = copy_rgba_to_rgb__memcpy src dst n ∧
    (3 * n ≤ dst.length → ∃ out, copy_rgba_to_rgb__memcpy src dst n = some out) := by
  constructor
  · by_cases hdst : 3 * n ≤ dst.length
    · obtain ⟨o, e, c⟩ := raw_ptr_kernel_spec src dst n (by omega) hdst
      obtain ⟨o', e', c'⟩ := memcpy_kernel_spec src dst n (by omega) hdst
      rw [e, e', c.unique c']
    · have h1 : copy_rgba_to_rgb__raw_ptr src dst n = none := by
        cases h : copy_rgba_to_rgb__raw_ptr src dst n with
        | none => rfl
        | some out => exact absurd (raw_ptr_kernel_some h) hdst
      have h2 : copy_rgba_to_rgb__memcpy src dst n = none := by
        cases h : copy_rgba_to_rgb__memcpy src dst n with
        | none => rfl
        | some out => exact absurd (memcpy_kernel_some h) hdst
      rw [h1, h2]
  · intro hdst
    obtain ⟨o, e, -⟩ := memcpy_kernel_spec src dst n (by omega) hdst
    exact ⟨o, e⟩

/-- Witness for C9: 3 pixels. -/
theorem C9_raw_ptr_equiv_memcpy_witness :
    ((List.range 12).map UInt8.ofNat).length = 4 * 3 ∧
    copy_rgba_to_rgb__raw_ptr ((List.range 12).map UInt8.ofNat)
        (List.replicate 9 (0 : UInt8)) 3
      = copy_rgba_to_rgb__memcpy ((List.range 12).map UInt8.ofNat)
        (List.replicate 9 (0 : UInt8)) 3 ∧
    (3 * 3 ≤ (List.replicate 9 (0 : UInt8)).length →
      ∃ out, copy_rgba_to_rgb__memcpy ((List.range 12).map UInt8.ofNat)
        (List.replicate 9 (0 : UInt8)) 3 = some out) :=
  ⟨by simp, C9_raw_ptr_equiv_memcpy 3 _ _ (by simp)⟩

/-- C10: alpha independence. For every kernel of the registry (three scalar, four
vector), every `n` and every initial destination, two sources of `4n` bytes that
agree on every byte whose offset is not congruent to 3 modulo 4 give the same
result; with at least `3n` destination bytes that result is a buffer. -/
theorem C10_alpha_independence (K : test_func_t) (hK : K ∈ registry.map Prod.snd) (n : Nat)
    (hn : n < 2 ^ 64) (src1 src2 dst : Buf) (h1 : src1.length = 4 * n)
    (h2 : src2.length = 4 * n)
    (hagree : ∀ j, j < 4 * n → j % 4 ≠ 3 → src1[j]? = src2[j]?) :
    K src1 dst n = K src2 dst n ∧ (3 * n ≤ dst.length → ∃ out, K src1 dst n = some out) := by
  obtain ⟨t, ht, rfl⟩ := List.mem_map.mp hK
  constructor
  · by_cases hdst : 3 * n ≤ dst.length
    · obtain ⟨o, e, c⟩ := registry_kernel_spec t ht src1 dst n hn (by omega) hdst
      obtain ⟨o', e', c'⟩ := registry_kernel_spec t ht src2 dst n hn (by omega) hdst
      rw [e, e', c.unique (c'.of_agree h1 h2 hagree)]
    · rw [registry_kernel_none t ht src1 dst hn (by omega),
        registry_kernel_none t ht src2 dst hn (by omega)]
  · intro hdst
    obtain ⟨o, e, -⟩ := registry_kernel_spec t ht src1 dst n hn (by omega) hdst
    exact ⟨o, e⟩

/-- Witness for C10: the width-8 kernel on 9 pixels whose alpha bytes are 255 in one
source and 0 in the other. -/
theorem C10_alpha_independence_witness :
    copy_rgba_to_rgb__avx2__8pixels ∈ registry.map Prod.snd ∧ 9 < 2 ^ 64 ∧
    ((List.range 36).map (fun j => if j % 4 = 3 then (255 : UInt8) else UInt8.ofNat j)).length
      = 4 * 9 ∧
    ((List.range 36).map (fun j => if j % 4 = 3 then (0 : UInt8) else UInt8.ofNat j)).length
      = 4 * 9 ∧
    (∀ j, j < 4 * 9 → j % 4 ≠ 3 →
      ((List.range 36).map (fun j => if j % 4 = 3 then (255 : UInt8) else UInt8.ofNat j))[j]?
        = ((List.range 36).map (fun j => if j % 4 = 3 then (0 : UInt8) else UInt8.ofNat j))[j]?) ∧
    copy_rgba_to_rgb__avx2__8pixels
        ((List.range 36).map (fun j => if j % 4 = 3 then (255 : UInt8) else UInt8.ofNat j))
        (List.replicate 27 (0 : UInt8)) 9
      = copy_rgba_to_rgb__avx2__8pixels
        ((List.range 36).map (fun j => if j % 4 = 3 then (0 : UInt8) else UInt8.ofNat j))
        (List.replicate 27 (0 : UInt8)) 9 :=
  ⟨by simp [registry], by decide, by simp, by simp, by decide,
    (C10_alpha_independence copy_rgba_to_rgb__avx2__8pixels (by simp [registry]) 9 (by decide)
      ((List.range 36).map (fun j => if j % 4 = 3 then (255 : UInt8) else UInt8.ofNat j))
      ((List.range 36).map (fun j => if j % 4 = 3 then (0 : UInt8) else UInt8.ofNat j))
      (List.replicate 27 (0 : UInt8)) (by simp) (by simp) (by decide)).1⟩

/-! ## Scalar kernels: frame and bounds -/

theorem scalar_kernel_spec (K : test_func_t)
    (hK : K ∈ [copy_rgba_to_rgb__memcpy, copy_rgba_to_rgb__raw_ptr,
      copy_rgba_to_rgb__raw_ptr__4pixels])
    (src dst : Buf) (n : Nat) (hsrc : 4 * n ≤ src.length) (hdst : 3 * n ≤ dst.length) :
    ∃ out, K src dst n = some out ∧ Converted src dst out (3 * n) (3 * n) := by
  simp only [List.mem_cons, List.mem_singleton, List.not_mem_nil, or_false] at hK
  rcases hK with e | e | e <;> subst e
  · exact memcpy_kernel_spec src dst n hsrc hdst
  · exact raw_ptr_kernel_spec src dst n hsrc hdst
  · exact raw_ptr_4pixels_kernel_spec src dst n hsrc hdst

theorem Converted.rgb_byte {src dst out : Buf} {n : Nat}
    (h : Converted src dst out (3 * n) (3 * n)) (hsrc : 4 * n ≤ src.length) {j : Nat}
    (hj : j < 3 * n) : ∃ b, out[j]? = some b ∧ src[4 * (j / 3) + j % 3]? = some b := by
  have hlt : 4 * (j / 3) + j % 3 < src.length := by omega
  exact ⟨src[4 * (j / 3) + j % 3], by rw [h.2.1 j hj]; exact List.getElem?_eq_getElem hlt,
    List.getElem?_eq_getElem hlt⟩

/-- C11: scalar kernels write exactly `3n` bytes. For each of the three scalar kernels,
every `n`, every source of `4n` bytes and every destination longer than `3n` bytes,
the call returns a buffer of the same length in which every byte at an offset
`>= 3n` has its value from before the call, and every byte at an offset `< 3n` has
been written: it holds the source byte `4 * (j / 3) + j % 3` whatever the
destination held before. -/
theorem C11_scalar_writes_exactly_3n (K : test_func_t)
    (hK : K ∈ [copy_rgba_to_rgb__memcpy, copy_rgba_to_rgb__raw_ptr,
      copy_rgba_to_rgb__raw_ptr__4pixels])
    (n : Nat) (src dst : Buf) (hsrc : src.length = 4 * n) (hdst : 3 * n < dst.length) :
    ∃ out, K src dst n = some out ∧ out.length = dst.length ∧
      (∀ j, 3 * n ≤ j → out[j]? = dst[j]?) ∧
      (∀ j, j < 3 * n → ∃ b, out[j]? = some b ∧ src[4 * (j / 3) + j % 3]? = some b) ∧
      (∀ dst' : Buf, dst'.length = dst.length →
        ∃ out', K src dst' n = some out' ∧ ∀ j, j < 3 * n → out'[j]? = out[j]?) := by
  obtain ⟨out, e, c⟩ := scalar_kernel_spec K hK src dst n (by omega) (by omega)
  refine ⟨out, e, c.1, c.2.2, fun j hj => c.rgb_byte (by omega) hj, fun dst' hl => ?_⟩
  obtain ⟨out', e', c'⟩ := scalar_kernel_spec K hK src dst' n (by omega) (by omega)
  exact ⟨out', e', fun j hj => by rw [c'.2.1 j hj, c.2.1 j hj]⟩

/-- Witness for C11: the unrolled kernel on 5 pixels with two guard bytes behind the
15 destination bytes. -/
theorem C11_scalar_writes_exactly_3n_witness :
    ((List.range 20).map UInt8.ofNat).length = 4 * 5 ∧
    3 * 5 < (List.replicate 17 (170 : UInt8)).length ∧
    ∃ out, copy_rgba_to_rgb__raw_ptr__4pixels ((List.range 20).map UInt8.ofNat)
        (List.replicate 17 (170 : UInt8)) 5 = some out ∧
      out.length = (List.replicate 17 (170 : UInt8)).length ∧
      (∀ j, 3 * 5 ≤ j → out[j]? = (List.replicate 17 (170 : UInt8))[j]?) ∧
      (∀ j, j < 3 * 5 →
        ∃ b, out[j]? = some b ∧ ((List.range 20).map UInt8.ofNat)[4 * (j / 3) + j % 3]? = some b) ∧
      (∀ dst' : Buf, dst'.length = (List.replicate 17 (170 : UInt8)).length →
        ∃ out', copy_rgba_to_rgb__raw_ptr__4pixels ((List.range 20).map UInt8.ofNat) dst' 5
          = some out' ∧ ∀ j, j < 3 * 5 → out'[j]? = out[j]?) :=
  ⟨by simp, by simp only [List.length_replicate]; decide,
    C11_scalar_writes_exactly_3n copy_rgba_to_rgb__raw_ptr__4pixels (by simp) 5
      ((List.range 20).map UInt8.ofNat) (List.replicate 17 (170 : UInt8)) (by simp)
      (by simp only [List.length_replicate]; decide)⟩

/-- C12: scalar kernels stay in bounds. For each of the three scalar kernels and every
`n`, with a source of exactly `4n` bytes and a destination of exactly `3n` bytes the
bounds-checked call returns a buffer: no load reached source offset `4n` or beyond and
no store reached destination offset `3n` or beyond. -/
theorem C12_scalar_in_bounds (K : test_func_t)
    (hK : K ∈ [copy_rgba_to_rgb__memcpy, copy_rgba_to_rgb__raw_ptr,
      copy_rgba_to_rgb__raw_ptr__4pixels])
    (n : Nat) (src dst : Buf) (hsrc : src.length = 4 * n) (hdst : dst.length = 3 * n) :
    ∃ out, K src dst n = some out ∧ out.length = 3 * n := by
  obtain ⟨out, e, c⟩ := scalar_kernel_spec K hK src dst n (by omega) (by omega)
  exact ⟨out, e, by rw [c.1, hdst]⟩

/-- Witness for C12: the memcpy kernel on 5 pixels, buffers of exactly 20 and 15 bytes. -/
theorem C12_scalar_in_bounds_witness :
    ((List.range 20).map UInt8.ofNat).length = 4 * 5 ∧
    (List.replicate 15 (0 : UInt8)).length = 3 * 5 ∧
    ∃ out, copy_rgba_to_rgb__memcpy ((List.range 20).map UInt8.ofNat)
        (List.replicate 15 (0 : UInt8)) 5 = some out ∧ out.length = 3 * 5 :=
  ⟨by simp, by simp only [List.length_replicate],
    C12_scalar_in_bounds copy_rgba_to_rgb__memcpy (by simp) 5
      ((List.range 20).map UInt8.ofNat) (List.replicate 15 (0 : UInt8)) (by simp)
      (by simp only [List.length_replicate])⟩

/-- C13: zero pixels. For every kernel of the registry (three scalar, four vector) and
every source and destination, empty ones included, a call with `n = 0` returns the
destination unchanged; as every access is bounds-checked, it returns so on empty
buffers too, where any load or store would be out of range. -/
theorem C13_zero_pixels (K : test_func_t) (hK : K ∈ registry.map Prod.snd) (src dst : Buf) :
    K src dst 0 = some dst ∧ K [] [] 0 = some [] := by
  simp only [registry, List.map_cons, List.map_nil, List.mem_cons, List.mem_singleton,
    List.not_mem_nil, or_false] at hK
  rcases hK with e | e | e | e | e | e | e <;> subst e <;> exact ⟨rfl, rfl⟩

/-- Witness for C13: the width-64 kernel called with empty buffers. -/
theorem C13_zero_pixels_witness :
    copy_rgba_to_rgb__avx2__64pixels ∈ registry.map Prod.snd ∧
    copy_rgba_to_rgb__avx2__64pixels [] [7, 7] 0 = some [7, 7] ∧
    copy_rgba_to_rgb__avx2__64pixels [] [] 0 = some [] :=
  ⟨by simp [registry], C13_zero_pixels copy_rgba_to_rgb__avx2__64pixels (by simp [registry])
    [] [7, 7]⟩

/-! ## The verifier, case by case -/

theorem load_getD {mem : Buf} {off : Nat} (h : off < mem.length) :
    load mem off = some (mem.getD off 0) := by
  unfold load
  rw [List.getElem?_eq_getElem h, List.getD_eq_getElem?_getD, List.getElem?_eq_getElem h]
  rfl

theorem dump_calls_succ (buf : Buf) (group r : Nat) :
    dump_calls buf group (r + 1) = dump_calls buf group r ++
      (StdoutCall.fprintf "%d " [PrintfArg.num (buf.getD r 0).toNat] ::
        (if ((r + 1) % group) = 0 then [StdoutCall.fputs "| "] else [])) := by
  simp only [dump_calls, List.range_succ, List.map_append, List.flatten_append, List.map_cons,
    List.map_nil, List.flatten_cons, List.flatten_nil, List.append_nil]

theorem dump_loop_spec (buf : Buf) (group : Nat) (out : List StdoutCall) (k : Nat) :
    ∀ r, r + k ≤ buf.length →
      for_loop (fun r out =>
          and_then (load buf r) fun x =>
          let out := out ++ [StdoutCall.fprintf "%d " [PrintfArg.num x.toNat]]
          if ((r + 1) % group) = 0 then some (out ++ [StdoutCall.fputs "| "]) else some out)
        k r (out ++ dump_calls buf group r)
      = some (out ++ dump_calls buf group (r + k)) := by
  induction k with
  | zero => intro r _; rfl
  | succ k ih =>
    intro r hr
    have e := ih (r + 1) (by omega)
    have hl := load_getD (show r < buf.length by omega)
    rw [dump_calls_succ] at e
    simp only [for_loop, hl, and_then_some]
    have e2 : r + (k + 1) = r + 1 + k := by omega
    rw [e2, ← e]
    by_cases hg : (r + 1) % group = 0
    · simp only [hg, if_true, Option.some_bind, List.append_assoc, List.cons_append,
        List.nil_append]
    · simp only [hg, if_false, Option.some_bind, List.append_assoc, List.cons_append,
        List.nil_append, List.append_nil]

theorem dump_spec (buf : Buf) (group count : Nat) (out : List StdoutCall)
    (h : count ≤ buf.length) :
    compare_rgba_to_rgb.dump buf group count out = some (out ++ dump_calls buf group count) := by
  have e := dump_loop_spec buf group out count 0 (by omega)
  have e0 : dump_calls buf group 0 = [] := rfl
  rw [e0, List.append_nil, Nat.zero_add] at e
  exact e

theorem pixel_matches_iff {rgba rgb : Buf} {i : Nat} (ha : i * 4 + 3 < rgba.length)
    (hb : i * 3 + 2 < rgb.length) :
    pixel_matches rgba rgb i ↔
      (rgba.getD (i * 4) 0 = rgb.getD (i * 3) 0 ∧ rgba.getD (i * 4 + 1) 0 = rgb.getD (i * 3 + 1) 0
        ∧ rgba.getD (i * 4 + 2) 0 = rgb.getD (i * 3 + 2) 0) := by
  have g : ∀ (m : Buf) (j : Nat), j < m.length → m[j]? = some (m.getD j 0) := by
    intro m j hj
    exact load_getD hj
  constructor
  · intro h
    have h0 := h 0 (by omega)
    have h1 := h 1 (by omega)
    have h2 := h 2 (by omega)
    rw [g rgb _ (by omega), g rgba _ (by omega)] at h0 h1 h2
    have e0 : 3 * i + 0 = i * 3 := by omega
    have e1 : 3 * i + 1 = i * 3 + 1 := by omega
    have e2 : 3 * i + 2 = i * 3 + 2 := by omega
    have f0 : 4 * i + 0 = i * 4 := by omega
    have f1 : 4 * i + 1 = i * 4 + 1 := by omega
    have f2 : 4 * i + 2 = i * 4 + 2 := by omega
    rw [e0, f0] at h0
    rw [e1, f1] at h1
    rw [e2, f2] at h2
    injection h0 with h0
    injection h1 with h1
    injection h2 with h2
    exact ⟨h0.symm, h1.symm, h2.symm⟩
  · rintro ⟨h0, h1, h2⟩ k hk
    rw [g rgb _ (by omega), g rgba _ (by omega)]
    have hk3 : k = 0 ∨ k = 1 ∨ k = 2 := by omega
    rcases hk3 with e | e | e <;> subst e
    · have e0 : 3 * i + 0 = i * 3 := by omega
      have f0 : 4 * i + 0 = i * 4 := by omega
      rw [e0, f0, h0]
    · have e1 : 3 * i + 1 = i * 3 + 1 := by omega
      have f1 : 4 * i + 1 = i * 4 + 1 := by omega
      rw [e1, f1, h1]
    · have e2 : 3 * i + 2 = i * 3 + 2 := by omega
      have f2 : 4 * i + 2 = i * 4 + 2 := by omega
      rw [e2, f2, h2]

theorem compare_step {rgba rgb : Buf} {n : Nat} (ha : n * 4 ≤ rgba.length)
    (hb : n * 3 ≤ rgb.length) (k i : Nat) (out : List StdoutCall) (hi : i < n) :
    compare_rgba_to_rgb.loop rgba rgb n (k + 1) i out =
      if pixel_matches rgba rgb i then compare_rgba_to_rgb.loop rgba rgb n k (i + 1) out
      else some (false, out ++ mismatch_calls rgba rgb n i) := by
  have a0 := load_getD (show i * 4 < rgba.length by omega)
  have a1 := load_getD (show i * 4 + 1 < rgba.length by omega)
  have a2 := load_getD (show i * 4 + 2 < rgba.length by omega)
  have a3 := load_getD (show i * 4 + 3 < rgba.length by omega)
  have b0 := load_getD (show i * 3 < rgb.length by omega)
  have b1 := load_getD (show i * 3 + 1 < rgb.length by omega)
  have b2 := load_getD (show i * 3 + 2 < rgb.length by omega)
  have hm := pixel_matches_iff (show i * 4 + 3 < rgba.length by omega)
    (show i * 3 + 2 < rgb.length by omega)
  by_cases h : pixel_matches rgba rgb i
  · obtain ⟨h0, h1, h2⟩ := hm.mp h
    rw [if_pos h]
    simp only [compare_rgba_to_rgb.loop, a0, a1, a2, a3, b0, b1, b2, and_then_some,
      h0, h1, h2, bne_self_eq_false, Bool.or_self, Bool.false_eq_true, if_false]
  · rw [if_neg h]
    have hc : ((rgba.getD (i * 4) 0 != rgb.getD (i * 3) 0) ||
        (rgba.getD (i * 4 + 1) 0 != rgb.getD (i * 3 + 1) 0) ||
        (rgba.getD (i * 4 + 2) 0 != rgb.getD (i * 3 + 2) 0)) = true := by
      by_contra hne
      apply h
      apply hm.mpr
      simp only [Bool.or_eq_true, bne_iff_ne, ne_eq, not_or, not_not] at hne
      exact ⟨hne.1.1, hne.1.2, hne.2⟩
    simp only [compare_rgba_to_rgb.loop, a0, a1, a2, a3, b0, b1, b2, and_then_some, hc, if_true,
      dump_spec rgba 4 (n * 4) _ ha, dump_spec rgb 3 (n * 3) _ hb, mismatch_calls,
      mismatch_dump, mismatch_line, List.append_assoc, List.cons_append, List.nil_append]

theorem compare_loop_all_match {rgba rgb : Buf} {n : Nat} (ha : n * 4 ≤ rgba.length)
    (hb : n * 3 ≤ rgb.length) (out : List StdoutCall) (k : Nat) :
    ∀ i, i + k ≤ n → (∀ i', i ≤ i' → i' < i + k → pixel_matches rgba rgb i') →
      compare_rgba_to_rgb.loop rgba rgb n k i out = some (true, out) := by
  induction k with
  | zero => intro i _ _; rfl
  | succ k ih =>
    intro i hi hall
    rw [compare_step ha hb k i out (by omega), if_pos (hall i (Nat.le_refl _) (by omega))]
    exact ih (i + 1) (by omega) (fun i' h1 h2 => hall i' (by omega) (by omega))

theorem compare_loop_first_mismatch {rgba rgb : Buf} {n : Nat} (ha : n * 4 ≤ rgba.length)
    (hb : n * 3 ≤ rgb.length) (out : List StdoutCall) (m : Nat) (k : Nat) :
    ∀ i, i + k ≤ n → i ≤ m → m < i + k →
      (∀ i', i ≤ i' → i' < m → pixel_matches rgba rgb i') → ¬ pixel_matches rgba rgb m →
      compare_rgba_to_rgb.loop rgba rgb n k i out
        = some (false, out ++ mismatch_calls rgba rgb n m) := by
  induction k with
  | zero => intro i _ h1 h2; omega
  | succ k ih =>
    intro i hi h1 h2 hall hm
    rw [compare_step ha hb k i out (by omega)]
    by_cases e : i = m
    · subst e
      rw [if_neg hm]
    · rw [if_pos (hall i (Nat.le_refl _) (by omega))]
      exact ih (i + 1) (by omega) (by omega) (by omega)
        (fun i' h3 h4 => hall i' (by omega) h4) hm

theorem compare_all_match {rgba rgb : Buf} {n : Nat} (ha : n * 4 ≤ rgba.length)
    (hb : n * 3 ≤ rgb.length) (hall : ∀ i, i < n → pixel_matches rgba rgb i) :
    compare_rgba_to_rgb rgba rgb n = some (true, []) :=
  compare_loop_all_match ha hb [] (n - 0) 0 (by omega) (fun i _ h => hall i (by omega))

theorem compare_first_mismatch {rgba rgb : Buf} {n : Nat} (ha : n * 4 ≤ rgba.length)
    (hb : n * 3 ≤ rgb.length) {m : Nat} (hm : m < n)
    (hall : ∀ i, i < m → pixel_matches rgba rgb i) (hne : ¬ pixel_matches rgba rgb m) :
    compare_rgba_to_rgb rgba rgb n = some (false, mismatch_calls rgba rgb n m) := by
  have e := compare_loop_first_mismatch ha hb [] m (n - 0) 0 (by omega) (by omega) (by omega)
    (fun i _ h => hall i h) hne
  rw [List.nil_append] at e
  exact e

/-- The verifier always returns on buffers of `4n` and `3n` bytes: either every pixel
matches and it returns `true` without output, or it returns `false` with the calls
for the first mismatching pixel. -/
theorem compare_cases {rgba rgb : Buf} {n : Nat} (ha : n * 4 ≤ rgba.length)
    (hb : n * 3 ≤ rgb.length) :
    ((∀ i, i < n → pixel_matches rgba rgb i) ∧
      compare_rgba_to_rgb rgba rgb n = some (true, [])) ∨
    (∃ m, m < n ∧ (∀ i, i < m → pixel_matches rgba rgb i) ∧ ¬ pixel_matches rgba rgb m ∧
      compare_rgba_to_rgb rgba rgb n = some (false, mismatch_calls rgba rgb n m)) := by
  by_cases hall : ∀ i, i < n → pixel_matches rgba rgb i
  · exact Or.inl ⟨hall, compare_all_match ha hb hall⟩
  · right
    have hex : ∃ m, m < n ∧ ¬ pixel_matches rgba rgb m := by
      by_contra hcon
      apply hall
      intro i hi
      by_contra hnm
      exact hcon ⟨i, hi, hnm⟩
    refine ⟨Nat.find hex, (Nat.find_spec hex).1, ?_, (Nat.find_spec hex).2, ?_⟩
    · intro i hi
      by_contra hnm
      exact Nat.find_min hex hi ⟨by have := (Nat.find_spec hex).1; omega, hnm⟩
    · refine compare_first_mismatch ha hb (Nat.find_spec hex).1 ?_ (Nat.find_spec hex).2
      intro i hi
      by_contra hnm
      exact Nat.find_min hex hi ⟨by have := (Nat.find_spec hex).1; omega, hnm⟩

theorem dump_calls_mem {buf : Buf} {group count : Nat} {c : StdoutCall}
    (h : c ∈ dump_calls buf group count) :
    (∃ x, c = StdoutCall.fprintf "%d " [PrintfArg.num x]) ∨ c = StdoutCall.fputs "| " := by
  simp only [dump_calls, List.mem_flatten, List.mem_map, List.mem_range] at h
  obtain ⟨l, ⟨r, -, rfl⟩, hc⟩ := h
  rcases List.mem_cons.mp hc with e | e
  · exact Or.inl ⟨_, e⟩
  · right
    by_cases hg : (r + 1) % group = 0
    · rw [if_pos hg] at e
      exact List.mem_singleton.mp e
    · rw [if_neg hg] at e
      exact absurd e (List.not_mem_nil _)

theorem mismatch_dump_mem {rgba rgb : Buf} {n : Nat} {c : StdoutCall}
    (h : c ∈ mismatch_dump rgba rgb n) (a : List PrintfArg) :
    c ≠ StdoutCall.fprintf
      "Mismatch at i=%zu: RGBA(%d, %d, %d, %d) but got RGB(%d, %d, %d)\n" a := by
  have hd : ∀ buf g cnt, c ∈ dump_calls buf g cnt → c ≠ StdoutCall.fprintf
      "Mismatch at i=%zu: RGBA(%d, %d, %d, %d) but got RGB(%d, %d, %d)\n" a := by
    intro buf g cnt hc
    rcases dump_calls_mem hc with ⟨x, e⟩ | e
    · rw [e]
      intro hcon
      injection hcon with h1 h2
      exact absurd h1 (by decide)
    · rw [e]
      intro hcon
      cases hcon
  simp only [mismatch_dump, List.mem_append, List.mem_singleton] at h
  rcases h with (((e | e) | e) | e) | e
  · rw [e]; intro hcon; cases hcon
  · exact hd _ _ _ e
  · rw [e]; intro hcon; cases hcon
  · exact hd _ _ _ e
  · rw [e]; intro hcon; cases hcon

theorem pixel_matches_congr {rgba rgb rgba' rgb' : Buf} {i : Nat}
    (h4 : ∀ j, j < 4 * (i + 1) → rgba'[j]? = rgba[j]?)
    (h3 : ∀ j, j < 3 * (i + 1) → rgb'[j]? = rgb[j]?) {m : Nat} (hm : m ≤ i) :
    pixel_matches rgba' rgb' m ↔ pixel_matches rgba rgb m := by
  unfold pixel_matches
  constructor
  · intro h k hk
    have := h k hk
    rwa [h4 _ (by omega), h3 _ (by omega)] at this
  · intro h k hk
    rw [h4 _ (by omega), h3 _ (by omega)]
    exact h k hk

theorem getD_congr {a b : Buf} {j : Nat} (h : a[j]? = b[j]?) : a.getD j 0 = b.getD j 0 := by
  rw [List.getD_eq_getElem?_getD, List.getD_eq_getElem?_getD, h]

theorem mismatch_line_congr {rgba rgb rgba' rgb' : Buf} {i : Nat}
    (h4 : ∀ j, j < 4 * (i + 1) → rgba'[j]? = rgba[j]?)
    (h3 : ∀ j, j < 3 * (i + 1) → rgb'[j]? = rgb[j]?) :
    mismatch_line rgba' rgb' i = mismatch_line rgba rgb i := by
  unfold mismatch_line
  rw [getD_congr (h4 (i * 4) (by omega)), getD_congr (h4 (i * 4 + 1) (by omega)),
    getD_congr (h4 (i * 4 + 3) (by omega)), getD_congr (h3 (i * 3) (by omega)),
    getD_congr (h3 (i * 3 + 1) (by omega)), getD_congr (h3 (i * 3 + 2) (by omega))]

/-- C14: verifier verdict. For every `n`, every rgba buffer of `4n` bytes and every rgb
buffer of `3n` bytes, `compare_rgba_to_rgb` returns, and its verdict is `true` if and
only if `rgb[3i+k] = rgba[4i+k]` for every pixel `i < n` and channel `k < 3`; in
particular the verdict is `true` when `n = 0`. -/
theorem C14_verifier_verdict (n : Nat) (rgba rgb : Buf) (ha : rgba.length = 4 * n)
    (hb : rgb.length = 3 * n) :
    ∃ verdict out, compare_rgba_to_rgb rgba rgb n = some (verdict, out) ∧
      (verdict = true ↔ ∀ i, i < n → ∀ k, k < 3 → rgb[3 * i + k]? = rgba[4 * i + k]?) ∧
      (n = 0 → verdict = true) := by
  rcases compare_cases (show n * 4 ≤ rgba.length by omega) (show n * 3 ≤ rgb.length by omega)
    with ⟨hall, e⟩ | ⟨m, hm, -, hne, e⟩
  · exact ⟨true, [], e, ⟨fun _ => hall, fun _ => rfl⟩, fun _ => rfl⟩
  · refine ⟨false, _, e, ⟨fun h => absurd h (by simp), fun h => absurd (h m hm) hne⟩, ?_⟩
    intro h0
    omega

/-- Witness for C14: two pixels, the second converted wrongly. -/
theorem C14_verifier_verdict_witness :
    ([1, 2, 3, 4, 5, 6, 7, 8] : Buf).length = 4 * 2 ∧ ([1, 2, 3, 5, 6, 9] : Buf).length = 3 * 2 ∧
    ∃ verdict out,
      compare_rgba_to_rgb [1, 2, 3, 4, 5, 6, 7, 8] [1, 2, 3, 5, 6, 9] 2 = some (verdict, out) ∧
      (verdict = true ↔ ∀ i, i < 2 → ∀ k, k < 3 →
        ([1, 2, 3, 5, 6, 9] : Buf)[3 * i + k]? = ([1, 2, 3, 4, 5, 6, 7, 8] : Buf)[4 * i + k]?) ∧
      (2 = 0 → verdict = true) :=
  ⟨rfl, rfl, C14_verifier_verdict 2 [1, 2, 3, 4, 5, 6, 7, 8] [1, 2, 3, 5, 6, 9] rfl rfl⟩

/-- C16 (the code departs from the claim): on one pixel `[10, 20, 30, 40]` compared with
`[10, 20, 99]` the mismatch line reports the RGBA values 10, 20, 20, 40: the third
value is the G byte `rgba[4i+1]` a second time, not the B byte `rgba[4i+2] = 30`. -/
theorem C16_mismatch_line_prints_green_twice :
    compare_rgba_to_rgb [10, 20, 30, 40] [10, 20, 99] 1 = some (false,
      [StdoutCall.fputs "rgba: [",
       StdoutCall.fprintf "%d " [PrintfArg.num 10], StdoutCall.fprintf "%d " [PrintfArg.num 20],
       StdoutCall.fprintf "%d " [PrintfArg.num 30], StdoutCall.fprintf "%d " [PrintfArg.num 40],
       StdoutCall.fputs "| ",
       StdoutCall.fputs "]\nrgb: [",
       StdoutCall.fprintf "%d " [PrintfArg.num 10], StdoutCall.fprintf "%d " [PrintfArg.num 20],
       StdoutCall.fprintf "%d " [PrintfArg.num 99],
       StdoutCall.fputs "| ",
       StdoutCall.fputs "]\n",
       StdoutCall.fprintf "Mismatch at i=%zu: RGBA(%d, %d, %d, %d) but got RGB(%d, %d, %d)\n"
         [PrintfArg.num 0, PrintfArg.num 10, PrintfArg.num 20, PrintfArg.num 20,
          PrintfArg.num 40, PrintfArg.num 10, PrintfArg.num 20, PrintfArg.num 99]]) := by
  decide

/-! ## Footprint of the vector blocks -/

theorem Region.untouched (src mem : Buf) (lo : Nat) : Region src mem mem lo lo lo :=
  ⟨rfl, fun _ _ => rfl, fun _ h1 h2 => absurd h2 (by omega), fun _ _ => rfl⟩

theorem Region.cast {src mem out : Buf} {lo a b a' b' : Nat} (h : Region src mem out lo a b)
    (ha : a = a') (hb : b = b') : Region src mem out lo a' b' := by
  subst ha; subst hb; exact h

theorem Region.store {src mem out : Buf} {lo a b : Nat} (bs : List UInt8) (c : Nat)
    (h : Region src mem out lo a b) (hlo : lo ≤ a) (hb : b ≤ a + bs.length)
    (hlen : a + bs.length ≤ mem.length) (hc : c ≤ bs.length)
    (hbs : ∀ j, j < c → bs[j]? = src[4 * ((a + j) / 3) + (a + j) % 3]?) :
    Region src mem (write_bytes out a bs) lo (a + c) (a + bs.length) := by
  obtain ⟨h1, h2, h3, h4⟩ := h
  have hlen' : a + bs.length ≤ out.length := by omega
  refine ⟨by rw [length_write_bytes _ _ _ hlen', h1], ?_, ?_, ?_⟩
  · intro j hj
    rw [getElem?_write_bytes _ _ _ _ hlen', if_pos (by omega)]
    exact h2 j hj
  · intro j hj1 hj2
    rw [getElem?_write_bytes _ _ _ _ hlen']
    by_cases hja : j < a
    · rw [if_pos hja]; exact h3 j hj1 hja
    · rw [if_neg hja, if_pos (by omega)]
      have := hbs (j - a) (by omega)
      rw [this]
      congr 2 <;> congr 1 <;> omega
  · intro j hj
    rw [getElem?_write_bytes _ _ _ _ hlen', if_neg (by omega), if_neg (by omega)]
    exact h4 j (by omega)

theorem shuffle_lane_zero (v : M256) (h : Fin 2) (j : Fin 16) (hj : 12 ≤ j.val) :
    _mm256_extracti128_si256
        (_mm256_shuffle_epi8 v copy_rgba_to_rgb__avx2__8pixels.shuffle_mask) h.val j = 0 := by
  fin_cases h <;> fin_cases j <;> first | rfl | (exact absurd hj (by decide))

theorem lane_getElem?_zero {v : M256} {h : Nat} (hh : h < 2) {j : Nat} (hj : 12 ≤ j)
    (hj16 : j < 16) :
    (List.ofFn (_mm256_extracti128_si256
        (_mm256_shuffle_epi8 v copy_rgba_to_rgb__avx2__8pixels.shuffle_mask) h))[j]?
      = some 0 := by
  have hlen : j < (List.ofFn (_mm256_extracti128_si256
        (_mm256_shuffle_epi8 v copy_rgba_to_rgb__avx2__8pixels.shuffle_mask) h)).length := by
    rw [List.length_ofFn]; omega
  rw [List.getElem?_eq_getElem hlen, List.getElem_ofFn]
  exact congrArg some (shuffle_lane_zero v ⟨h, hh⟩ ⟨j, hj16⟩ hj)

theorem region_lane_si128 {src mem d : Buf} {so lo q b : Nat} {v : M256} (o h : Nat)
    (hv : _mm256_loadu_si256 src so = some v) (hc : Region src mem d lo (3 * q) b)
    (hh : h < 2) (hq : so + 16 * h = 4 * q) (ho : o = 3 * q) (hlo : lo ≤ 3 * q)
    (hb : b ≤ 3 * q + 16) (hdst : 3 * q + 16 ≤ mem.length) :
    ∃ d', _mm_storeu_si128 d o (_mm256_extracti128_si256
        (_mm256_shuffle_epi8 v copy_rgba_to_rgb__avx2__8pixels.shuffle_mask) h) = some d' ∧
      Region src mem d' lo (3 * (q + 4)) (3 * (q + 4) + 4) ∧
      (∀ j, 3 * (q + 4) ≤ j → j < 3 * (q + 4) + 4 → d'[j]? = some 0) := by
  subst ho
  have hl : (List.ofFn (_mm256_extracti128_si256
      (_mm256_shuffle_epi8 v copy_rgba_to_rgb__avx2__8pixels.shuffle_mask) h)).length = 16 :=
    List.length_ofFn _
  have hin : 3 * q + (List.ofFn (_mm256_extracti128_si256
      (_mm256_shuffle_epi8 v copy_rgba_to_rgb__avx2__8pixels.shuffle_mask) h)).length
      ≤ d.length := by rw [hl, hc.1]; exact hdst
  refine ⟨_, store_bytes_eq _ _ _ hin, ?_, ?_⟩
  · have key := Region.store _ 12 hc hlo (by rw [hl]; exact hb) (by rw [hl]; exact hdst)
      (by rw [hl]; omega) (by
        intro j hj
        rw [lane_getElem? hv hh hj]
        congr 1; omega)
    rw [hl] at key
    exact key.cast (by omega) (by omega)
  · intro j hj1 hj2
    rw [getElem?_write_bytes _ _ _ _ hin, if_neg (by omega), if_pos (by rw [hl]; omega)]
    exact lane_getElem?_zero hh (by omega) (by omega)

theorem region_lane_si64 {src mem d : Buf} {so lo q b : Nat} {v : M256} (o h : Nat)
    (hv : _mm256_loadu_si256 src so = some v) (hc : Region src mem d lo (3 * q) b)
    (hh : h < 2) (hq : so + 16 * h = 4 * q) (ho : o = 3 * q) (hlo : lo ≤ 3 * q)
    (hb : b ≤ 3 * q + 8) (hdst : 3 * q + 8 ≤ mem.length) :
    ∃ d', _mm_storeu_si64 d o (_mm256_extracti128_si256
        (_mm256_shuffle_epi8 v copy_rgba_to_rgb__avx2__8pixels.shuffle_mask) h) = some d' ∧
      Region src mem d' lo (3 * q + 8) (3 * q + 8) := by
  subst ho
  have hl : ((List.ofFn (_mm256_extracti128_si256
      (_mm256_shuffle_epi8 v copy_rgba_to_rgb__avx2__8pixels.shuffle_mask) h)).take 8).length
      = 8 := by
    rw [List.length_take, List.length_ofFn]; rfl
  refine ⟨_, store_bytes_eq _ _ _ (by rw [hl, hc.1]; exact hdst), ?_⟩
  have key := Region.store _ 8 hc hlo (by rw [hl]; exact hb) (by rw [hl]; exact hdst)
    (by rw [hl]) (by
      intro j hj
      rw [List.getElem?_take_of_lt hj, lane_getElem? hv hh (by omega)]
      congr 1; omega)
  rw [hl] at key
  exact key

theorem region_lane_si32 {src mem d : Buf} {so lo q b : Nat} {v : M256} (o h : Nat)
    (hv : _mm256_loadu_si256 src so = some v) (hc : Region src mem d lo (3 * q + 8) b)
    (hh : h < 2) (hq : so + 16 * h = 4 * q) (ho : o = 3 * q + 8) (hlo : lo ≤ 3 * q + 8)
    (hb : b ≤ 3 * q + 12) (hdst : 3 * q + 12 ≤ mem.length) :
    ∃ d', _mm_storeu_si32 d o (_mm_srli_si128 (_mm256_extracti128_si256
        (_mm256_shuffle_epi8 v copy_rgba_to_rgb__avx2__8pixels.shuffle_mask) h) 8) = some d' ∧
      Region src mem d' lo (3 * (q + 4)) (3 * (q + 4)) := by
  subst ho
  have hl : ((List.ofFn (_mm_srli_si128 (_mm256_extracti128_si256
      (_mm256_shuffle_epi8 v copy_rgba_to_rgb__avx2__8pixels.shuffle_mask) h) 8)).take 4).length
      = 4 := by
    rw [List.length_take, List.length_ofFn]; rfl
  refine ⟨_, store_bytes_eq _ _ _ (by rw [hl, hc.1]; exact hdst), ?_⟩
  have key := Region.store _ 4 hc hlo (by rw [hl]; exact hb) (by rw [hl]; exact hdst)
    (by rw [hl]) (by
      intro j hj
      have hlen : j < (List.ofFn (_mm_srli_si128 (_mm256_extracti128_si256
          (_mm256_shuffle_epi8 v copy_rgba_to_rgb__avx2__8pixels.shuffle_mask) h) 8)).length := by
        rw [List.length_ofFn]; omega
      have hlen' : j + 8 < (List.ofFn (_mm256_extracti128_si256
          (_mm256_shuffle_epi8 v copy_rgba_to_rgb__avx2__8pixels.shuffle_mask) h)).length := by
        rw [List.length_ofFn]; omega
      have h8 : j + 8 < 16 := by omega
      have hsh := lane_getElem? hv hh (show j + 8 < 12 by omega)
      rw [List.getElem?_eq_getElem hlen', List.getElem_ofFn] at hsh
      rw [List.getElem?_take_of_lt hj, List.getElem?_eq_getElem hlen, List.getElem_ofFn]
      simp only [_mm_srli_si128, dif_pos h8]
      rw [hsh]
      congr 1; omega)
  rw [hl] at key
  exact key.cast (by omega) (by omega)

theorem main_block_8_effect {src : Buf} {s : Cursor} {p : Nat}
    (hra : s.rgba = 4 * p) (hrb : s.rgb = 3 * p) (hsrc : 4 * (p + 8) ≤ src.length)
    (hdst : 3 * (p + 8) + 4 ≤ s.rgb_mem.length) :
    ∃ s', copy_rgba_to_rgb__avx2__8pixels.main_block src s = some s' ∧
      s'.rgba = 4 * (p + 8) ∧ s'.rgb = 3 * (p + 8) ∧
      Region src s.rgb_mem s'.rgb_mem (3 * p) (3 * (p + 8)) (3 * (p + 8) + 4) ∧
      (∀ j, 3 * (p + 8) ≤ j → j < 3 * (p + 8) + 4 → s'.rgb_mem[j]? = some 0) := by
  obtain ⟨ra, rb, mem⟩ := s
  simp only at hra hrb hdst
  subst hra hrb
  have c0 := Region.untouched src mem (3 * p)
  obtain ⟨v0, hv0⟩ := loadu_some src (4 * p) (by omega)
  obtain ⟨d1, e1, c1, -⟩ := region_lane_si128 (3 * p) 0 hv0 c0
    (by omega) (by omega) (by omega) (by omega) (by omega) (by omega)
  obtain ⟨d2, e2, c2, z2⟩ := region_lane_si128 (3 * p + 12) 1 hv0 c1
    (by omega) (by omega) (by omega) (by omega) (by omega) (by omega)
  refine ⟨⟨4 * p + 32, 3 * p + 24, d2⟩, ?_, by simp only; omega, by simp only; omega,
    c2.cast (by omega) (by omega),
    fun j h1 h2 => z2 j (by omega) (by omega)⟩
  refine (and_then_of_eq_some hv0 _).trans ?_
  refine (and_then_of_eq_some e1 _).trans ?_
  refine (and_then_of_eq_some e2 _).trans ?_
  rfl

theorem last_block_8_effect {src : Buf} {s : Cursor} {p : Nat}
    (hra : s.rgba = 4 * p) (hrb : s.rgb = 3 * p) (hsrc : 4 * (p + 8) ≤ src.length)
    (hdst : 3 * (p + 8) ≤ s.rgb_mem.length) :
    ∃ s', copy_rgba_to_rgb__avx2__8pixels.last_block src s = some s' ∧
      s'.rgba = 4 * (p + 8) ∧ s'.rgb = 3 * (p + 8) ∧
      Region src s.rgb_mem s'.rgb_mem (3 * p) (3 * (p + 8)) (3 * (p + 8)) := by
  obtain ⟨ra, rb, mem⟩ := s
  simp only at hra hrb hdst
  subst hra hrb
  have c0 := Region.untouched src mem (3 * p)
  obtain ⟨v0, hv0⟩ := loadu_some src (4 * p) (by omega)
  obtain ⟨d1, e1, c1, -⟩ := region_lane_si128 (3 * p) 0 hv0 c0
    (by omega) (by omega) (by omega) (by omega) (by omega) (by omega)
  obtain ⟨d2, e2, c2⟩ := region_lane_si64 (3 * p + 12) 1 hv0 c1
    (by omega) (by omega) (by omega) (by omega) (by omega) (by omega)
  obtain ⟨d3, e3, c3⟩ := region_lane_si32 (3 * p + 20) 1 hv0 c2
    (by omega) (by omega) (by omega) (by omega) (by omega) (by omega)
  refine ⟨⟨4 * p + 32, 3 * p + 24, d3⟩, ?_, by simp only; omega, by simp only; omega,
    c3.cast (by omega) (by omega)⟩
  refine (and_then_of_eq_some hv0 _).trans ?_
  refine (and_then_of_eq_some e1 _).trans ?_
  refine (and_then_of_eq_some e2 _).trans ?_
  refine (and_then_of_eq_some e3 _).trans ?_
  rfl

theorem main_block_16_effect {src : Buf} {s : Cursor} {p : Nat}
    (hra : s.rgba = 4 * p) (hrb : s.rgb = 3 * p) (hsrc : 4 * (p + 16) ≤ src.length)
    (hdst : 3 * (p + 16) + 4 ≤ s.rgb_mem.length) :
    ∃ s', copy_rgba_to_rgb__avx2__16pixels.main_block src s = some s' ∧
      s'.rgba = 4 * (p + 16) ∧ s'.rgb = 3 * (p + 16) ∧
      Region src s.rgb_mem s'.rgb_mem (3 * p) (3 * (p + 16)) (3 * (p + 16) + 4) ∧
      (∀ j, 3 * (p + 16) ≤ j → j < 3 * (p + 16) + 4 → s'.rgb_mem[j]? = some 0) := by
  obtain ⟨ra, rb, mem⟩ := s
  simp only at hra hrb hdst
  subst hra hrb
  have c0 := Region.untouched src mem (3 * p)
  obtain ⟨v0, hv0⟩ := loadu_some src (4 * p) (by omega)
  obtain ⟨v1, hv1⟩ := loadu_some src (4 * p + 32) (by omega)
  obtain ⟨d1, e1, c1, -⟩ := region_lane_si128 (3 * p) 0 hv0 c0
    (by omega) (by omega) (by omega) (by omega) (by omega) (by omega)
  obtain ⟨d2, e2, c2, -⟩ := region_lane_si128 (3 * p + 12) 1 hv0 c1
    (by omega) (by omega) (by omega) (by omega) (by omega) (by omega)
  obtain ⟨d3, e3, c3, -⟩ := region_lane_si128 (3 * p + 24) 0 hv1 c2
    (by omega) (by omega) (by omega) (by omega) (by omega) (by omega)
  obtain ⟨d4, e4, c4, z4⟩ := region_lane_si128 (3 * p + 36) 1 hv1 c3
    (by omega) (by omega) (by omega) (by omega) (by omega) (by omega)
  refine ⟨⟨4 * p + 64, 3 * p + 48, d4⟩, ?_, by simp only; omega, by simp only; omega,
    c4.cast (by omega) (by omega),
    fun j h1 h2 => z4 j (by omega) (by omega)⟩
  refine (and_then_of_eq_some hv0 _).trans ?_
  refine (and_then_of_eq_some hv1 _).trans ?_
  refine (and_then_of_eq_some e1 _).trans ?_
  refine (and_then_of_eq_some e2 _).trans ?_
  refine (and_then_of_eq_some e3 _).trans ?_
  refine (and_then_of_eq_some e4 _).trans ?_
  rfl

theorem last_block_16_effect {src : Buf} {s : Cursor} {p : Nat}
    (hra : s.rgba = 4 * p) (hrb : s.rgb = 3 * p) (hsrc : 4 * (p + 16) ≤ src.length)
    (hdst : 3 * (p + 16) ≤ s.rgb_mem.length) :
    ∃ s', copy_rgba_to_rgb__avx2__16pixels.last_block src s = some s' ∧
      s'.rgba = 4 * (p + 16) ∧ s'.rgb = 3 * (p + 16) ∧
      Region src s.rgb_mem s'.rgb_mem (3 * p) (3 * (p + 16)) (3 * (p + 16)) := by
  obtain ⟨ra, rb, mem⟩ := s
  simp only at hra hrb hdst
  subst hra hrb
  have c0 := Region.untouched src mem (3 * p)
  obtain ⟨v0, hv0⟩ := loadu_some src (4 * p) (by omega)
  obtain ⟨v1, hv1⟩ := loadu_some src (4 * p + 32) (by omega)
  obtain ⟨d1, e1, c1, -⟩ := region_lane_si128 (3 * p) 0 hv0 c0
    (by omega) (by omega) (by omega) (by omega) (by omega) (by omega)
  obtain ⟨d2, e2, c2, -⟩ := region_lane_si128 (3 * p + 12) 1 hv0 c1
    (by omega) (by omega) (by omega) (by omega) (by omega) (by omega)
  obtain ⟨d3, e3, c3, -⟩ := region_lane_si128 (3 * p + 24) 0 hv1 c2
    (by omega) (by omega) (by omega) (by omega) (by omega) (by omega)
  obtain ⟨d4, e4, c4⟩ := region_lane_si64 (3 * p + 36) 1 hv1 c3
    (by omega) (by omega) (by omega) (by omega) (by omega) (by omega)
  obtain ⟨d5, e5, c5⟩ := region_lane_si32 (3 * p + 44) 1 hv1 c4
    (by omega) (by omega) (by omega) (by omega) (by omega) (by omega)
  refine ⟨⟨4 * p + 64, 3 * p + 48, d5⟩, ?_, by simp only; omega, by simp only; omega,
    c5.cast (by omega) (by omega)⟩
  refine (and_then_of_eq_some hv0 _).trans ?_
  refine (and_then_of_eq_some hv1 _).trans ?_
  refine (and_then_of_eq_some e1 _).trans ?_
  refine (and_then_of_eq_some e2 _).trans ?_
  refine (and_then_of_eq_some e3 _).trans ?_
  refine (and_then_of_eq_some e4 _).trans ?_
  refine (and_then_of_eq_some e5 _).trans ?_
  rfl

theorem main_block_32_effect {src : Buf} {s : Cursor} {p : Nat}
    (hra : s.rgba = 4 * p) (hrb : s.rgb = 3 * p) (hsrc : 4 * (p + 32) ≤ src.length)
    (hdst : 3 * (p + 32) + 4 ≤ s.rgb_mem.length) :
    ∃ s', copy_rgba_to_rgb__avx2__32pixels.main_block src s = some s' ∧
      s'.rgba = 4 * (p + 32) ∧ s'.rgb = 3 * (p + 32) ∧
      Region src s.rgb_mem s'.rgb_mem (3 * p) (3 * (p + 32)) (3 * (p + 32) + 4) ∧
      (∀ j, 3 * (p + 32) ≤ j → j < 3 * (p + 32) + 4 → s'.rgb_mem[j]? = some 0) := by
  obtain ⟨ra, rb, mem⟩ := s
  simp only at hra hrb hdst
  subst hra hrb
  have c0 := Region.untouched src mem (3 * p)
  obtain ⟨v0, hv0⟩ := loadu_some src (4 * p) (by omega)
  obtain ⟨v1, hv1⟩ := loadu_some src (4 * p + 32) (by omega)
  obtain ⟨v2, hv2⟩ := loadu_some src (4 * p + 64) (by omega)
  obtain ⟨v3, hv3⟩ := loadu_some src (4 * p + 96) (by omega)
  obtain ⟨d1, e1, c1, -⟩ := region_lane_si128 (3 * p) 0 hv0 c0
    (by omega) (by omega) (by omega) (by omega) (by omega) (by omega)
  obtain ⟨d2, e2, c2, -⟩ := region_lane_si128 (3 * p + 12) 1 hv0 c1
    (by omega) (by omega) (by omega) (by omega) (by omega) (by omega)
  obtain ⟨d3, e3, c3, -⟩ := region_lane_si128 (3 * p + 24) 0 hv1 c2
    (by omega) (by omega) (by omega) (by omega) (by omega) (by omega)
  obtain ⟨d4, e4, c4, -⟩ := region_lane_si128 (3 * p + 36) 1 hv1 c3
    (by omega) (by omega) (by omega) (by omega) (by omega) (by omega)
  obtain ⟨d5, e5, c5, -⟩ := region_lane_si128 (3 * p + 48) 0 hv2 c4
    (by omega) (by omega) (by omega) (by omega) (by omega) (by omega)
  obtain ⟨d6, e6, c6, -⟩ := region_lane_si128 (3 * p + 60) 1 hv2 c5
    (by omega) (by omega) (by omega) (by omega) (by omega) (by omega)
  obtain ⟨d7, e7, c7, -⟩ := region_lane_si128 (3 * p + 72) 0 hv3 c6
    (by omega) (by omega) (by omega) (by omega) (by omega) (by omega)
  obtain ⟨d8, e8, c8, z8⟩ := region_lane_si128 (3 * p + 84) 1 hv3 c7
    (by omega) (by omega) (by omega) (by omega) (by omega) (by omega)
  refine ⟨⟨4 * p + 128, 3 * p + 96, d8⟩, ?_, by simp only; omega, by simp only; omega,
    c8.cast (by omega) (by omega),
    fun j h1 h2 => z8 j (by omega) (by omega)⟩
  refine (and_then_of_eq_some hv0 _).trans ?_
  refine (and_then_of_eq_some hv1 _).trans ?_
  refine (and_then_of_eq_some hv2 _).trans ?_
  refine (and_then_of_eq_some hv3 _).trans ?_
  refine (and_then_of_eq_some e1 _).trans ?_
  refine (and_then_of_eq_some e2 _).trans ?_
  refine (and_then_of_eq_some e3 _).trans ?_
  refine (and_then_of_eq_some e4 _).trans ?_
  refine (and_then_of_eq_some e5 _).trans ?_
  refine (and_then_of_eq_some e6 _).trans ?_
  refine (and_then_of_eq_some e7 _).trans ?_
  refine (and_then_of_eq_some e8 _).trans ?_
  rfl

theorem last_block_32_effect {src : Buf} {s : Cursor} {p : Nat}
    (hra : s.rgba = 4 * p) (hrb : s.rgb = 3 * p) (hsrc : 4 * (p + 32) ≤ src.length)
    (hdst : 3 * (p + 32) ≤ s.rgb_mem.length) :
    ∃ s', copy_rgba_to_rgb__avx2__32pixels.last_block src s = some s' ∧
      s'.rgba = 4 * (p + 32) ∧ s'.rgb = 3 * (p + 32) ∧
      Region src s.rgb_mem s'.rgb_mem (3 * p) (3 * (p + 32)) (3 * (p + 32)) := by
  obtain ⟨ra, rb, mem⟩ := s
  simp only at hra hrb hdst
  subst hra hrb
  have c0 := Region.untouched src mem (3 * p)
  obtain ⟨v0, hv0⟩ := loadu_some src (4 * p) (by omega)
  obtain ⟨v1, hv1⟩ := loadu_some src (4 * p + 32) (by omega)
  obtain ⟨v2, hv2⟩ := loadu_some src (4 * p + 64) (by omega)
  obtain ⟨v3, hv3⟩ := loadu_some src (4 * p + 96) (by omega)
  obtain ⟨d1, e1, c1, -⟩ := region_lane_si128 (3 * p) 0 hv0 c0
    (by omega) (by omega) (by omega) (by omega) (by omega) (by omega)
  obtain ⟨d2, e2, c2, -⟩ := region_lane_si128 (3 * p + 12) 1 hv0 c1
    (by omega) (by omega) (by omega) (by omega) (by omega) (by omega)
  obtain ⟨d3, e3, c3, -⟩ := region_lane_si128 (3 * p + 24) 0 hv1 c2
    (by omega) (by omega) (by omega) (by omega) (by omega) (by omega)
  obtain ⟨d4, e4, c4, -⟩ := region_lane_si128 (3 * p + 36) 1 hv1 c3
    (by omega) (by omega) (by omega) (by omega) (by omega) (by omega)
  obtain ⟨d5, e5, c5, -⟩ := region_lane_si128 (3 * p + 48) 0 hv2 c4
    (by omega) (by omega) (by omega) (by omega) (by omega) (by omega)
  obtain ⟨d6, e6, c6, -⟩ := region_lane_si128 (3 * p + 60) 1 hv2 c5
    (by omega) (by omega) (by omega) (by omega) (by omega) (by omega)
  obtain ⟨d7, e7, c7, -⟩ := region_lane_si128 (3 * p + 72) 0 hv3 c6
    (by omega) (by omega) (by omega) (by omega) (by omega) (by omega)
  obtain ⟨d8, e8, c8⟩ := region_lane_si64 (3 * p + 84) 1 hv3 c7
    (by omega) (by omega) (by omega) (by omega) (by omega) (by omega)
  obtain ⟨d9, e9, c9⟩ := region_lane_si32 (3 * p + 92) 1 hv3 c8
    (by omega) (by omega) (by omega) (by omega) (by omega) (by omega)
  refine ⟨⟨4 * p + 128, 3 * p + 96, d9⟩, ?_, by simp only; omega, by simp only; omega,
    c9.cast (by omega) (by omega)⟩
  refine (and_then_of_eq_some hv0 _).trans ?_
  refine (and_then_of_eq_some hv1 _).trans ?_
  refine (and_then_of_eq_some hv2 _).trans ?_
  refine (and_then_of_eq_some hv3 _).trans ?_
  refine (and_then_of_eq_some e1 _).trans ?_
  refine (and_then_of_eq_some e2 _).trans ?_
  refine (and_then_of_eq_some e3 _).trans ?_
  refine (and_then_of_eq_some e4 _).trans ?_
  refine (and_then_of_eq_some e5 _).trans ?_
  refine (and_then_of_eq_some e6 _).trans ?_
  refine (and_then_of_eq_some e7 _).trans ?_
  refine (and_then_of_eq_some e8 _).trans ?_
  refine (and_then_of_eq_some e9 _).trans ?_
  rfl

theorem main_block_64_effect {src : Buf} {s : Cursor} {p : Nat}
    (hra : s.rgba = 4 * p) (hrb : s.rgb = 3 * p) (hsrc : 4 * (p + 64) ≤ src.length)
    (hdst : 3 * (p + 64) + 4 ≤ s.rgb_mem.length) :
    ∃ s', copy_rgba_to_rgb__avx2__64pixels.main_block src s = some s' ∧
      s'.rgba = 4 * (p + 64) ∧ s'.rgb = 3 * (p + 64) ∧
      Region src s.rgb_mem s'.rgb_mem (3 * p) (3 * (p + 64)) (3 * (p + 64) + 4) ∧
      (∀ j, 3 * (p + 64) ≤ j → j < 3 * (p + 64) + 4 → s'.rgb_mem[j]? = some 0) := by
  obtain ⟨ra, rb, mem⟩ := s
  simp only at hra hrb hdst
  subst hra hrb
  have c0 := Region.untouched src mem (3 * p)
  obtain ⟨v0, hv0⟩ := loadu_some src (4 * p) (by omega)
  obtain ⟨v1, hv1⟩ := loadu_some src (4 * p + 32) (by omega)
  obtain ⟨v2, hv2⟩ := loadu_some src (4 * p + 64) (by omega)
  obtain ⟨v3, hv3⟩ := loadu_some src (4 * p + 96) (by omega)
  obtain ⟨v4, hv4⟩ := loadu_some src (4 * p + 128) (by omega)
  obtain ⟨v5, hv5⟩ := loadu_some src (4 * p + 160) (by omega)
  obtain ⟨v6, hv6⟩ := loadu_some src (4 * p + 192) (by omega)
  obtain ⟨v7, hv7⟩ := loadu_some src (4 * p + 224) (by omega)
  obtain ⟨d1, e1, c1, -⟩ := region_lane_si128 (3 * p) 0 hv0 c0
    (by omega) (by omega) (by omega) (by omega) (by omega) (by omega)
  obtain ⟨d2, e2, c2, -⟩ := region_lane_si128 (3 * p + 12) 1 hv0 c1
    (by omega) (by omega) (by omega) (by omega) (by omega) (by omega)
  obtain ⟨d3, e3, c3, -⟩ := region_lane_si128 (3 * p + 24) 0 hv1 c2
    (by omega) (by omega) (by omega) (by omega) (by omega) (by omega)
  obtain ⟨d4, e4, c4, -⟩ := region_lane_si128 (3 * p + 36) 1 hv1 c3
    (by omega) (by omega) (by omega) (by omega) (by omega) (by omega)
  obtain ⟨d5, e5, c5, -⟩ := region_lane_si128 (3 * p + 48) 0 hv2 c4
    (by omega) (by omega) (by omega) (by omega) (by omega) (by omega)
  obtain ⟨d6, e6, c6, -⟩ := region_lane_si128 (3 * p + 60) 1 hv2 c5
    (by omega) (by omega) (by omega) (by omega) (by omega) (by omega)
  obtain ⟨d7, e7, c7, -⟩ := region_lane_si128 (3 * p + 72) 0 hv3 c6
    (by omega) (by omega) (by omega) (by omega) (by omega) (by omega)
  obtain ⟨d8, e8, c8, -⟩ := region_lane_si128 (3 * p + 84) 1 hv3 c7
    (by omega) (by omega) (by omega) (by omega) (by omega) (by omega)
  obtain ⟨d9, e9, c9, -⟩ := region_lane_si128 (3 * p + 96) 0 hv4 c8
    (by omega) (by omega) (by omega) (by omega) (by omega) (by omega)
  obtain ⟨d10, e10, c10, -⟩ := region_lane_si128 (3 * p + 108) 1 hv4 c9
    (by omega) (by omega) (by omega) (by omega) (by omega) (by omega)
  obtain ⟨d11, e11, c11, -⟩ := region_lane_si128 (3 * p + 120) 0 hv5 c10
    (by omega) (by omega) (by omega) (by omega) (by omega) (by omega)
  obtain ⟨d12, e12, c12, -⟩ := region_lane_si128 (3 * p + 132) 1 hv5 c11
    (by omega) (by omega) (by omega) (by omega) (by omega) (by omega)
  obtain ⟨d13, e13, c13, -⟩ := region_lane_si128 (3 * p + 144) 0 hv6 c12
    (by omega) (by omega) (by omega) (by omega) (by omega) (by omega)
  obtain ⟨d14, e14, c14, -⟩ := region_lane_si128 (3 * p + 156) 1 hv6 c13
    (by omega) (by omega) (by omega) (by omega) (by omega) (by omega)
  obtain ⟨d15, e15, c15, -⟩ := region_lane_si128 (3 * p + 168) 0 hv7 c14
    (by omega) (by omega) (by omega) (by omega) (by omega) (by omega)
  obtain ⟨d16, e16, c16, z16⟩ := region_lane_si128 (3 * p + 180) 1 hv7 c15
    (by omega) (by omega) (by omega) (by omega) (by omega) (by omega)
  refine ⟨⟨4 * p + 256, 3 * p + 192, d16⟩, ?_, by simp only; omega, by simp only; omega,
    c16.cast (by omega) (by omega),
    fun j h1 h2 => z16 j (by omega) (by omega)⟩
  refine (and_then_of_eq_some hv0 _).trans ?_
  refine (and_then_of_eq_some hv1 _).trans ?_
  refine (and_then_of_eq_some hv2 _).trans ?_
  refine (and_then_of_eq_some hv3 _).trans ?_
  refine (and_then_of_eq_some hv4 _).trans ?_
  refine (and_then_of_eq_some hv5 _).trans ?_
  refine (and_then_of_eq_some hv6 _).trans ?_
  refine (and_then_of_eq_some hv7 _).trans ?_
  refine (and_then_of_eq_some e1 _).trans ?_
  refine (and_then_of_eq_some e2 _).trans ?_
  refine (and_then_of_eq_some e3 _).trans ?_
  refine (and_then_of_eq_some e4 _).trans ?_
  refine (and_then_of_eq_some e5 _).trans ?_
  refine (and_then_of_eq_some e6 _).trans ?_
  refine (and_then_of_eq_some e7 _).trans ?_
  refine (and_then_of_eq_some e8 _).trans ?_
  refine (and_then_of_eq_some e9 _).trans ?_
  refine (and_then_of_eq_some e10 _).trans ?_
  refine (and_then_of_eq_some e11 _).trans ?_
  refine (and_then_of_eq_some e12 _).trans ?_
  refine (and_then_of_eq_some e13 _).trans ?_
  refine (and_then_of_eq_some e14 _).trans ?_
  refine (and_then_of_eq_some e15 _).trans ?_
  refine (and_then_of_eq_some e16 _).trans ?_
  rfl

theorem last_block_64_effect {src : Buf} {s : Cursor} {p : Nat}
    (hra : s.rgba = 4 * p) (hrb : s.rgb = 3 * p) (hsrc : 4 * (p + 64) ≤ src.length)
    (hdst : 3 * (p + 64) ≤ s.rgb_mem.length) :
    ∃ s', copy_rgba_to_rgb__avx2__64pixels.last_block src s = some s' ∧
      s'.rgba = 4 * (p + 64) ∧ s'.rgb = 3 * (p + 64) ∧
      Region src s.rgb_mem s'.rgb_mem (3 * p) (3 * (p + 64)) (3 * (p + 64)) := by
  obtain ⟨ra, rb, mem⟩ := s
  simp only at hra hrb hdst
  subst hra hrb
  have c0 := Region.untouched src mem (3 * p)
  obtain ⟨v0, hv0⟩ := loadu_some src (4 * p) (by omega)
  obtain ⟨v1, hv1⟩ := loadu_some src (4 * p + 32) (by omega)
  obtain ⟨v2, hv2⟩ := loadu_some src (4 * p + 64) (by omega)
  obtain ⟨v3, hv3⟩ := loadu_some src (4 * p + 96) (by omega)
  obtain ⟨v4, hv4⟩ := loadu_some src (4 * p + 128) (by omega)
  obtain ⟨v5, hv5⟩ := loadu_some src (4 * p + 160) (by omega)
  obtain ⟨v6, hv6⟩ := loadu_some src (4 * p + 192) (by omega)
  obtain ⟨v7, hv7⟩ := loadu_some src (4 * p + 224) (by omega)
  obtain ⟨d1, e1, c1, -⟩ := region_lane_si128 (3 * p) 0 hv0 c0
    (by omega) (by omega) (by omega) (by omega) (by omega) (by omega)
  obtain ⟨d2, e2, c2, -⟩ := region_lane_si128 (3 * p + 12) 1 hv0 c1
    (by omega) (by omega) (by omega) (by omega) (by omega) (by omega)
  obtain ⟨d3, e3, c3, -⟩ := region_lane_si128 (3 * p + 24) 0 hv1 c2
    (by omega) (by omega) (by omega) (by omega) (by omega) (by omega)
  obtain ⟨d4, e4, c4, -⟩ := region_lane_si128 (3 * p + 36) 1 hv1 c3
    (by omega) (by omega) (by omega) (by omega) (by omega) (by omega)
  obtain ⟨d5, e5, c5, -⟩ := region_lane_si128 (3 * p + 48) 0 hv2 c4
    (by omega) (by omega) (by omega) (by omega) (by omega) (by omega)
  obtain ⟨d6, e6, c6, -⟩ := region_lane_si128 (3 * p + 60) 1 hv2 c5
    (by omega) (by omega) (by omega) (by omega) (by omega) (by omega)
  obtain ⟨d7, e7, c7, -⟩ := region_lane_si128 (3 * p + 72) 0 hv3 c6
    (by omega) (by omega) (by omega) (by omega) (by omega) (by omega)
  obtain ⟨d8, e8, c8, -⟩ := region_lane_si128 (3 * p + 84) 1 hv3 c7
    (by omega) (by omega) (by omega) (by omega) (by omega) (by omega)
  obtain ⟨d9, e9, c9, -⟩ := region_lane_si128 (3 * p + 96) 0 hv4 c8
    (by omega) (by omega) (by omega) (by omega) (by omega) (by omega)
  obtain ⟨d10, e10, c10, -⟩ := region_lane_si128 (3 * p + 108) 1 hv4 c9
    (by omega) (by omega) (by omega) (by omega) (by omega) (by omega)
  obtain ⟨d11, e11, c11, -⟩ := region_lane_si128 (3 * p + 120) 0 hv5 c10
    (by omega) (by omega) (by omega) (by omega) (by omega) (by omega)
  obtain ⟨d12, e12, c12, -⟩ := region_lane_si128 (3 * p + 132) 1 hv5 c11
    (by omega) (by omega) (by omega) (by omega) (by omega) (by omega)
  obtain ⟨d13, e13, c13, -⟩ := region_lane_si128 (3 * p + 144) 0 hv6 c12
    (by omega) (by omega) (by omega) (by omega) (by omega) (by omega)
  obtain ⟨d14, e14, c14, -⟩ := region_lane_si128 (3 * p + 156) 1 hv6 c13
    (by omega) (by omega) (by omega) (by omega) (by omega) (by omega)
  obtain ⟨d15, e15, c15, -⟩ := region_lane_si128 (3 * p + 168) 0 hv7 c14
    (by omega) (by omega) (by omega) (by omega) (by omega) (by omega)
  obtain ⟨d16, e16, c16⟩ := region_lane_si64 (3 * p + 180) 1 hv7 c15
    (by omega) (by omega) (by omega) (by omega) (by omega) (by omega)
  obtain ⟨d17, e17, c17⟩ := region_lane_si32 (3 * p + 188) 1 hv7 c16
    (by omega) (by omega) (by omega) (by omega) (by omega) (by omega)
  refine ⟨⟨4 * p + 256, 3 * p + 192, d17⟩, ?_, by simp only; omega, by simp only; omega,
    c17.cast (by omega) (by omega)⟩
  refine (and_then_of_eq_some hv0 _).trans ?_
  refine (and_then_of_eq_some hv1 _).trans ?_
  refine (and_then_of_eq_some hv2 _).trans ?_
  refine (and_then_of_eq_some hv3 _).trans ?_
  refine (and_then_of_eq_some hv4 _).trans ?_
  refine (and_then_of_eq_some hv5 _).trans ?_
  refine (and_then_of_eq_some hv6 _).trans ?_
  refine (and_then_of_eq_some hv7 _).trans ?_
  refine (and_then_of_eq_some e1 _).trans ?_
  refine (and_then_of_eq_some e2 _).trans ?_
  refine (and_then_of_eq_some e3 _).trans ?_
  refine (and_then_of_eq_some e4 _).trans ?_
  refine (and_then_of_eq_some e5 _).trans ?_
  refine (and_then_of_eq_some e6 _).trans ?_
  refine (and_then_of_eq_some e7 _).trans ?_
  refine (and_then_of_eq_some e8 _).trans ?_
  refine (and_then_of_eq_some e9 _).trans ?_
  refine (and_then_of_eq_some e10 _).trans ?_
  refine (and_then_of_eq_some e11 _).trans ?_
  refine (and_then_of_eq_some e12 _).trans ?_
  refine (and_then_of_eq_some e13 _).trans ?_
  refine (and_then_of_eq_some e14 _).trans ?_
  refine (and_then_of_eq_some e15 _).trans ?_
  refine (and_then_of_eq_some e16 _).trans ?_
  refine (and_then_of_eq_some e17 _).trans ?_
  rfl

/-! ## The four vector kernels, uniformly -/

theorem vk_width {v : VectorKernel} (hv : v ∈ vector_kernels) : 8 ≤ v.W := by
  simp only [vector_kernels, List.mem_cons, List.mem_singleton, List.not_mem_nil, or_false] at hv
  rcases hv with e | e | e | e <;> subst e <;> decide

theorem vk_main_spec {v : VectorKernel} (hv : v ∈ vector_kernels) {src dst : Buf} (s : Cursor)
    (p : Nat) (h : CursorAt src dst s p 4) (hsrc : 4 * (p + v.W) ≤ src.length)
    (hdst : 3 * (p + v.W) + 4 ≤ dst.length) :
    ∃ s', v.main_block src s = some s' ∧ CursorAt src dst s' (p + v.W) 4 := by
  simp only [vector_kernels, List.mem_cons, List.mem_singleton, List.not_mem_nil, or_false] at hv
  rcases hv with e | e | e | e <;> subst e
  · exact main_block_8_spec h hsrc hdst
  · exact main_block_16_spec h hsrc hdst
  · exact main_block_32_spec h hsrc hdst
  · exact main_block_64_spec h hsrc hdst

theorem vk_last_spec {v : VectorKernel} (hv : v ∈ vector_kernels) {src dst : Buf} (s : Cursor)
    (p : Nat) (h : CursorAt src dst s p 4) (hsrc : 4 * (p + v.W) ≤ src.length)
    (hdst : 3 * (p + v.W) ≤ dst.length) :
    ∃ s', v.last_block src s = some s' ∧ CursorAt src dst s' (p + v.W) 0 := by
  simp only [vector_kernels, List.mem_cons, List.mem_singleton, List.not_mem_nil, or_false] at hv
  rcases hv with e | e | e | e <;> subst e
  · exact last_block_8_spec h hsrc hdst
  · exact last_block_16_spec h hsrc hdst
  · exact last_block_32_spec h hsrc hdst
  · exact last_block_64_spec h hsrc hdst

theorem vk_main_effect {v : VectorKernel} (hv : v ∈ vector_kernels) {src : Buf} {s : Cursor}
    {p : Nat} (hra : s.rgba = 4 * p) (hrb : s.rgb = 3 * p) (hsrc : 4 * (p + v.W) ≤ src.length)
    (hdst : 3 * (p + v.W) + 4 ≤ s.rgb_mem.length) :
    ∃ s', v.main_block src s = some s' ∧ s'.rgba = 4 * (p + v.W) ∧ s'.rgb = 3 * (p + v.W) ∧
      Region src s.rgb_mem s'.rgb_mem (3 * p) (3 * (p + v.W)) (3 * (p + v.W) + 4) ∧
      (∀ j, 3 * (p + v.W) ≤ j → j < 3 * (p + v.W) + 4 → s'.rgb_mem[j]? = some 0) := by
  simp only [vector_kernels, List.mem_cons, List.mem_singleton, List.not_mem_nil, or_false] at hv
  rcases hv with e | e | e | e <;> subst e
  · exact main_block_8_effect hra hrb hsrc hdst
  · exact main_block_16_effect hra hrb hsrc hdst
  · exact main_block_32_effect hra hrb hsrc hdst
  · exact main_block_64_effect hra hrb hsrc hdst

theorem vk_last_effect {v : VectorKernel} (hv : v ∈ vector_kernels) {src : Buf} {s : Cursor}
    {p : Nat} (hra : s.rgba = 4 * p) (hrb : s.rgb = 3 * p) (hsrc : 4 * (p + v.W) ≤ src.length)
    (hdst : 3 * (p + v.W) ≤ s.rgb_mem.length) :
    ∃ s', v.last_block src s = some s' ∧ s'.rgba = 4 * (p + v.W) ∧ s'.rgb = 3 * (p + v.W) ∧
      Region src s.rgb_mem s'.rgb_mem (3 * p) (3 * (p + v.W)) (3 * (p + v.W)) := by
  simp only [vector_kernels, List.mem_cons, List.mem_singleton, List.not_mem_nil, or_false] at hv
  rcases hv with e | e | e | e <;> subst e
  · exact last_block_8_effect hra hrb hsrc hdst
  · exact last_block_16_effect hra hrb hsrc hdst
  · exact last_block_32_effect hra hrb hsrc hdst
  · exact last_block_64_effect hra hrb hsrc hdst

theorem vk_kernel_eq {v : VectorKernel} (hv : v ∈ vector_kernels) (src dst : Buf) (n : Nat) :
    v.kernel src dst n =
      and_then (
        if n / v.W > 0 then
          and_then (for_loop (fun _ s => v.main_block src s) (size_t_sub (n / v.W) 1 - 0) 0
            ⟨0, 0, dst⟩) fun s => v.last_block src s
        else some ⟨0, 0, dst⟩) fun s =>
      and_then (for_loop (fun _ s => copy_pixel src s) (n - n / v.W * v.W) (n / v.W * v.W) s)
        fun s => some s.rgb_mem := by
  simp only [vector_kernels, List.mem_cons, List.mem_singleton, List.not_mem_nil, or_false] at hv
  rcases hv with e | e | e | e <;> subst e <;> rfl

theorem for_loop_succ_last {σ : Type} (f : σ → Option σ) (k : Nat) :
    ∀ (i : Nat) (s : σ), for_loop (fun _ s => f s) (k + 1) i s
      = (for_loop (fun _ s => f s) k i s).bind f := by
  induction k with
  | zero =>
    intro i s
    simp only [for_loop, Option.some_bind]
    cases f s <;> rfl
  | succ k ih =>
    intro i s
    rw [for_loop]
    cases h : f s with
    | none => simp only [for_loop, h, Option.none_bind]
    | some s1 =>
      simp only [Option.some_bind]
      rw [ih (i + 1) s1]
      simp only [for_loop, h, Option.some_bind]

/-- State of a vector kernel run before main-loop iteration `b`, for each block `b`
that is not behind the last full block: `b` iterations have run and the cursor stands
at pixel `W * b`. -/
theorem vk_before_block {v : VectorKernel} (hv : v ∈ vector_kernels) (src dst : Buf) (n : Nat)
    (hsrc : 4 * n ≤ src.length) (hdst : 3 * n ≤ dst.length) (b : Nat) (hb : b + 1 ≤ n / v.W) :
    ∃ s, for_loop (fun _ s => v.main_block src s) b 0 ⟨0, 0, dst⟩ = some s ∧
      CursorAt src dst s (v.W * b) 4 := by
  have hW := vk_width hv
  have h1 : v.W * (b + 1) ≤ v.W * (n / v.W) := Nat.mul_le_mul_left _ hb
  have h2 : v.W * (b + 1) = v.W * b + v.W := Nat.mul_succ _ _
  have h3 : v.W * (n / v.W) ≤ n := Nat.mul_div_le n v.W
  obtain ⟨s, e, c⟩ := block_loop_spec src dst (v.main_block src) v.W 4
    (fun s p h => vk_main_spec hv s p h) b 0 ⟨0, 0, dst⟩ 0
    ((CursorAt.start src dst).relax (by omega)) (by omega) (by omega)
  refine ⟨s, e, ?_⟩
  rw [Nat.zero_add] at c
  exact c

theorem vk_blocks_bounds {v : VectorKernel} (n b : Nat) (hb : b + 1 ≤ n / v.W) :
    v.W * b + v.W ≤ n := by
  have h1 : v.W * (b + 1) ≤ v.W * (n / v.W) := Nat.mul_le_mul_left _ hb
  have h2 : v.W * (b + 1) = v.W * b + v.W := Nat.mul_succ _ _
  have h3 : v.W * (n / v.W) ≤ n := Nat.mul_div_le n v.W
  omega

/-! ## Structure of a vector kernel run -/

theorem mul_pred_add (W B : Nat) (hB : 1 ≤ B) : W * (B - 1) + W = W * B := by
  have e : B = (B - 1) + 1 := by omega
  calc W * (B - 1) + W = W * ((B - 1) + 1) := (Nat.mul_succ _ _).symm
    _ = W * B := by rw [← e]

theorem vk_kernel_spec {v : VectorKernel} (hv : v ∈ vector_kernels) (src dst : Buf) (n : Nat)
    (hn : n < 2 ^ 64) (hsrc : 4 * n ≤ src.length) (hdst : 3 * n ≤ dst.length) :
    ∃ out, v.kernel src dst n = some out ∧ Converted src dst out (3 * n) (3 * n) := by
  rw [vk_kernel_eq hv]
  exact vector_kernel_spec src dst _ _ v.W (by have := vk_width hv; omega)
    (fun s p h => vk_main_spec hv s p h) (fun s p h => vk_last_spec hv s p h) n hn hsrc hdst

/-- C17: phase structure of the vector kernels. For each width `W` in 8, 16, 32, 64 and
every `n`, with `B = n / W`: when `B >= 1` the kernel runs `B - 1` iterations of its
overshooting main loop and then its precise last block once, and when `B = 0` it runs
no block; after that the source and destination cursors stand at `4 * W * B` and
`3 * W * B`; then the scalar remainder loop runs `n mod W` times from there, ends at
`4n` and `3n`, and its destination is what the kernel returns. -/
theorem C17_vector_phase_structure (v : VectorKernel) (hv : v ∈ vector_kernels) (n : Nat)
    (hn : n < 2 ^ 64) (src dst : Buf) (hsrc : src.length = 4 * n) (hdst : 3 * n ≤ dst.length) :
    ∃ s_blocks s_end : Cursor,
      ((0 < n / v.W ∧ ∃ s_main,
          for_loop (fun _ s => v.main_block src s) (n / v.W - 1) 0 ⟨0, 0, dst⟩ = some s_main ∧
          v.last_block src s_main = some s_blocks) ∨
        (n / v.W = 0 ∧ s_blocks = ⟨0, 0, dst⟩)) ∧
      s_blocks.rgba = 4 * (v.W * (n / v.W)) ∧ s_blocks.rgb = 3 * (v.W * (n / v.W)) ∧
      for_loop (fun _ s => copy_pixel src s) (n % v.W) (n / v.W * v.W) s_blocks = some s_end ∧
      s_end.rgba = 4 * n ∧ s_end.rgb = 3 * n ∧
      v.kernel src dst n = some s_end.rgb_mem := by
  have hW := vk_width hv
  have hdiv : v.W * (n / v.W) ≤ n := Nat.mul_div_le n v.W
  have hmod : v.W * (n / v.W) + n % v.W = n := Nat.div_add_mod n v.W
  have hcomm : n / v.W * v.W = v.W * (n / v.W) := Nat.mul_comm _ _
  have hrem : n - n / v.W * v.W = n % v.W := by omega
  by_cases hB : 0 < n / v.W
  · obtain ⟨s_main, e1, c1⟩ := vk_before_block hv src dst n (by omega) hdst (n / v.W - 1)
      (by omega)
    have hsplit := mul_pred_add v.W (n / v.W) hB
    obtain ⟨s_blocks, e2, c2⟩ := vk_last_spec hv s_main _ c1 (by omega) (by omega)
    rw [hsplit] at c2
    obtain ⟨s_end, e3, c3⟩ := pixel_loop_spec src dst (n % v.W) (n / v.W * v.W) s_blocks _ c2
      (by omega) (by omega)
    refine ⟨s_blocks, s_end, Or.inl ⟨hB, s_main, e1, e2⟩, c2.1, c2.2.1, e3,
      by rw [c3.1, hmod], by rw [c3.2.1, hmod], ?_⟩
    have hBlt : n / v.W < 2 ^ 64 := Nat.lt_of_le_of_lt (Nat.div_le_self n v.W) hn
    rw [vk_kernel_eq hv, if_pos hB, size_t_sub_one _ hB hBlt, Nat.sub_zero, e1, and_then_some,
      e2, and_then_some, hrem, e3, and_then_some]
  · have hB0 : n / v.W = 0 := Nat.eq_zero_of_not_pos hB
    have c2 : CursorAt src dst ⟨0, 0, dst⟩ (v.W * (n / v.W)) 0 := by
      rw [hB0, Nat.mul_zero]
      exact CursorAt.start src dst
    obtain ⟨s_end, e3, c3⟩ := pixel_loop_spec src dst (n % v.W) (n / v.W * v.W) ⟨0, 0, dst⟩ _
      c2 (by omega) (by omega)
    refine ⟨⟨0, 0, dst⟩, s_end, Or.inr ⟨hB0, rfl⟩, c2.1, c2.2.1, e3,
      by rw [c3.1, hmod], by rw [c3.2.1, hmod], ?_⟩
    rw [vk_kernel_eq hv, if_neg hB, and_then_some, hrem, e3, and_then_some]

/-- Witness for C17: the width-8 kernel on 25 pixels (three blocks, remainder 1). -/
theorem C17_vector_phase_structure_witness :
    vector_kernel_8 ∈ vector_kernels ∧ 25 < 2 ^ 64 ∧
    ((List.range 100).map UInt8.ofNat).length = 4 * 25 ∧
    3 * 25 ≤ (List.replicate 75 (170 : UInt8)).length ∧
    ∃ s_blocks s_end : Cursor,
      ((0 < 25 / vector_kernel_8.W ∧ ∃ s_main,
          for_loop (fun _ s => vector_kernel_8.main_block ((List.range 100).map UInt8.ofNat) s) (25 / vector_kernel_8.W - 1) 0 ⟨0, 0, (List.replicate 75 (170 : UInt8))⟩ = some s_main ∧
          vector_kernel_8.last_block ((List.range 100).map UInt8.ofNat) s_main = some s_blocks) ∨
        (25 / vector_kernel_8.W = 0 ∧ s_blocks = ⟨0, 0, (List.replicate 75 (170 : UInt8))⟩)) ∧
      s_blocks.rgba = 4 * (vector_kernel_8.W * (25 / vector_kernel_8.W)) ∧ s_blocks.rgb = 3 * (vector_kernel_8.W * (25 / vector_kernel_8.W)) ∧
      for_loop (fun _ s => copy_pixel ((List.range 100).map UInt8.ofNat) s) (25 % vector_kernel_8.W) (25 / vector_kernel_8.W * vector_kernel_8.W) s_blocks = some s_end ∧
      s_end.rgba = 4 * 25 ∧ s_end.rgb = 3 * 25 ∧
      vector_kernel_8.kernel ((List.range 100).map UInt8.ofNat) (List.replicate 75 (170 : UInt8)) 25 = some s_end.rgb_mem :=
  ⟨List.mem_cons_self _ _, by decide, by simp, by simp only [List.length_replicate]; decide,
    C17_vector_phase_structure vector_kernel_8 (List.mem_cons_self _ _) 25 (by decide)
      ((List.range 100).map UInt8.ofNat) (List.replicate 75 (170 : UInt8)) (by simp)
      (by simp only [List.length_replicate]; decide)⟩

/-- C18: footprint of the precise last block. For each width `W` and every `n` with
`B = n / W >= 1`, the last full block, run after the `B - 1` main-loop iterations,
changes no destination byte below `3W(B-1)` and none at or after `3WB`, and leaves in
`[3W(B-1), 3WB)` the RGB bytes of its `W` pixels; and it overwrites every byte of that
range: started on any other destination contents it leaves the same bytes there and
everything else untouched. -/
theorem C18_last_block_footprint (v : VectorKernel) (hv : v ∈ vector_kernels) (n : Nat)
    (src dst : Buf) (hsrc : src.length = 4 * n) (hdst : 3 * n ≤ dst.length)
    (hB : 1 ≤ n / v.W) :
    ∃ s_main s_last : Cursor,
      for_loop (fun _ s => v.main_block src s) (n / v.W - 1) 0 ⟨0, 0, dst⟩ = some s_main ∧
      v.last_block src s_main = some s_last ∧
      s_main.rgb = 3 * (v.W * (n / v.W - 1)) ∧
      s_last.rgb_mem.length = s_main.rgb_mem.length ∧
      (∀ j, j < 3 * (v.W * (n / v.W - 1)) → s_last.rgb_mem[j]? = s_main.rgb_mem[j]?) ∧
      (∀ j, 3 * (v.W * (n / v.W)) ≤ j → s_last.rgb_mem[j]? = s_main.rgb_mem[j]?) ∧
      (∀ j, 3 * (v.W * (n / v.W - 1)) ≤ j → j < 3 * (v.W * (n / v.W)) →
        ∃ x, s_last.rgb_mem[j]? = some x ∧ src[4 * (j / 3) + j % 3]? = some x) ∧
      (∀ mem : Buf, mem.length = s_main.rgb_mem.length →
        ∃ s', v.last_block src ⟨s_main.rgba, s_main.rgb, mem⟩ = some s' ∧
          (∀ j, j < 3 * (v.W * (n / v.W - 1)) ∨ 3 * (v.W * (n / v.W)) ≤ j →
            s'.rgb_mem[j]? = mem[j]?) ∧
          (∀ j, 3 * (v.W * (n / v.W - 1)) ≤ j → j < 3 * (v.W * (n / v.W)) →
            s'.rgb_mem[j]? = s_last.rgb_mem[j]?)) := by
  have hW := vk_width hv
  have hdiv : v.W * (n / v.W) ≤ n := Nat.mul_div_le n v.W
  have hsplit := mul_pred_add v.W (n / v.W) hB
  obtain ⟨s_main, e1, c1⟩ := vk_before_block hv src dst n (by omega) hdst (n / v.W - 1)
    (by omega)
  have hlen : s_main.rgb_mem.length = dst.length := c1.2.2.1
  obtain ⟨s_last, e2, -, -, r⟩ := vk_last_effect hv c1.1 c1.2.1
    (show 4 * (v.W * (n / v.W - 1) + v.W) ≤ src.length by omega)
    (show 3 * (v.W * (n / v.W - 1) + v.W) ≤ s_main.rgb_mem.length by omega)
  rw [hsplit] at r
  have hbyte : ∀ j, 3 * (v.W * (n / v.W - 1)) ≤ j → j < 3 * (v.W * (n / v.W)) →
      ∃ x, s_last.rgb_mem[j]? = some x ∧ src[4 * (j / 3) + j % 3]? = some x := by
    intro j h1 h2
    have hlt : 4 * (j / 3) + j % 3 < src.length := by omega
    exact ⟨src[4 * (j / 3) + j % 3], by rw [r.2.2.1 j h1 h2]; exact List.getElem?_eq_getElem hlt,
      List.getElem?_eq_getElem hlt⟩
  refine ⟨s_main, s_last, e1, e2, c1.2.1, r.1, r.2.1, r.2.2.2, hbyte, ?_⟩
  intro mem hmem
  obtain ⟨s', e', -, -, r'⟩ := vk_last_effect hv
    (s := ⟨s_main.rgba, s_main.rgb, mem⟩) c1.1 c1.2.1
    (show 4 * (v.W * (n / v.W - 1) + v.W) ≤ src.length by omega)
    (show 3 * (v.W * (n / v.W - 1) + v.W) ≤ mem.length by omega)
  rw [hsplit] at r'
  refine ⟨s', e', ?_, ?_⟩
  · intro j hj
    rcases hj with hj | hj
    · exact r'.2.1 j hj
    · exact r'.2.2.2 j hj
  · intro j h1 h2
    rw [r'.2.2.1 j h1 h2, r.2.2.1 j h1 h2]

/-- Witness for C18: the width-8 kernel on 25 pixels; the last block is the third. -/
theorem C18_last_block_footprint_witness :
    vector_kernel_8 ∈ vector_kernels ∧
    ((List.range 100).map UInt8.ofNat).length = 4 * 25 ∧
    3 * 25 ≤ (List.replicate 75 (170 : UInt8)).length ∧
    1 ≤ 25 / vector_kernel_8.W ∧
    ∃ s_main s_last : Cursor,
      for_loop (fun _ s => vector_kernel_8.main_block ((List.range 100).map UInt8.ofNat) s) (25 / vector_kernel_8.W - 1) 0 ⟨0, 0, (List.replicate 75 (170 : UInt8))⟩ = some s_main ∧
      vector_kernel_8.last_block ((List.range 100).map UInt8.ofNat) s_main = some s_last ∧
      s_main.rgb = 3 * (vector_kernel_8.W * (25 / vector_kernel_8.W - 1)) ∧
      s_last.rgb_mem.length = s_main.rgb_mem.length ∧
      (∀ j, j < 3 * (vector_kernel_8.W * (25 / vector_kernel_8.W - 1)) → s_last.rgb_mem[j]? = s_main.rgb_mem[j]?) ∧
      (∀ j, 3 * (vector_kernel_8.W * (25 / vector_kernel_8.W)) ≤ j → s_last.rgb_mem[j]? = s_main.rgb_mem[j]?) ∧
      (∀ j, 3 * (vector_kernel_8.W * (25 / vector_kernel_8.W - 1)) ≤ j → j < 3 * (vector_kernel_8.W * (25 / vector_kernel_8.W)) →
        ∃ x, s_last.rgb_mem[j]? = some x ∧ ((List.range 100).map UInt8.ofNat)[4 * (j / 3) + j % 3]? = some x) ∧
      (∀ mem : Buf, mem.length = s_main.rgb_mem.length →
        ∃ s', vector_kernel_8.last_block ((List.range 100).map UInt8.ofNat) ⟨s_main.rgba, s_main.rgb, mem⟩ = some s' ∧
          (∀ j, j < 3 * (vector_kernel_8.W * (25 / vector_kernel_8.W - 1)) ∨ 3 * (vector_kernel_8.W * (25 / vector_kernel_8.W)) ≤ j →
            s'.rgb_mem[j]? = mem[j]?) ∧
          (∀ j, 3 * (vector_kernel_8.W * (25 / vector_kernel_8.W - 1)) ≤ j → j < 3 * (vector_kernel_8.W * (25 / vector_kernel_8.W)) →
            s'.rgb_mem[j]? = s_last.rgb_mem[j]?)) :=
  ⟨List.mem_cons_self _ _, by simp, by simp only [List.length_replicate]; decide, by decide,
    C18_last_block_footprint vector_kernel_8 (List.mem_cons_self _ _) 25
      ((List.range 100).map UInt8.ofNat) (List.replicate 75 (170 : UInt8)) (by simp)
      (by simp only [List.length_replicate]; decide) (by decide)⟩

/-- C19: footprint of an overshooting block. For each width `W`, every `n` with
`B = n / W` and every block index `b < B - 1`, main-loop iteration `b` changes no
destination byte outside `[3Wb, 3Wb + 3W + 4)` (28, 52, 100 or 196 bytes), leaves the
`3W` RGB bytes of the block followed by 4 zero bytes there, and overwrites every byte
of that range whatever the destination held; the range lies inside `[0, 3WB)`. -/
theorem C19_overshooting_block_footprint (v : VectorKernel) (hv : v ∈ vector_kernels) (n : Nat)
    (src dst : Buf) (hsrc : src.length = 4 * n) (hdst : 3 * n ≤ dst.length)
    (b : Nat) (hb : b + 1 < n / v.W) :
    ∃ s_b s_next : Cursor,
      for_loop (fun _ s => v.main_block src s) b 0 ⟨0, 0, dst⟩ = some s_b ∧
      v.main_block src s_b = some s_next ∧
      s_b.rgb = 3 * (v.W * b) ∧
      s_next.rgb_mem.length = s_b.rgb_mem.length ∧
      (∀ j, j < 3 * (v.W * b) ∨ 3 * (v.W * b) + (3 * v.W + 4) ≤ j →
        s_next.rgb_mem[j]? = s_b.rgb_mem[j]?) ∧
      (∀ j, 3 * (v.W * b) ≤ j → j < 3 * (v.W * b) + 3 * v.W →
        ∃ x, s_next.rgb_mem[j]? = some x ∧ src[4 * (j / 3) + j % 3]? = some x) ∧
      (∀ j, 3 * (v.W * b) + 3 * v.W ≤ j → j < 3 * (v.W * b) + (3 * v.W + 4) →
        s_next.rgb_mem[j]? = some 0) ∧
      3 * (v.W * b) + (3 * v.W + 4) ≤ 3 * (v.W * (n / v.W)) ∧
      3 * v.W + 4 ∈ [28, 52, 100, 196] ∧
      (∀ mem : Buf, mem.length = s_b.rgb_mem.length →
        ∃ s', v.main_block src ⟨s_b.rgba, s_b.rgb, mem⟩ = some s' ∧
          (∀ j, j < 3 * (v.W * b) ∨ 3 * (v.W * b) + (3 * v.W + 4) ≤ j →
            s'.rgb_mem[j]? = mem[j]?) ∧
          (∀ j, 3 * (v.W * b) ≤ j → j < 3 * (v.W * b) + (3 * v.W + 4) →
            s'.rgb_mem[j]? = s_next.rgb_mem[j]?)) := by
  have hW := vk_width hv
  have hdiv : v.W * (n / v.W) ≤ n := Nat.mul_div_le n v.W
  have hb1 := vk_blocks_bounds (v := v) n (b + 1) (by omega)
  have hsucc : v.W * (b + 1) = v.W * b + v.W := Nat.mul_succ _ _
  have hle : v.W * (b + 2) ≤ v.W * (n / v.W) := Nat.mul_le_mul_left _ (by omega)
  have hsucc2 : v.W * (b + 2) = v.W * b + v.W + v.W := by
    rw [show b + 2 = (b + 1) + 1 from rfl, Nat.mul_succ, hsucc]
  obtain ⟨s_b, e1, c1⟩ := vk_before_block hv src dst n (by omega) hdst b (by omega)
  have hlen : s_b.rgb_mem.length = dst.length := c1.2.2.1
  obtain ⟨s_next, e2, -, -, r, z⟩ := vk_main_effect hv c1.1 c1.2.1
    (show 4 * (v.W * b + v.W) ≤ src.length by omega)
    (show 3 * (v.W * b + v.W) + 4 ≤ s_b.rgb_mem.length by omega)
  have hsize : 3 * v.W + 4 ∈ [28, 52, 100, 196] := by
    have hv' := hv
    simp only [vector_kernels, List.mem_cons, List.mem_singleton, List.not_mem_nil,
      or_false] at hv'
    rcases hv' with e | e | e | e <;> subst e <;> decide
  refine ⟨s_b, s_next, e1, e2, c1.2.1, r.1, ?_, ?_, ?_, by omega, hsize, ?_⟩
  · intro j hj
    rcases hj with hj | hj
    · exact r.2.1 j hj
    · exact r.2.2.2 j (by omega)
  · intro j h1 h2
    have hlt : 4 * (j / 3) + j % 3 < src.length := by omega
    exact ⟨src[4 * (j / 3) + j % 3],
      by rw [r.2.2.1 j h1 (by omega)]; exact List.getElem?_eq_getElem hlt,
      List.getElem?_eq_getElem hlt⟩
  · intro j h1 h2
    exact z j (by omega) (by omega)
  · intro mem hmem
    obtain ⟨s', e', -, -, r', z'⟩ := vk_main_effect hv
      (s := ⟨s_b.rgba, s_b.rgb, mem⟩) c1.1 c1.2.1
      (show 4 * (v.W * b + v.W) ≤ src.length by omega)
      (show 3 * (v.W * b + v.W) + 4 ≤ mem.length by omega)
    refine ⟨s', e', ?_, ?_⟩
    · intro j hj
      rcases hj with hj | hj
      · exact r'.2.1 j hj
      · exact r'.2.2.2 j (by omega)
    · intro j h1 h2
      by_cases hj : j < 3 * (v.W * b + v.W)
      · rw [r'.2.2.1 j h1 hj, r.2.2.1 j h1 hj]
      · rw [z' j (by omega) (by omega), z j (by omega) (by omega)]

/-- Witness for C19: the width-8 kernel on 25 pixels, block 0. -/
theorem C19_overshooting_block_footprint_witness :
    vector_kernel_8 ∈ vector_kernels ∧
    ((List.range 100).map UInt8.ofNat).length = 4 * 25 ∧
    3 * 25 ≤ (List.replicate 75 (170 : UInt8)).length ∧
    0 + 1 < 25 / vector_kernel_8.W ∧
    ∃ s_b s_next : Cursor,
      for_loop (fun _ s => vector_kernel_8.main_block ((List.range 100).map UInt8.ofNat) s) 0 0 ⟨0, 0, (List.replicate 75 (170 : UInt8))⟩ = some s_b ∧
      vector_kernel_8.main_block ((List.range 100).map UInt8.ofNat) s_b = some s_next ∧
      s_b.rgb = 3 * (vector_kernel_8.W * 0) ∧
      s_next.rgb_mem.length = s_b.rgb_mem.length ∧
      (∀ j, j < 3 * (vector_kernel_8.W * 0) ∨ 3 * (vector_kernel_8.W * 0) + (3 * vector_kernel_8.W + 4) ≤ j →
        s_next.rgb_mem[j]? = s_b.rgb_mem[j]?) ∧
      (∀ j, 3 * (vector_kernel_8.W * 0) ≤ j → j < 3 * (vector_kernel_8.W * 0) + 3 * vector_kernel_8.W →
        ∃ x, s_next.rgb_mem[j]? = some x ∧ ((List.range 100).map UInt8.ofNat)[4 * (j / 3) + j % 3]? = some x) ∧
      (∀ j, 3 * (vector_kernel_8.W * 0) + 3 * vector_kernel_8.W ≤ j → j < 3 * (vector_kernel_8.W * 0) + (3 * vector_kernel_8.W + 4) →
        s_next.rgb_mem[j]? = some 0) ∧
      3 * (vector_kernel_8.W * 0) + (3 * vector_kernel_8.W + 4) ≤ 3 * (vector_kernel_8.W * (25 / vector_kernel_8.W)) ∧
      3 * vector_kernel_8.W + 4 ∈ [28, 52, 100, 196] ∧
      (∀ mem : Buf, mem.length = s_b.rgb_mem.length →
        ∃ s', vector_kernel_8.main_block ((List.range 100).map UInt8.ofNat) ⟨s_b.rgba, s_b.rgb, mem⟩ = some s' ∧
          (∀ j, j < 3 * (vector_kernel_8.W * 0) ∨ 3 * (vector_kernel_8.W * 0) + (3 * vector_kernel_8.W + 4) ≤ j →
            s'.rgb_mem[j]? = mem[j]?) ∧
          (∀ j, 3 * (vector_kernel_8.W * 0) ≤ j → j < 3 * (vector_kernel_8.W * 0) + (3 * vector_kernel_8.W + 4) →
            s'.rgb_mem[j]? = s_next.rgb_mem[j]?)) :=
  ⟨List.mem_cons_self _ _, by simp, by simp only [List.length_replicate]; decide, by decide,
    C19_overshooting_block_footprint vector_kernel_8 (List.mem_cons_self _ _) 25
      ((List.range 100).map UInt8.ofNat) (List.replicate 75 (170 : UInt8)) (by simp)
      (by simp only [List.length_replicate]; decide) 0 (by decide)⟩

/-- C20: overshoot bytes are always repaired. For each width `W`, every `n` and every
block `b` that is not the last full block, the 4 bytes just past the block region hold
the zero overshoot bytes once iteration `b` is done, the following block (a main-loop
iteration, or the last block) stores the correct RGB bytes over them, and they hold
those on return; on return every byte below `3n` is a converted byte and every byte
from `3n` on is untouched, so no byte holds an overshoot value. -/
theorem C20_overshoot_repaired (v : VectorKernel) (hv : v ∈ vector_kernels) (n : Nat)
    (hn : n < 2 ^ 64) (src dst : Buf) (hsrc : src.length = 4 * n) (hdst : 3 * n ≤ dst.length)
    (b : Nat) (hb : b + 1 < n / v.W) :
    ∃ (s1 s2 : Cursor) (out : Buf),
      for_loop (fun _ s => v.main_block src s) (b + 1) 0 ⟨0, 0, dst⟩ = some s1 ∧
      (if b + 2 < n / v.W then v.main_block src s1 else v.last_block src s1) = some s2 ∧
      v.kernel src dst n = some out ∧
      (∀ j, 3 * (v.W * (b + 1)) ≤ j → j < 3 * (v.W * (b + 1)) + 4 →
        s1.rgb_mem[j]? = some 0 ∧
        ∃ x, src[4 * (j / 3) + j % 3]? = some x ∧ s2.rgb_mem[j]? = some x ∧ out[j]? = some x) ∧
      (∀ j, j < 3 * n → out[j]? = src[4 * (j / 3) + j % 3]?) ∧
      (∀ j, 3 * n ≤ j → out[j]? = dst[j]?) := by
  have hW := vk_width hv
  have hdiv : v.W * (n / v.W) ≤ n := Nat.mul_div_le n v.W
  have hb1 := vk_blocks_bounds (v := v) n (b + 1) (by omega)
  have hsucc : v.W * (b + 1) = v.W * b + v.W := Nat.mul_succ _ _
  obtain ⟨s_b, e0, c0⟩ := vk_before_block hv src dst n (by omega) hdst b (by omega)
  obtain ⟨s1, e1, c1⟩ := vk_before_block hv src dst n (by omega) hdst (b + 1) (by omega)
  have hlen : s_b.rgb_mem.length = dst.length := c0.2.2.1
  obtain ⟨s1', e1', -, -, -, z⟩ := vk_main_effect hv c0.1 c0.2.1
    (show 4 * (v.W * b + v.W) ≤ src.length by omega)
    (show 3 * (v.W * b + v.W) + 4 ≤ s_b.rgb_mem.length by omega)
  have hs1 : s1' = s1 := by
    have h := for_loop_succ_last (v.main_block src) b 0 ⟨0, 0, dst⟩
    rw [e1, e0, Option.some_bind, e1'] at h
    injection h with h
    exact h.symm
  subst hs1
  obtain ⟨out, eo, co⟩ := vk_kernel_spec hv src dst n hn (by omega) hdst
  have hnext : ∃ s2 slack, (if b + 2 < n / v.W then v.main_block src s1'
      else v.last_block src s1') = some s2 ∧ CursorAt src dst s2 (v.W * (b + 1) + v.W) slack := by
    by_cases h2 : b + 2 < n / v.W
    · have hb2 := vk_blocks_bounds (v := v) n (b + 2) (by omega)
      have hsucc2 : v.W * (b + 2) = v.W * (b + 1) + v.W := Nat.mul_succ _ _
      obtain ⟨s2, e2, c2⟩ := vk_main_spec hv s1' _ c1 (by omega) (by omega)
      exact ⟨s2, 4, by rw [if_pos h2]; exact e2, c2⟩
    · obtain ⟨s2, e2, c2⟩ := vk_last_spec hv s1' _ c1 (by omega) (by omega)
      exact ⟨s2, 0, by rw [if_neg h2]; exact e2, c2⟩
  obtain ⟨s2, slack, e2, c2⟩ := hnext
  refine ⟨s1', s2, out, e1, e2, eo, ?_, co.2.1, co.2.2⟩
  intro j h1 h2
  have hlt : 4 * (j / 3) + j % 3 < src.length := by omega
  refine ⟨z j (by omega) (by omega), src[4 * (j / 3) + j % 3], List.getElem?_eq_getElem hlt, ?_, ?_⟩
  · rw [c2.2.2.2.1 j (by omega)]
    exact List.getElem?_eq_getElem hlt
  · rw [co.2.1 j (by omega)]
    exact List.getElem?_eq_getElem hlt

/-- Witness for C20: the width-8 kernel on 25 pixels, block 0, repaired by block 1. -/
theorem C20_overshoot_repaired_witness :
    vector_kernel_8 ∈ vector_kernels ∧ 25 < 2 ^ 64 ∧
    ((List.range 100).map UInt8.ofNat).length = 4 * 25 ∧
    3 * 25 ≤ (List.replicate 75 (170 : UInt8)).length ∧
    0 + 1 < 25 / vector_kernel_8.W ∧
    ∃ (s1 s2 : Cursor) (out : Buf),
      for_loop (fun _ s => vector_kernel_8.main_block ((List.range 100).map UInt8.ofNat) s) (0 + 1) 0 ⟨0, 0, (List.replicate 75 (170 : UInt8))⟩ = some s1 ∧
      (if 0 + 2 < 25 / vector_kernel_8.W then vector_kernel_8.main_block ((List.range 100).map UInt8.ofNat) s1 else vector_kernel_8.last_block ((List.range 100).map UInt8.ofNat) s1) = some s2 ∧
      vector_kernel_8.kernel ((List.range 100).map UInt8.ofNat) (List.replicate 75 (170 : UInt8)) 25 = some out ∧
      (∀ j, 3 * (vector_kernel_8.W * (0 + 1)) ≤ j → j < 3 * (vector_kernel_8.W * (0 + 1)) + 4 →
        s1.rgb_mem[j]? = some 0 ∧
        ∃ x, ((List.range 100).map UInt8.ofNat)[4 * (j / 3) + j % 3]? = some x ∧ s2.rgb_mem[j]? = some x ∧ out[j]? = some x) ∧
      (∀ j, j < 3 * 25 → out[j]? = ((List.range 100).map UInt8.ofNat)[4 * (j / 3) + j % 3]?) ∧
      (∀ j, 3 * 25 ≤ j → out[j]? = (List.replicate 75 (170 : UInt8))[j]?) :=
  ⟨List.mem_cons_self _ _, by decide, by simp, by simp only [List.length_replicate]; decide, by decide,
    C20_overshoot_repaired vector_kernel_8 (List.mem_cons_self _ _) 25 (by decide)
      ((List.range 100).map UInt8.ofNat) (List.replicate 75 (170 : UInt8)) (by simp)
      (by simp only [List.length_replicate]; decide) 0 (by decide)⟩

/-! ## Guard, mask and loads of the vector kernels -/

theorem vk_kernel_eq_run {v : VectorKernel} (hv : v ∈ vector_kernels) (src dst : Buf) (n : Nat) :
    v.kernel src dst n =
      vector_kernel_run v.W (size_t_sub (n / v.W) 1 - 0) v.main_block v.last_block src dst n :=
  vk_kernel_eq hv src dst n

theorem vector_kernel_run_small (W trips : Nat) (main last : Buf → Cursor → Option Cursor)
    (src dst : Buf) (n : Nat) (hn : n < W) :
    vector_kernel_run W trips main last src dst n = copy_rgba_to_rgb__raw_ptr src dst n := by
  have h0 : n / W = 0 := Nat.div_eq_of_lt hn
  simp only [vector_kernel_run, copy_rgba_to_rgb__raw_ptr, h0, Nat.lt_irrefl, gt_iff_lt,
    if_false, and_then_some, Nat.zero_mul, Nat.sub_zero]

/-- C21: fewer pixels than one block. For each width `W` in 8, 16, 32, 64, every
`n < W`, every source and every initial destination, the vector kernel has the result
of `copy_rgba_to_rgb__raw_ptr` on the same inputs; and it runs neither its main-loop
body nor its last block: whatever is put in their place, and whatever trip count, the
kernel's control structure gives that same result. -/
theorem C21_fewer_pixels_than_a_block (v : VectorKernel) (hv : v ∈ vector_kernels) (n : Nat)
    (hn : n < v.W) (src dst : Buf) :
    v.kernel src dst n = copy_rgba_to_rgb__raw_ptr src dst n ∧
    ∀ (trips : Nat) (main last : Buf → Cursor → Option Cursor),
      vector_kernel_run v.W trips main last src dst n = v.kernel src dst n := by
  have e := vector_kernel_run_small v.W (size_t_sub (n / v.W) 1 - 0) v.main_block v.last_block
    src dst n hn
  rw [← vk_kernel_eq_run hv] at e
  exact ⟨e, fun trips main last => by rw [e, vector_kernel_run_small _ _ _ _ _ _ _ hn]⟩

/-- Witness for C21: the width-64 kernel on 63 pixels. -/
theorem C21_fewer_pixels_than_a_block_witness :
    vector_kernel_64 ∈ vector_kernels ∧ 63 < vector_kernel_64.W ∧
    vector_kernel_64.kernel ((List.range 252).map UInt8.ofNat) (List.replicate 189 (0 : UInt8)) 63
      = copy_rgba_to_rgb__raw_ptr ((List.range 252).map UInt8.ofNat)
        (List.replicate 189 (0 : UInt8)) 63 ∧
    ∀ (trips : Nat) (main last : Buf → Cursor → Option Cursor),
      vector_kernel_run vector_kernel_64.W trips main last ((List.range 252).map UInt8.ofNat)
          (List.replicate 189 (0 : UInt8)) 63
        = vector_kernel_64.kernel ((List.range 252).map UInt8.ofNat)
          (List.replicate 189 (0 : UInt8)) 63 :=
  ⟨by simp [vector_kernels], by decide,
    C21_fewer_pixels_than_a_block vector_kernel_64 (by simp [vector_kernels]) 63 (by decide)
      ((List.range 252).map UInt8.ofNat) (List.replicate 189 (0 : UInt8))⟩

theorem shuffle_byte (v : M256) (l : Fin 2) (j : Fin 16) :
    _mm256_shuffle_epi8 v copy_rgba_to_rgb__avx2__8pixels.shuffle_mask
        ⟨16 * l.val + j.val, by omega⟩
      = if h : j.val < 12 then v ⟨16 * l.val + 4 * (j.val / 3) + j.val % 3, by omega⟩ else 0 := by
  fin_cases l <;> fin_cases j <;> rfl

/-- C22: shuffle mask semantics. For every 32-byte register `v`,
`_mm256_shuffle_epi8(v, shuffle_mask)` has, in each 16-byte lane `l`, output byte `j`
equal to input byte `4 * (j / 3) + j % 3` of the same lane for `j = 0..11` and output
bytes `12..15` equal to zero; no output byte is an alpha byte: the result is the same
for any register that differs from `v` only at offsets congruent to 3 modulo 4. -/
theorem C22_shuffle_mask_semantics (v : M256) :
    (∀ (l : Fin 2) (j : Fin 16),
      _mm256_shuffle_epi8 v copy_rgba_to_rgb__avx2__8pixels.shuffle_mask
          ⟨16 * l.val + j.val, by omega⟩
        = if h : j.val < 12 then v ⟨16 * l.val + 4 * (j.val / 3) + j.val % 3, by omega⟩
          else 0) ∧
    (∀ v' : M256, (∀ i : Fin 32, i.val % 4 ≠ 3 → v' i = v i) →
      _mm256_shuffle_epi8 v' copy_rgba_to_rgb__avx2__8pixels.shuffle_mask
        = _mm256_shuffle_epi8 v copy_rgba_to_rgb__avx2__8pixels.shuffle_mask) := by
  refine ⟨shuffle_byte v, fun v' hagree => ?_⟩
  funext i
  have hi : i = ⟨16 * (⟨i.val / 16, by omega⟩ : Fin 2).val + (⟨i.val % 16, by omega⟩ : Fin 16).val,
      by have := i.isLt; simp only; omega⟩ := by
    apply Fin.ext
    simp only
    omega
  rw [hi, shuffle_byte v', shuffle_byte v]
  by_cases hj : i.val % 16 < 12
  · simp only [hj, dif_pos]
    exact hagree _ (by simp only; omega)
  · simp only [hj, dif_neg, not_false_eq_true]

theorem vk_width_mul {v : VectorKernel} (hv : v ∈ vector_kernels) : v.W = 8 * (v.W / 8) := by
  simp only [vector_kernels, List.mem_cons, List.mem_singleton, List.not_mem_nil, or_false] at hv
  rcases hv with e | e | e | e <;> subst e <;> decide

theorem ofFn_extract (a : M256) {h j : Nat} (hh : h < 2) (hj : j < 16) :
    (List.ofFn (_mm256_extracti128_si256 a h))[j]? = (List.ofFn a)[16 * h + j]? := by
  have h1 : j < (List.ofFn (_mm256_extracti128_si256 a h)).length := by
    rw [List.length_ofFn]; exact hj
  have h2 : 16 * h + j < (List.ofFn a).length := by
    rw [List.length_ofFn]; omega
  rw [List.getElem?_eq_getElem h1, List.getElem?_eq_getElem h2, List.getElem_ofFn,
    List.getElem_ofFn]
  simp only [_mm256_extracti128_si256]
  congr 2
  apply Fin.ext
  simp only
  omega

theorem region_register_bytes {src mem out : Buf} {p W a b r : Nat} {reg : M256}
    (hreg : _mm256_loadu_si256 src (4 * p + 32 * r) = some reg)
    (hr : 24 * r + 24 ≤ 3 * W) (hreg_out : Region src mem out (3 * p) (3 * (p + W)) b)
    (ha : a = 3 * p + 24 * r) {h j : Nat} (hh : h < 2) (hj : j < 12) :
    out[a + 12 * h + j]?
      = (List.ofFn (_mm256_shuffle_epi8 reg copy_rgba_to_rgb__avx2__8pixels.shuffle_mask))[
          16 * h + j]? := by
  subst ha
  rw [hreg_out.2.2.1 _ (by omega) (by omega), ← ofFn_extract _ hh (by omega),
    lane_getElem? hreg hh hj]
  congr 1
  omega

/-- C23: one shuffle mask for all kernels. The `shuffle_mask` constants of the four
vector kernels are the same 32-byte value; and in each kernel, in the last block and in
the main-loop body alike, every register `r` of the block (loaded at source cursor
`+ 32 r`) is stored shuffled by that one mask: the 12 bytes stored for lane `h` at
destination cursor `+ 24 r + 12 h` are bytes `16 h .. 16 h + 11` of
`_mm256_shuffle_epi8(register, shuffle_mask)`. The last block needs the `3W` destination
bytes of the block only; the main-loop body needs the 4 bytes behind them too, which it
overshoots into. -/
theorem C23_one_shuffle_mask (v : VectorKernel) (hv : v ∈ vector_kernels) (src : Buf)
    (s : Cursor) (p : Nat) (hra : s.rgba = 4 * p) (hrb : s.rgb = 3 * p)
    (hsrc : 4 * (p + v.W) ≤ src.length) (hdst : 3 * (p + v.W) ≤ s.rgb_mem.length) :
    (copy_rgba_to_rgb__avx2__16pixels.shuffle_mask = copy_rgba_to_rgb__avx2__8pixels.shuffle_mask ∧
      copy_rgba_to_rgb__avx2__32pixels.shuffle_mask
        = copy_rgba_to_rgb__avx2__8pixels.shuffle_mask ∧
      copy_rgba_to_rgb__avx2__64pixels.shuffle_mask
        = copy_rgba_to_rgb__avx2__8pixels.shuffle_mask) ∧
    (∃ s_last, v.last_block src s = some s_last ∧
      ∀ r, r < v.W / 8 → ∃ reg, _mm256_loadu_si256 src (s.rgba + 32 * r) = some reg ∧
        ∀ h j, h < 2 → j < 12 →
          s_last.rgb_mem[s.rgb + 24 * r + 12 * h + j]?
            = (List.ofFn (_mm256_shuffle_epi8 reg
                copy_rgba_to_rgb__avx2__8pixels.shuffle_mask))[16 * h + j]?) ∧
    (3 * (p + v.W) + 4 ≤ s.rgb_mem.length →
      ∃ s_main, v.main_block src s = some s_main ∧
        ∀ r, r < v.W / 8 → ∃ reg, _mm256_loadu_si256 src (s.rgba + 32 * r) = some reg ∧
          ∀ h j, h < 2 → j < 12 →
            s_main.rgb_mem[s.rgb + 24 * r + 12 * h + j]?
              = (List.ofFn (_mm256_shuffle_epi8 reg
                  copy_rgba_to_rgb__avx2__8pixels.shuffle_mask))[16 * h + j]?) := by
  have hW8 := vk_width_mul hv
  refine ⟨⟨shuffle_mask_16_eq, shuffle_mask_32_eq, shuffle_mask_64_eq⟩, ?_, fun hdst4 => ?_⟩
  · obtain ⟨s_last, e2, -, -, r2⟩ := vk_last_effect hv hra hrb hsrc hdst
    refine ⟨s_last, e2, fun r hr => ?_⟩
    obtain ⟨reg, hreg⟩ := loadu_some src (s.rgba + 32 * r) (by omega)
    refine ⟨reg, hreg, fun h j hh hj => ?_⟩
    rw [hra] at hreg
    exact region_register_bytes hreg (by omega) r2 (by omega) hh hj
  · obtain ⟨s_main, e1, -, -, r1, -⟩ := vk_main_effect hv hra hrb hsrc hdst4
    refine ⟨s_main, e1, fun r hr => ?_⟩
    obtain ⟨reg, hreg⟩ := loadu_some src (s.rgba + 32 * r) (by omega)
    refine ⟨reg, hreg, fun h j hh hj => ?_⟩
    rw [hra] at hreg
    exact region_register_bytes hreg (by omega) r1 (by omega) hh hj

/-- Witness for C23: the last block of the width-8 kernel on 8 pixels with a destination
of exactly 24 bytes, and the main-loop body of the width-16 kernel at the start of a
destination of 52 bytes. -/
theorem C23_one_shuffle_mask_witness :
    (vector_kernel_8 ∈ vector_kernels ∧
      (⟨0, 0, List.replicate 24 (0 : UInt8)⟩ : Cursor).rgba = 4 * 0 ∧
      (⟨0, 0, List.replicate 24 (0 : UInt8)⟩ : Cursor).rgb = 3 * 0 ∧
      4 * (0 + vector_kernel_8.W) ≤ ((List.range 32).map UInt8.ofNat).length ∧
      3 * (0 + vector_kernel_8.W)
        ≤ (⟨0, 0, List.replicate 24 (0 : UInt8)⟩ : Cursor).rgb_mem.length ∧
      ∃ s_last,
        vector_kernel_8.last_block ((List.range 32).map UInt8.ofNat)
          ⟨0, 0, List.replicate 24 (0 : UInt8)⟩ = some s_last ∧
        ∀ r, r < vector_kernel_8.W / 8 →
          ∃ reg, _mm256_loadu_si256 ((List.range 32).map UInt8.ofNat)
              ((⟨0, 0, List.replicate 24 (0 : UInt8)⟩ : Cursor).rgba + 32 * r) = some reg ∧
            ∀ h j, h < 2 → j < 12 →
              s_last.rgb_mem[(⟨0, 0, List.replicate 24 (0 : UInt8)⟩ : Cursor).rgb
                  + 24 * r + 12 * h + j]?
                = (List.ofFn (_mm256_shuffle_epi8 reg
                    copy_rgba_to_rgb__avx2__8pixels.shuffle_mask))[16 * h + j]?) ∧
    (vector_kernel_16 ∈ vector_kernels ∧
      4 * (0 + vector_kernel_16.W) ≤ ((List.range 64).map UInt8.ofNat).length ∧
      3 * (0 + vector_kernel_16.W) + 4
        ≤ (⟨0, 0, List.replicate 52 (0 : UInt8)⟩ : Cursor).rgb_mem.length ∧
      ∃ s_main,
        vector_kernel_16.main_block ((List.range 64).map UInt8.ofNat)
          ⟨0, 0, List.replicate 52 (0 : UInt8)⟩ = some s_main ∧
        ∀ r, r < vector_kernel_16.W / 8 →
          ∃ reg, _mm256_loadu_si256 ((List.range 64).map UInt8.ofNat)
              ((⟨0, 0, List.replicate 52 (0 : UInt8)⟩ : Cursor).rgba + 32 * r) = some reg ∧
            ∀ h j, h < 2 → j < 12 →
              s_main.rgb_mem[(⟨0, 0, List.replicate 52 (0 : UInt8)⟩ : Cursor).rgb
                  + 24 * r + 12 * h + j]?
                = (List.ofFn (_mm256_shuffle_epi8 reg
                    copy_rgba_to_rgb__avx2__8pixels.shuffle_mask))[16 * h + j]?) :=
  ⟨⟨by simp [vector_kernels], rfl, rfl, by simp [vector_kernel_8],
      by simp only [List.length_replicate]; decide,
      (C23_one_shuffle_mask vector_kernel_8 (by simp [vector_kernels])
        ((List.range 32).map UInt8.ofNat) ⟨0, 0, List.replicate 24 (0 : UInt8)⟩ 0 rfl rfl
        (by simp [vector_kernel_8]) (by simp only [List.length_replicate]; decide)).2.1⟩,
    ⟨by simp [vector_kernels], by simp [vector_kernel_16],
      by simp only [List.length_replicate]; decide,
      (C23_one_shuffle_mask vector_kernel_16 (by simp [vector_kernels])
        ((List.range 64).map UInt8.ofNat) ⟨0, 0, List.replicate 52 (0 : UInt8)⟩ 0 rfl rfl
        (by simp [vector_kernel_16]) (by simp only [List.length_replicate]; decide)).2.2
        (by simp only [List.length_replicate]; decide)⟩⟩

/-- C29: the block-count guard prevents unsigned underflow. On `size_t`, `0 - 1` wraps
to `2^64 - 1`; but each vector kernel evaluates `num_blocks - 1` only under the guard
`num_blocks > 0`, where it is `num_blocks - 1` without wrap: for every `n` the kernel
is its control structure with a main loop of `n / W - 1` iterations (no block at all
when `n / W = 0`), which is fewer than `n / W` whenever there is a block; and it
terminates: on a source of `4n` bytes and a destination of at least `3n` bytes it
returns a buffer. -/
theorem C29_block_count_guard (v : VectorKernel) (hv : v ∈ vector_kernels) (n : Nat)
    (hn : n < 2 ^ 64) (src dst : Buf) :
    size_t_sub 0 1 = 2 ^ 64 - 1 ∧
    (0 < n / v.W → size_t_sub (n / v.W) 1 = n / v.W - 1 ∧ n / v.W - 1 < n / v.W) ∧
    v.kernel src dst n
      = vector_kernel_run v.W (n / v.W - 1) v.main_block v.last_block src dst n ∧
    (src.length = 4 * n → 3 * n ≤ dst.length → ∃ out, v.kernel src dst n = some out) := by
  have hBlt : n / v.W < 2 ^ 64 := Nat.lt_of_le_of_lt (Nat.div_le_self n v.W) hn
  refine ⟨by decide, fun hB => ⟨size_t_sub_one _ hB hBlt, by omega⟩, ?_, fun hsrc hdst => ?_⟩
  · rw [vk_kernel_eq_run hv]
    by_cases hB : 0 < n / v.W
    · rw [size_t_sub_one _ hB hBlt, Nat.sub_zero]
    · have h0 : n / v.W = 0 := Nat.eq_zero_of_not_pos hB
      simp only [vector_kernel_run, h0, Nat.lt_irrefl, gt_iff_lt, if_false]
  · obtain ⟨out, e, -⟩ := vk_kernel_spec hv src dst n hn (by omega) hdst
    exact ⟨out, e⟩

/-- Witness for C29: the width-8 kernel on 7 pixels, where the block count is 0. -/
theorem C29_block_count_guard_witness :
    vector_kernel_8 ∈ vector_kernels ∧ 7 < 2 ^ 64 ∧
    size_t_sub 0 1 = 2 ^ 64 - 1 ∧
    (0 < 7 / vector_kernel_8.W →
      size_t_sub (7 / vector_kernel_8.W) 1 = 7 / vector_kernel_8.W - 1 ∧
        7 / vector_kernel_8.W - 1 < 7 / vector_kernel_8.W) ∧
    vector_kernel_8.kernel ((List.range 28).map UInt8.ofNat) (List.replicate 21 (0 : UInt8)) 7
      = vector_kernel_run vector_kernel_8.W (7 / vector_kernel_8.W - 1)
          vector_kernel_8.main_block vector_kernel_8.last_block
          ((List.range 28).map UInt8.ofNat) (List.replicate 21 (0 : UInt8)) 7 ∧
    (((List.range 28).map UInt8.ofNat).length = 4 * 7 →
      3 * 7 ≤ (List.replicate 21 (0 : UInt8)).length →
      ∃ out, vector_kernel_8.kernel ((List.range 28).map UInt8.ofNat)
        (List.replicate 21 (0 : UInt8)) 7 = some out) :=
  ⟨by simp [vector_kernels], by decide,
    C29_block_count_guard vector_kernel_8 (by simp [vector_kernels]) 7 (by decide)
      ((List.range 28).map UInt8.ofNat) (List.replicate 21 (0 : UInt8))⟩

/-- C30: vector loads stay inside the source. For each width `W`, every `n`, a source
of exactly `4n` bytes and a destination of at least `3n` bytes, the bounds-checked
kernel returns, so every load it issued lay inside the source; in particular each
32-byte load at offset `4Wb + 32j`, for a block `b < n / W` and a register
`j < W / 8`, ends by `4n` and succeeds, and each scalar read of the remainder (pixel
`i` from `W * (n / W)` up to `n`, channel `k < 3`) is below `4n` and succeeds. -/
theorem C30_vector_loads_in_source (v : VectorKernel) (hv : v ∈ vector_kernels) (n : Nat)
    (hn : n < 2 ^ 64) (src dst : Buf) (hsrc : src.length = 4 * n) (hdst : 3 * n ≤ dst.length) :
    (∃ out, v.kernel src dst n = some out) ∧
    (∀ b j, b < n / v.W → j < v.W / 8 →
      4 * (v.W * b) + 32 * j + 32 ≤ 4 * n ∧
      ∃ reg, _mm256_loadu_si256 src (4 * (v.W * b) + 32 * j) = some reg) ∧
    (∀ i k, v.W * (n / v.W) ≤ i → i < n → k < 3 →
      4 * i + k < 4 * n ∧ ∃ x, load src (4 * i + k) = some x) := by
  have hW8 := vk_width_mul hv
  obtain ⟨out, e, -⟩ := vk_kernel_spec hv src dst n hn (by omega) hdst
  refine ⟨⟨out, e⟩, fun b j hb hj => ?_, fun i k _ hi hk => ?_⟩
  · have hb1 := vk_blocks_bounds (v := v) n b (by omega)
    have hle : 4 * (v.W * b) + 32 * j + 32 ≤ 4 * n := by omega
    exact ⟨hle, loadu_some src _ (by omega)⟩
  · exact ⟨by omega, _, load_getD (by omega)⟩

/-- Witness for C30: the width-32 kernel on 70 pixels. -/
theorem C30_vector_loads_in_source_witness :
    vector_kernel_32 ∈ vector_kernels ∧ 70 < 2 ^ 64 ∧
    ((List.range 280).map UInt8.ofNat).length = 4 * 70 ∧
    3 * 70 ≤ (List.replicate 210 (0 : UInt8)).length ∧
    (∃ out, vector_kernel_32.kernel ((List.range 280).map UInt8.ofNat)
      (List.replicate 210 (0 : UInt8)) 70 = some out) ∧
    (∀ b j, b < 70 / vector_kernel_32.W → j < vector_kernel_32.W / 8 →
      4 * (vector_kernel_32.W * b) + 32 * j + 32 ≤ 4 * 70 ∧
      ∃ reg, _mm256_loadu_si256 ((List.range 280).map UInt8.ofNat)
        (4 * (vector_kernel_32.W * b) + 32 * j) = some reg) ∧
    (∀ i k, vector_kernel_32.W * (70 / vector_kernel_32.W) ≤ i → i < 70 → k < 3 →
      4 * i + k < 4 * 70 ∧ ∃ x, load ((List.range 280).map UInt8.ofNat) (4 * i + k) = some x) :=
  ⟨by simp [vector_kernels], by decide, by simp, by simp only [List.length_replicate]; decide,
    C30_vector_loads_in_source vector_kernel_32 (by simp [vector_kernels]) 70 (by decide)
      ((List.range 280).map UInt8.ofNat) (List.replicate 210 (0 : UInt8)) (by simp)
      (by simp only [List.length_replicate]; decide)⟩

/-! ## Partition of the unrolled scalar kernel -/

theorem Region.chain {src mem d1 d2 : Buf} {lo a a' : Nat} (h1 : Region src mem d1 lo a a)
    (h2 : Region src d1 d2 a a' a') (hlo : lo ≤ a) (ha : a ≤ a') :
    Region src mem d2 lo a' a' := by
  refine ⟨by rw [h2.1, h1.1], fun j hj => ?_, fun j hj1 hj2 => ?_, fun j hj => ?_⟩
  · rw [h2.2.1 j (by omega), h1.2.1 j hj]
  · by_cases hja : j < a
    · rw [h2.2.1 j hja, h1.2.2.1 j hj1 hja]
    · exact h2.2.2.1 j (by omega) hj2
  · rw [h2.2.2.2 j hj, h1.2.2.2 j (by omega)]

theorem region_copy_byte {src mem d : Buf} {lo p k : Nat} (hk : k < 3)
    (hc : Region src mem d lo (3 * p + k) (3 * p + k)) (hlo : lo ≤ 3 * p + k)
    (hsrc : 4 * p + k < src.length) (hdst : 3 * p + k < mem.length) :
    ∃ x d', load src (4 * p + k) = some x ∧ store d (3 * p + k) x = some d' ∧
      Region src mem d' lo (3 * p + k + 1) (3 * p + k + 1) := by
  have hx : src[4 * p + k]? = some (src[4 * p + k]) := List.getElem?_eq_getElem hsrc
  refine ⟨src[4 * p + k], write_bytes d (3 * p + k) [src[4 * p + k]], hx, ?_, ?_⟩
  · exact store_bytes_eq _ _ _ (by rw [hc.1]; simpa using hdst)
  · refine Region.store [src[4 * p + k]] 1 hc hlo (by simp) (by simpa using hdst) (by simp) ?_
    intro j hj
    have hj0 : j = 0 := by omega
    subst hj0
    have e : 4 * ((3 * p + k + 0) / 3) + (3 * p + k + 0) % 3 = 4 * p + k := by omega
    rw [e, hx]
    rfl

theorem copy_pixel_effect (src : Buf) {s : Cursor} {p : Nat} (hra : s.rgba = 4 * p)
    (hrb : s.rgb = 3 * p) (hsrc : 4 * (p + 1) ≤ src.length)
    (hdst : 3 * (p + 1) ≤ s.rgb_mem.length) :
    ∃ s', copy_pixel src s = some s' ∧ s'.rgba = 4 * (p + 1) ∧ s'.rgb = 3 * (p + 1) ∧
      Region src s.rgb_mem s'.rgb_mem (3 * p) (3 * (p + 1)) (3 * (p + 1)) := by
  have c := Region.untouched src s.rgb_mem (3 * p)
  obtain ⟨x0, d0, hl0, hs0, c0⟩ := region_copy_byte (k := 0) (by omega) c (by omega) (by omega)
    (by omega)
  obtain ⟨x1, d1, hl1, hs1, c1⟩ := region_copy_byte (k := 1) (by omega) c0 (by omega) (by omega)
    (by omega)
  obtain ⟨x2, d2, hl2, hs2, c2⟩ := region_copy_byte (k := 2) (by omega) c1 (by omega) (by omega)
    (by omega)
  refine ⟨⟨s.rgba + 4, s.rgb + 3, d2⟩, ?_, by simp only [hra]; omega, by simp only [hrb]; omega,
    c2.cast (by omega) (by omega)⟩
  simp only [copy_pixel, hra, hrb, hl0, hs0, hl1, hs1, hl2, hs2, and_then_some]

theorem unrolled_body_effect (src : Buf) {s : Cursor} {p : Nat} (hra : s.rgba = 4 * p)
    (hrb : s.rgb = 3 * p) (hsrc : 4 * (p + 4) ≤ src.length)
    (hdst : 3 * (p + 4) ≤ s.rgb_mem.length) :
    ∃ s', copy_rgba_to_rgb__raw_ptr__4pixels.unrolled_body src s = some s' ∧
      s'.rgba = 4 * (p + 4) ∧ s'.rgb = 3 * (p + 4) ∧
      Region src s.rgb_mem s'.rgb_mem (3 * p) (3 * (p + 4)) (3 * (p + 4)) := by
  obtain ⟨s1, e1, a1, b1, r1⟩ := copy_pixel_effect src hra hrb (by omega) (by omega)
  obtain ⟨s2, e2, a2, b2, r2⟩ := copy_pixel_effect src a1 b1 (by omega) (by rw [r1.1]; omega)
  obtain ⟨s3, e3, a3, b3, r3⟩ := copy_pixel_effect src a2 b2 (by omega) (by rw [r2.1, r1.1]; omega)
  obtain ⟨s4, e4, a4, b4, r4⟩ := copy_pixel_effect src a3 b3 (by omega)
    (by rw [r3.1, r2.1, r1.1]; omega)
  refine ⟨s4, ?_, by rw [a4], by rw [b4], ?_⟩
  · simp only [copy_rgba_to_rgb__raw_ptr__4pixels.unrolled_body, e1, e2, e3, e4, and_then_some]
  · exact (((r1.chain r2 (by omega) (by omega)).chain r3 (by omega) (by omega)).chain r4
      (by omega) (by omega)).cast (by omega) (by omega)

theorem unrolled_body_spec {src dst : Buf} (s : Cursor) (p : Nat) (h : CursorAt src dst s p 0)
    (hsrc : 4 * (p + 4) ≤ src.length) (hdst : 3 * (p + 4) + 0 ≤ dst.length) :
    ∃ s', copy_rgba_to_rgb__raw_ptr__4pixels.unrolled_body src s = some s' ∧
      CursorAt src dst s' (p + 4) 0 :=
  batch_4_spec s p h hsrc hdst

/-- C24: partition of the unrolled kernel. For every `n`, on a source of `4n` bytes and
a destination of at least `3n` bytes, `copy_rgba_to_rgb__raw_ptr__4pixels` runs its
unrolled loop `n / 4` times and then its remainder loop `n % 4` times, and
`4 * (n / 4) + n % 4 = n`. Iteration `k` of the unrolled loop starts with the cursors
at `16k` and `12k`, advances them by 16 and 12, and converts the 4 pixels
`4k .. 4k+3`, changing no destination byte outside `[12k, 12k + 12)`; remainder
iteration `r` converts the one pixel `4 * (n / 4) + r`, changing no byte outside its 3
bytes. So every pixel of `[0, n)` is converted by exactly one iteration. -/
theorem C24_unrolled_partition (n : Nat) (src dst : Buf) (hsrc : src.length = 4 * n)
    (hdst : 3 * n ≤ dst.length) :
    ∃ s_batches s_end : Cursor,
      for_loop (fun _ s => copy_rgba_to_rgb__raw_ptr__4pixels.unrolled_body src s) (n / 4) 0
        ⟨0, 0, dst⟩ = some s_batches ∧
      s_batches.rgba = 16 * (n / 4) ∧ s_batches.rgb = 12 * (n / 4) ∧
      for_loop (fun _ s => copy_pixel src s) (n % 4) (n / 4 * 4) s_batches = some s_end ∧
      s_end.rgba = 4 * n ∧ s_end.rgb = 3 * n ∧
      copy_rgba_to_rgb__raw_ptr__4pixels src dst n = some s_end.rgb_mem ∧
      4 * (n / 4) + n % 4 = n ∧
      (∀ k, k < n / 4 → ∃ s_k s_k' : Cursor,
        for_loop (fun _ s => copy_rgba_to_rgb__raw_ptr__4pixels.unrolled_body src s) k 0
          ⟨0, 0, dst⟩ = some s_k ∧
        copy_rgba_to_rgb__raw_ptr__4pixels.unrolled_body src s_k = some s_k' ∧
        s_k.rgba = 16 * k ∧ s_k.rgb = 12 * k ∧
        s_k'.rgba = s_k.rgba + 16 ∧ s_k'.rgb = s_k.rgb + 12 ∧
        (∀ j, j < 12 * k ∨ 12 * k + 12 ≤ j → s_k'.rgb_mem[j]? = s_k.rgb_mem[j]?) ∧
        (∀ j, 12 * k ≤ j → j < 12 * k + 12 →
          s_k'.rgb_mem[j]? = src[4 * (j / 3) + j % 3]?)) ∧
      (∀ r, r < n % 4 → ∃ s_r s_r' : Cursor,
        for_loop (fun _ s => copy_pixel src s) r (n / 4 * 4) s_batches = some s_r ∧
        copy_pixel src s_r = some s_r' ∧
        s_r.rgba = 4 * (4 * (n / 4) + r) ∧ s_r.rgb = 3 * (4 * (n / 4) + r) ∧
        (∀ j, j < 3 * (4 * (n / 4) + r) ∨ 3 * (4 * (n / 4) + r) + 3 ≤ j →
          s_r'.rgb_mem[j]? = s_r.rgb_mem[j]?) ∧
        (∀ j, 3 * (4 * (n / 4) + r) ≤ j → j < 3 * (4 * (n / 4) + r) + 3 →
          s_r'.rgb_mem[j]? = src[4 * (j / 3) + j % 3]?)) := by
  obtain ⟨s1, e1, h1⟩ := block_loop_spec src dst
    (copy_rgba_to_rgb__raw_ptr__4pixels.unrolled_body src) 4 0 unrolled_body_spec (n / 4) 0
    ⟨0, 0, dst⟩ 0 (CursorAt.start src dst) (by omega) (by omega)
  obtain ⟨s2, e2, h2⟩ := pixel_loop_spec src dst (n % 4) (n / 4 * 4) s1 _ h1
    (by omega) (by omega)
  refine ⟨s1, s2, e1, by rw [h1.1]; omega, by rw [h1.2.1]; omega, e2, by rw [h2.1]; omega,
    by rw [h2.2.1]; omega, ?_, by omega, fun k hk => ?_, fun r hr => ?_⟩
  · have e2' : for_loop (fun _ s => copy_pixel src s) (n - n / 4 * 4) (n / 4 * 4) s1
        = some s2 := by
      have hm : n - n / 4 * 4 = n % 4 := by omega
      rw [hm]; exact e2
    have e1' : for_loop (fun _ s =>
        and_then (copy_pixel src s) fun s =>
        and_then (copy_pixel src s) fun s =>
        and_then (copy_pixel src s) fun s => copy_pixel src s) (n / 4) 0 ⟨0, 0, dst⟩
        = some s1 := e1
    simp only [copy_rgba_to_rgb__raw_ptr__4pixels, Nat.sub_zero, e1', e2', and_then_some]
  · obtain ⟨sk, ek, hk1⟩ := block_loop_spec src dst
      (copy_rgba_to_rgb__raw_ptr__4pixels.unrolled_body src) 4 0 unrolled_body_spec k 0
      ⟨0, 0, dst⟩ 0 (CursorAt.start src dst) (by omega) (by omega)
    have hlen : sk.rgb_mem.length = dst.length := hk1.2.2.1
    obtain ⟨sk', ek', a, b, r⟩ := unrolled_body_effect src hk1.1 hk1.2.1 (by omega)
      (by omega)
    refine ⟨sk, sk', ek, ek', by rw [hk1.1]; omega, by rw [hk1.2.1]; omega,
      by rw [a, hk1.1]; omega, by rw [b, hk1.2.1]; omega, fun j hj => ?_, fun j hj1 hj2 => ?_⟩
    · rcases hj with hj | hj
      · exact r.2.1 j (by omega)
      · exact r.2.2.2 j (by omega)
    · exact r.2.2.1 j (by omega) (by omega)
  · obtain ⟨sr, er, hr1⟩ := pixel_loop_spec src dst r (n / 4 * 4) s1 _ h1 (by omega) (by omega)
    have hlen : sr.rgb_mem.length = dst.length := hr1.2.2.1
    obtain ⟨sr', er', a, b, rg⟩ := copy_pixel_effect src hr1.1 hr1.2.1 (by omega) (by omega)
    refine ⟨sr, sr', er, er', by rw [hr1.1]; omega, by rw [hr1.2.1]; omega,
      fun j hj => ?_, fun j hj1 hj2 => ?_⟩
    · rcases hj with hj | hj
      · exact rg.2.1 j (by omega)
      · exact rg.2.2.2 j (by omega)
    · exact rg.2.2.1 j (by omega) (by omega)

/-- Witness for C24: 11 pixels, that is two unrolled iterations and a remainder of 3. -/
theorem C24_unrolled_partition_witness :
    ((List.range 44).map UInt8.ofNat).length = 4 * 11 ∧
    3 * 11 ≤ (List.replicate 33 (0 : UInt8)).length ∧
    ∃ s_end : Cursor,
      copy_rgba_to_rgb__raw_ptr__4pixels ((List.range 44).map UInt8.ofNat)
        (List.replicate 33 (0 : UInt8)) 11 = some s_end.rgb_mem ∧
      s_end.rgba = 4 * 11 ∧ s_end.rgb = 3 * 11 :=
  ⟨by simp, by simp only [List.length_replicate]; decide,
    (C24_unrolled_partition 11 ((List.range 44).map UInt8.ofNat)
      (List.replicate 33 (0 : UInt8)) (by simp)
      (by simp only [List.length_replicate]; decide)).elim
      fun _ h => h.elim fun s_end h => ⟨s_end, h.2.2.2.2.2.2.1, h.2.2.2.2.1, h.2.2.2.2.2.1⟩⟩

/-! ## Verifier dump, alpha bytes, and the ascending fixture -/

theorem dump_calls_add (buf : Buf) (group a : Nat) (c : Nat) :
    dump_calls buf group (a + c) = dump_calls buf group a ++
      ((List.range c).map fun k =>
        StdoutCall.fprintf "%d " [PrintfArg.num (buf.getD (a + k) 0).toNat] ::
          (if ((a + k + 1) % group) = 0 then [StdoutCall.fputs "| "] else [])).flatten := by
  induction c with
  | zero => simp only [Nat.add_zero, List.range_zero, List.map_nil, List.flatten_nil,
      List.append_nil]
  | succ c ih =>
    rw [← Nat.add_assoc, dump_calls_succ, ih, List.range_succ, List.map_append,
      List.flatten_append, List.append_assoc]
    simp only [List.map_cons, List.map_nil, List.flatten_cons, List.flatten_nil,
      List.append_nil]

theorem dump_chunk_no_separator (buf : Buf) (group i : Nat) (m : Nat) (hm : m < group) :
    ((List.range m).map fun k =>
        StdoutCall.fprintf "%d " [PrintfArg.num (buf.getD (i * group + k) 0).toNat] ::
          (if ((i * group + k + 1) % group) = 0 then [StdoutCall.fputs "| "] else [])).flatten
      = (List.range m).map fun k =>
        StdoutCall.fprintf "%d " [PrintfArg.num (buf.getD (i * group + k) 0).toNat] := by
  induction m with
  | zero => rfl
  | succ m ih =>
    have hne : (i * group + m + 1) % group ≠ 0 := by
      have e : i * group + m + 1 = (m + 1) + i * group := by omega
      rw [e, Nat.add_mul_mod_self_right, Nat.mod_eq_of_lt hm]
      omega
    rw [List.range_succ, List.map_append, List.flatten_append, ih (by omega), List.map_append]
    simp only [List.map_cons, List.map_nil, List.flatten_cons, List.flatten_nil,
      List.append_nil, if_neg hne]

theorem dump_chunk (buf : Buf) (group i : Nat) (hg : 0 < group) :
    ((List.range group).map fun k =>
        StdoutCall.fprintf "%d " [PrintfArg.num (buf.getD (i * group + k) 0).toNat] ::
          (if ((i * group + k + 1) % group) = 0 then [StdoutCall.fputs "| "] else [])).flatten
      = ((List.range group).map fun k =>
        StdoutCall.fprintf "%d " [PrintfArg.num (buf.getD (i * group + k) 0).toNat]) ++
        [StdoutCall.fputs "| "] := by
  obtain ⟨m, rfl⟩ : ∃ m, group = m + 1 := ⟨group - 1, by omega⟩
  have h0 : (i * (m + 1) + m + 1) % (m + 1) = 0 := by
    have e : i * (m + 1) + m + 1 = 0 + (i + 1) * (m + 1) := by
      rw [Nat.zero_add, Nat.add_mul, Nat.one_mul, Nat.add_assoc]
    rw [e, Nat.add_mul_mod_self_right]
    rfl
  rw [List.range_succ, List.map_append, List.flatten_append,
    dump_chunk_no_separator buf (m + 1) i m (by omega), List.map_append]
  simp only [List.map_cons, List.map_nil, List.flatten_cons, List.flatten_nil,
    List.append_nil, if_pos h0, List.append_assoc, List.cons_append, List.nil_append]

theorem dump_calls_pixels (buf : Buf) (group : Nat) (hg : 0 < group) (n : Nat) :
    dump_calls buf group (n * group) = pixel_dump buf group n := by
  induction n with
  | zero =>
    rw [Nat.zero_mul]
    rfl
  | succ n ih =>
    rw [Nat.succ_mul, dump_calls_add, ih, dump_chunk buf group n hg]
    simp only [pixel_dump, List.range_succ, List.map_append, List.flatten_append, List.map_cons,
      List.map_nil, List.flatten_cons, List.flatten_nil, List.append_nil]

/-- C25: verifier dump on mismatch. Whenever `compare_rgba_to_rgb` returns `false` on
buffers of `4n` and `3n` bytes, its output is, in this order: the opening text, all
`4n` bytes of the rgba buffer in index order with the separator "| " after every 4th
value, the text between the dumps, all `3n` bytes of the rgb buffer in index order
with the separator after every 3rd value, the closing text, and then the mismatch
line. -/
theorem C25_verifier_dump (n : Nat) (rgba rgb : Buf) (ha : rgba.length = 4 * n)
    (hb : rgb.length = 3 * n) (out : List StdoutCall)
    (h : compare_rgba_to_rgb rgba rgb n = some (false, out)) :
    ∃ i, i < n ∧
      out = [StdoutCall.fputs "rgba: ["] ++ pixel_dump rgba 4 n ++
        [StdoutCall.fputs "]\nrgb: ["] ++ pixel_dump rgb 3 n ++
        [StdoutCall.fputs "]\n"] ++ [mismatch_line rgba rgb i] := by
  rcases compare_cases (show n * 4 ≤ rgba.length by omega) (show n * 3 ≤ rgb.length by omega)
    with ⟨-, e⟩ | ⟨m, hm, -, -, e⟩
  · rw [e] at h
    injection h with h
    injection h with h1 h2
    exact absurd h1 (by simp)
  · rw [e] at h
    injection h with h
    injection h with h1 h2
    subst h2
    refine ⟨m, hm, ?_⟩
    rw [mismatch_calls, mismatch_dump, dump_calls_pixels rgba 4 (by decide) n,
      dump_calls_pixels rgb 3 (by decide) n]

/-- Witness for C25: two pixels, the second converted wrongly. -/
theorem C25_verifier_dump_witness :
    ([1, 2, 3, 4, 5, 6, 7, 8] : Buf).length = 4 * 2 ∧ ([1, 2, 3, 5, 6, 9] : Buf).length = 3 * 2 ∧
    compare_rgba_to_rgb [1, 2, 3, 4, 5, 6, 7, 8] [1, 2, 3, 5, 6, 9] 2
      = some (false, mismatch_calls [1, 2, 3, 4, 5, 6, 7, 8] [1, 2, 3, 5, 6, 9] 2 1) ∧
    ∃ i, i < 2 ∧
      mismatch_calls [1, 2, 3, 4, 5, 6, 7, 8] [1, 2, 3, 5, 6, 9] 2 1
        = [StdoutCall.fputs "rgba: ["] ++ pixel_dump [1, 2, 3, 4, 5, 6, 7, 8] 4 2 ++
          [StdoutCall.fputs "]\nrgb: ["] ++ pixel_dump [1, 2, 3, 5, 6, 9] 3 2 ++
          [StdoutCall.fputs "]\n"] ++
          [mismatch_line [1, 2, 3, 4, 5, 6, 7, 8] [1, 2, 3, 5, 6, 9] i] :=
  ⟨rfl, rfl, by decide,
    C25_verifier_dump 2 [1, 2, 3, 4, 5, 6, 7, 8] [1, 2, 3, 5, 6, 9] rfl rfl _ (by decide)⟩

theorem pixel_matches_alpha {rgba1 rgba2 rgb : Buf}
    (hagree : ∀ j, j % 4 ≠ 3 → rgba1[j]? = rgba2[j]?) (i : Nat) :
    pixel_matches rgba1 rgb i ↔ pixel_matches rgba2 rgb i := by
  unfold pixel_matches
  constructor
  · intro h k hk
    rw [← hagree _ (by omega)]
    exact h k hk
  · intro h k hk
    rw [hagree _ (by omega)]
    exact h k hk

/-- C26: the verifier ignores alpha. For every `n`, every rgb buffer of `3n` bytes and
two rgba buffers of `4n` bytes that agree on every byte whose offset is not congruent
to 3 modulo 4, `compare_rgba_to_rgb` returns the same verdict for both, and when that
verdict is `false` both outputs end with a mismatch line for the same pixel index. -/
theorem C26_verifier_ignores_alpha (n : Nat) (rgba1 rgba2 rgb : Buf)
    (h1 : rgba1.length = 4 * n) (h2 : rgba2.length = 4 * n) (hb : rgb.length = 3 * n)
    (hagree : ∀ j, j < 4 * n → j % 4 ≠ 3 → rgba1[j]? = rgba2[j]?) :
    ∃ verdict out1 out2,
      compare_rgba_to_rgb rgba1 rgb n = some (verdict, out1) ∧
      compare_rgba_to_rgb rgba2 rgb n = some (verdict, out2) ∧
      (verdict = false → ∃ i dump1 dump2 args1 args2, i < n ∧
        out1 = dump1 ++ [StdoutCall.fprintf
          "Mismatch at i=%zu: RGBA(%d, %d, %d, %d) but got RGB(%d, %d, %d)\n"
          (PrintfArg.num i :: args1)] ∧
        out2 = dump2 ++ [StdoutCall.fprintf
          "Mismatch at i=%zu: RGBA(%d, %d, %d, %d) but got RGB(%d, %d, %d)\n"
          (PrintfArg.num i :: args2)]) := by
  have hag : ∀ j, j % 4 ≠ 3 → rgba1[j]? = rgba2[j]? := by
    intro j hj
    by_cases hlt : j < 4 * n
    · exact hagree j hlt hj
    · rw [List.getElem?_eq_none (by omega), List.getElem?_eq_none (by omega)]
  rcases compare_cases (show n * 4 ≤ rgba1.length by omega) (show n * 3 ≤ rgb.length by omega)
    with ⟨hall, e⟩ | ⟨m, hm, hall, hne, e⟩
  · have e' := compare_all_match (show n * 4 ≤ rgba2.length by omega)
      (show n * 3 ≤ rgb.length by omega)
      (fun i hi => (pixel_matches_alpha hag i).mp (hall i hi))
    exact ⟨true, [], [], e, e', fun hf => absurd hf (by simp)⟩
  · have e' := compare_first_mismatch (show n * 4 ≤ rgba2.length by omega)
      (show n * 3 ≤ rgb.length by omega) hm
      (fun i hi => (pixel_matches_alpha hag i).mp (hall i hi))
      (fun hcon => hne ((pixel_matches_alpha hag m).mpr hcon))
    exact ⟨false, _, _, e, e', fun _ => ⟨m, mismatch_dump rgba1 rgb n, mismatch_dump rgba2 rgb n,
      _, _, hm, rfl, rfl⟩⟩

/-- Witness for C26: two pixels with different alpha bytes, the second converted
wrongly. -/
theorem C26_verifier_ignores_alpha_witness :
    ([1, 2, 3, 255, 5, 6, 7, 255] : Buf).length = 4 * 2 ∧
    ([1, 2, 3, 0, 5, 6, 7, 0] : Buf).length = 4 * 2 ∧
    ([1, 2, 3, 5, 6, 9] : Buf).length = 3 * 2 ∧
    (∀ j, j < 4 * 2 → j % 4 ≠ 3 →
      ([1, 2, 3, 255, 5, 6, 7, 255] : Buf)[j]? = ([1, 2, 3, 0, 5, 6, 7, 0] : Buf)[j]?) ∧
    ∃ verdict out1 out2,
      compare_rgba_to_rgb [1, 2, 3, 255, 5, 6, 7, 255] [1, 2, 3, 5, 6, 9] 2
        = some (verdict, out1) ∧
      compare_rgba_to_rgb [1, 2, 3, 0, 5, 6, 7, 0] [1, 2, 3, 5, 6, 9] 2 = some (verdict, out2) ∧
      (verdict = false → ∃ i dump1 dump2 args1 args2, i < 2 ∧
        out1 = dump1 ++ [StdoutCall.fprintf
          "Mismatch at i=%zu: RGBA(%d, %d, %d, %d) but got RGB(%d, %d, %d)\n"
          (PrintfArg.num i :: args1)] ∧
        out2 = dump2 ++ [StdoutCall.fprintf
          "Mismatch at i=%zu: RGBA(%d, %d, %d, %d) but got RGB(%d, %d, %d)\n"
          (PrintfArg.num i :: args2)]) :=
  ⟨rfl, rfl, rfl, by decide,
    C26_verifier_ignores_alpha 2 [1, 2, 3, 255, 5, 6, 7, 255] [1, 2, 3, 0, 5, 6, 7, 0]
      [1, 2, 3, 5, 6, 9] rfl rfl rfl (by decide)⟩

theorem ascending_loop_spec (k : Nat) :
    ∀ (i : Nat) (data : Buf), i + k ≤ data.length →
      ∃ data', for_loop (fun i data => store data i (UInt8.ofNat ((i + 1) % 256))) k i data
          = some data' ∧ data'.length = data.length ∧
        (∀ j, j < i → data'[j]? = data[j]?) ∧
        (∀ j, i ≤ j → j < i + k → data'[j]? = some (UInt8.ofNat ((j + 1) % 256))) := by
  induction k with
  | zero => intro i data _; exact ⟨data, rfl, rfl, fun _ _ => rfl, fun j h1 h2 => by omega⟩
  | succ k ih =>
    intro i data hi
    have hb : i + [UInt8.ofNat ((i + 1) % 256)].length ≤ data.length := by
      simp only [List.length_singleton]; omega
    have e1 : store data i (UInt8.ofNat ((i + 1) % 256))
        = some (write_bytes data i [UInt8.ofNat ((i + 1) % 256)]) := store_bytes_eq _ _ _ hb
    have hl := length_write_bytes data i [UInt8.ofNat ((i + 1) % 256)] hb
    obtain ⟨d2, e2, h2, h3, h4⟩ := ih (i + 1) _ (by rw [hl]; omega)
    refine ⟨d2, by simp only [for_loop, e1, Option.some_bind, e2], by rw [h2, hl], ?_, ?_⟩
    · intro j hj
      rw [h3 j (by omega), getElem?_write_bytes _ _ _ _ hb, if_pos hj]
    · intro j hj1 hj2
      by_cases hji : j = i
      · subst hji
        rw [h3 j (by omega), getElem?_write_bytes _ _ _ _ hb, if_neg (by omega),
          if_pos (by simp only [List.length_singleton]; omega), Nat.sub_self]
        rfl
      · exact h4 j (by omega) (by omega)

theorem toNat_ofNat_mod (x : Nat) : (UInt8.ofNat (x % 256)).toNat = x % 256 := by
  simp only [UInt8.toNat, UInt8.ofNat, Fin.ofNat]
  exact Nat.mod_mod _ _

/-- C27: layout of the ascending fixture. For every `size`, `make_ascending_data(size)`
returns a buffer of `size` bytes whose byte `j` is `(j + 1) mod 256`; hence for every
`n` and pixel `i < n`, bytes `4i`, `4i+1`, `4i+2`, `4i+3` of `make_ascending_data(4n)`
are `(4i+1) mod 256`, `(4i+2) mod 256`, `(4i+3) mod 256` and `(4i+4) mod 256`. -/
theorem C27_ascending_fixture (size : Nat) :
    ∃ data, make_ascending_data size = some data ∧ data.length = size ∧
      (∀ j, j < size → ∃ b, data[j]? = some b ∧ b.toNat = (j + 1) % 256) ∧
      (∀ n i, size = 4 * n → i < n → ∀ c, c < 4 →
        ∃ b, data[4 * i + c]? = some b ∧ b.toNat = (4 * i + c + 1) % 256) := by
  obtain ⟨d, e, hl, -, hv⟩ := ascending_loop_spec size 0 (List.replicate size 0)
    (by rw [List.length_replicate]; omega)
  have hbyte : ∀ j, j < size → ∃ b, d[j]? = some b ∧ b.toNat = (j + 1) % 256 :=
    fun j hj => ⟨_, hv j (by omega) (by omega), toNat_ofNat_mod _⟩
  refine ⟨d, by simpa only [make_ascending_data, Nat.sub_zero] using e,
    by rw [hl, List.length_replicate], hbyte, ?_⟩
  intro n i hs hi c hc
  exact hbyte (4 * i + c) (by omega)

/-- Witness for C27: the fixture of two pixels. -/
theorem C27_ascending_fixture_witness :
    make_ascending_data 8 = some [1, 2, 3, 4, 5, 6, 7, 8] ∧
    ∃ data, make_ascending_data 8 = some data ∧ data.length = 8 ∧
      (∀ j, j < 8 → ∃ b, data[j]? = some b ∧ b.toNat = (j + 1) % 256) ∧
      (∀ n i, 8 = 4 * n → i < n → ∀ c, c < 4 →
        ∃ b, data[4 * i + c]? = some b ∧ b.toNat = (4 * i + c + 1) % 256) :=
  ⟨by decide, C27_ascending_fixture 8⟩

/-! ## The validation sweep -/

theorem validation_kernels_invocations
    (check : Nat → String × test_func_t → Bool × List StdoutCall) (n : Nat)
    (reg : List (String × test_func_t)) :
    (main.validation_kernels check n reg).filterMap SweepEvent.invocation
      = reg.map fun t => (n, t.1) := by
  induction reg with
  | nil => rfl
  | cons t rest ih =>
    have hout : ∀ l : List StdoutCall,
        (l.map SweepEvent.out).filterMap SweepEvent.invocation = [] := by
      intro l
      induction l with
      | nil => rfl
      | cons c l ihl => simpa only [List.map_cons, List.filterMap_cons, SweepEvent.invocation]
    have hfail : ((if (check n t).1 == false then
        [SweepEvent.out (StdoutCall.fprintf "%s failed for %zu pixels\n"
          [PrintfArg.str t.1, PrintfArg.num n])]
        else []).filterMap SweepEvent.invocation) = [] := by
      split <;> rfl
    simp only [main.validation_kernels, List.filterMap_append, hout, hfail, ih, List.map_cons,
      List.append_nil]
    rfl

theorem validation_kernels_stdout
    (check : Nat → String × test_func_t → Bool × List StdoutCall) (n : Nat)
    (reg : List (String × test_func_t)) :
    (main.validation_kernels check n reg).filterMap SweepEvent.stdout
      = (reg.map fun t => (check n t).2 ++
          (if (check n t).1 = false then
            [StdoutCall.fprintf "%s failed for %zu pixels\n"
              [PrintfArg.str t.1, PrintfArg.num n]]
          else [])).flatten := by
  induction reg with
  | nil => rfl
  | cons t rest ih =>
    have hout : ∀ l : List StdoutCall,
        (l.map SweepEvent.out).filterMap SweepEvent.stdout = l := by
      intro l
      induction l with
      | nil => rfl
      | cons c l ihl =>
        simp only [List.map_cons, List.filterMap_cons, SweepEvent.stdout, ihl]
    have hfail : ((if (check n t).1 == false then
        [SweepEvent.out (StdoutCall.fprintf "%s failed for %zu pixels\n"
          [PrintfArg.str t.1, PrintfArg.num n])]
        else []).filterMap SweepEvent.stdout)
        = (if (check n t).1 = false then
            [StdoutCall.fprintf "%s failed for %zu pixels\n"
              [PrintfArg.str t.1, PrintfArg.num n]]
          else []) := by
      cases (check n t).1 <;> rfl
    simp only [main.validation_kernels, List.filterMap_append, hout, hfail, ih, List.map_cons,
      List.flatten_cons, List.append_assoc]
    rfl

theorem validation_cases_invocations
    (check : Nat → String × test_func_t → Bool × List StdoutCall) (cases : List Nat) :
    ∀ i, (main.validation_cases check i cases).filterMap SweepEvent.invocation
      = (cases.map fun n => registry.map fun t => (n, t.1)).flatten := by
  induction cases with
  | nil => intro i; rfl
  | cons n rest ih =>
    intro i
    simp only [main.validation_cases, List.filterMap_append, validation_kernels_invocations,
      ih (i + 1), List.map_cons, List.flatten_cons]
    rfl

theorem validation_cases_stdout
    (check : Nat → String × test_func_t → Bool × List StdoutCall) (cases : List Nat) :
    ∀ i, (main.validation_cases check i cases).filterMap SweepEvent.stdout
      = ((cases.enumFrom i).map fun c =>
          StdoutCall.fprintf "%zu. Validation case: %zu pixels\n"
            [PrintfArg.num c.1, PrintfArg.num c.2] ::
          (registry.map fun t => (check c.2 t).2 ++
            (if (check c.2 t).1 = false then
              [StdoutCall.fprintf "%s failed for %zu pixels\n"
                [PrintfArg.str t.1, PrintfArg.num c.2]]
            else [])).flatten).flatten := by
  induction cases with
  | nil => intro i; rfl
  | cons n rest ih =>
    intro i
    simp only [main.validation_cases, List.filterMap_append, validation_kernels_stdout,
      ih (i + 1), List.enumFrom_cons, List.map_cons, List.flatten_cons]
    rfl

theorem num_pixels_cases_nodup : num_pixels_cases.Nodup := by
  unfold num_pixels_cases
  refine List.Nodup.append (List.nodup_range _) (by decide) ?_
  intro a ha hb
  rw [List.mem_range] at ha
  simp only [List.mem_cons, List.mem_singleton, List.not_mem_nil, or_false] at hb
  omega

theorem registry_names_nodup : (registry.map Prod.fst).Nodup := by
  decide

/-- C28: a mismatch does not abort the sweep. With the verifier taken as an arbitrary
function `check` of the pair (size, kernel), giving a verdict and the verifier's own
output: the size cases are the 515 values 0..512, 800*600, 1920*1080; the kernel calls
of the validation loop of `main` are, in order, every registered kernel for each size
case, each pair once, and they are the same for every `check`; and what the loop writes
to `stdout` is, per size case, the header line and then per kernel the verifier's
output followed by one "failed" line exactly when the verdict of that pair is
`false`. -/
theorem C28_mismatch_does_not_abort_sweep
    (check : Nat → String × test_func_t → Bool × List StdoutCall) :
    num_pixels_cases.length = 515 ∧
    (∀ n, n ∈ num_pixels_cases ↔ n ≤ 512 ∨ n = 800 * 600 ∨ n = 1920 * 1080) ∧
    (main.validation check).filterMap SweepEvent.invocation
      = (num_pixels_cases.map fun n => registry.map fun t => (n, t.1)).flatten ∧
    ((main.validation check).filterMap SweepEvent.invocation).length = 515 * 7 ∧
    ((main.validation check).filterMap SweepEvent.invocation).Nodup ∧
    (∀ n name, (n, name) ∈ (main.validation check).filterMap SweepEvent.invocation ↔
      n ∈ num_pixels_cases ∧ name ∈ registry.map Prod.fst) ∧
    (∀ check2, (main.validation check2).filterMap SweepEvent.invocation
      = (main.validation check).filterMap SweepEvent.invocation) ∧
    (main.validation check).filterMap SweepEvent.stdout
      = (num_pixels_cases.enum.map fun c =>
          StdoutCall.fprintf "%zu. Validation case: %zu pixels\n"
            [PrintfArg.num c.1, PrintfArg.num c.2] ::
          (registry.map fun t => (check c.2 t).2 ++
            (if (check c.2 t).1 = false then
              [StdoutCall.fprintf "%s failed for %zu pixels\n"
                [PrintfArg.str t.1, PrintfArg.num c.2]]
            else [])).flatten).flatten := by
  have hinv : ∀ c, (main.validation c).filterMap SweepEvent.invocation
      = (num_pixels_cases.map fun n => registry.map fun t => (n, t.1)).flatten :=
    fun c => validation_cases_invocations c num_pixels_cases 0
  have hprod : (num_pixels_cases.map fun n => registry.map fun t => (n, t.1)).flatten
      = List.product num_pixels_cases (registry.map Prod.fst) := by
    simp only [List.product, List.flatMap, List.map_map]
    rfl
  have hlen : num_pixels_cases.length = 515 := by
    simp only [num_pixels_cases, List.length_append, List.length_range, List.length_cons,
      List.length_nil]
  refine ⟨hlen, ?_, hinv check, ?_, ?_, ?_, ?_, validation_cases_stdout check num_pixels_cases 0⟩
  · intro n
    simp only [num_pixels_cases, List.mem_append, List.mem_range, List.mem_cons,
      List.mem_singleton, List.not_mem_nil, or_false]
    omega
  · rw [hinv check, hprod]
    exact (List.length_product _ _).trans (by rw [hlen]; rfl)
  · rw [hinv check, hprod]
    exact List.Nodup.product num_pixels_cases_nodup registry_names_nodup
  · intro n name
    rw [hinv check, hprod]
    exact List.mem_product
  · intro check2
    rw [hinv check2, hinv check]

/-! ## The converted prefix during a vector kernel run -/

theorem vk_block_step {v : VectorKernel} (hv : v ∈ vector_kernels) (src dst : Buf) (n : Nat)
    (hsrc : 4 * n ≤ src.length) (hdst : 3 * n ≤ dst.length) (b : Nat) (hb : b < n / v.W) :
    ∃ s_b s_b' : Cursor,
      for_loop (fun _ s => v.main_block src s) b 0 ⟨0, 0, dst⟩ = some s_b ∧
      (if b + 1 < n / v.W then v.main_block src s_b else v.last_block src s_b) = some s_b' ∧
      (∀ j, j < 3 * (v.W * b) → s_b.rgb_mem[j]? = src[4 * (j / 3) + j % 3]?) ∧
      (∀ j, j < 3 * (v.W * b) → s_b'.rgb_mem[j]? = s_b.rgb_mem[j]?) ∧
      (∀ j, 3 * (v.W * b) ≤ j → j < 3 * (v.W * (b + 1)) →
        s_b'.rgb_mem[j]? = src[4 * (j / 3) + j % 3]?) := by
  have hW := vk_width hv
  have hb1 := vk_blocks_bounds (v := v) n b (by omega)
  have hsucc : v.W * (b + 1) = v.W * b + v.W := Nat.mul_succ _ _
  obtain ⟨s_b, e0, c0⟩ := vk_before_block hv src dst n hsrc hdst b (by omega)
  have hlen : s_b.rgb_mem.length = dst.length := c0.2.2.1
  by_cases h2 : b + 1 < n / v.W
  · have hb2 := vk_blocks_bounds (v := v) n (b + 1) (by omega)
    obtain ⟨s', e', -, -, r, -⟩ := vk_main_effect hv c0.1 c0.2.1
      (show 4 * (v.W * b + v.W) ≤ src.length by omega)
      (show 3 * (v.W * b + v.W) + 4 ≤ s_b.rgb_mem.length by omega)
    refine ⟨s_b, s', e0, by rw [if_pos h2]; exact e', c0.2.2.2.1, r.2.1, fun j h1 h3 => ?_⟩
    exact r.2.2.1 j h1 (by omega)
  · obtain ⟨s', e', -, -, r⟩ := vk_last_effect hv c0.1 c0.2.1
      (show 4 * (v.W * b + v.W) ≤ src.length by omega)
      (show 3 * (v.W * b + v.W) ≤ s_b.rgb_mem.length by omega)
    refine ⟨s_b, s', e0, by rw [if_neg h2]; exact e', c0.2.2.2.1, r.2.1, fun j h1 h3 => ?_⟩
    exact r.2.2.1 j h1 (by omega)

theorem vk_run_states {v : VectorKernel} (hv : v ∈ vector_kernels) (src dst : Buf) (n : Nat)
    (hn : n < 2 ^ 64) (hsrc : 4 * n ≤ src.length) (hdst : 3 * n ≤ dst.length) :
    ∃ s_blocks s_end : Cursor,
      ((0 < n / v.W ∧ ∃ s_main,
          for_loop (fun _ s => v.main_block src s) (n / v.W - 1) 0 ⟨0, 0, dst⟩ = some s_main ∧
          v.last_block src s_main = some s_blocks) ∨
        (n / v.W = 0 ∧ s_blocks = ⟨0, 0, dst⟩)) ∧
      CursorAt src dst s_blocks (v.W * (n / v.W)) 0 ∧
      for_loop (fun _ s => copy_pixel src s) (n % v.W) (n / v.W * v.W) s_blocks = some s_end ∧
      CursorAt src dst s_end n 0 ∧
      v.kernel src dst n = some s_end.rgb_mem := by
  have hW := vk_width hv
  have hdiv : v.W * (n / v.W) ≤ n := Nat.mul_div_le n v.W
  have hmod : v.W * (n / v.W) + n % v.W = n := Nat.div_add_mod n v.W
  have hcomm : n / v.W * v.W = v.W * (n / v.W) := Nat.mul_comm _ _
  have hrem : n - n / v.W * v.W = n % v.W := by omega
  by_cases hB : 0 < n / v.W
  · obtain ⟨s_main, e1, c1⟩ := vk_before_block hv src dst n hsrc hdst (n / v.W - 1)
      (by omega)
    have hsplit := mul_pred_add v.W (n / v.W) hB
    obtain ⟨s_blocks, e2, c2⟩ := vk_last_spec hv s_main _ c1 (by omega) (by omega)
    rw [hsplit] at c2
    obtain ⟨s_end, e3, c3⟩ := pixel_loop_spec src dst (n % v.W) (n / v.W * v.W) s_blocks _ c2
      (by omega) (by omega)
    rw [hmod] at c3
    refine ⟨s_blocks, s_end, Or.inl ⟨hB, s_main, e1, e2⟩, c2, e3, c3, ?_⟩
    have hBlt : n / v.W < 2 ^ 64 := Nat.lt_of_le_of_lt (Nat.div_le_self n v.W) hn
    rw [vk_kernel_eq hv, if_pos hB, size_t_sub_one _ hB hBlt, Nat.sub_zero, e1, and_then_some,
      e2, and_then_some, hrem, e3, and_then_some]
  · have hB0 : n / v.W = 0 := Nat.eq_zero_of_not_pos hB
    have c2 : CursorAt src dst ⟨0, 0, dst⟩ (v.W * (n / v.W)) 0 := by
      rw [hB0, Nat.mul_zero]
      exact CursorAt.start src dst
    obtain ⟨s_end, e3, c3⟩ := pixel_loop_spec src dst (n % v.W) (n / v.W * v.W) ⟨0, 0, dst⟩ _
      c2 (by omega) (by omega)
    rw [hmod] at c3
    refine ⟨⟨0, 0, dst⟩, s_end, Or.inr ⟨hB0, rfl⟩, c2, e3, c3, ?_⟩
    rw [vk_kernel_eq hv, if_neg hB, and_then_some, hrem, e3, and_then_some]

/-- C31: the converted prefix is never clobbered. For each width `W` in 8, 16, 32, 64
and every `n`, with `B = n / W`: block `b < B` (a main-loop iteration, or the last
block when `b = B - 1`) leaves every destination byte below `3Wb` as it found it, and
each iteration of the remainder loop leaves every byte below `3 * (W * B + r)`, hence
below `3WB`, as it found it. So before block `b` the bytes `[0, 3Wb)` hold the
converted values, after it the bytes `[0, 3W(b+1))` do, after the blocks and throughout
the remainder loop the bytes `[0, 3WB)` do, and each of these bytes has the value the
kernel returns at that offset. -/
theorem C31_converted_prefix_never_clobbered (v : VectorKernel) (hv : v ∈ vector_kernels)
    (n : Nat) (hn : n < 2 ^ 64) (src dst : Buf) (hsrc : src.length = 4 * n)
    (hdst : 3 * n ≤ dst.length) :
    ∃ (s_blocks s_end : Cursor) (out : Buf),
      ((0 < n / v.W ∧ ∃ s_main,
          for_loop (fun _ s => v.main_block src s) (n / v.W - 1) 0 ⟨0, 0, dst⟩ = some s_main ∧
          v.last_block src s_main = some s_blocks) ∨
        (n / v.W = 0 ∧ s_blocks = ⟨0, 0, dst⟩)) ∧
      for_loop (fun _ s => copy_pixel src s) (n % v.W) (n / v.W * v.W) s_blocks = some s_end ∧
      v.kernel src dst n = some out ∧ out = s_end.rgb_mem ∧
      (∀ b, b < n / v.W → ∃ s_b s_b' : Cursor,
        for_loop (fun _ s => v.main_block src s) b 0 ⟨0, 0, dst⟩ = some s_b ∧
        (if b + 1 < n / v.W then v.main_block src s_b else v.last_block src s_b) = some s_b' ∧
        (∀ j, j < 3 * (v.W * b) → s_b'.rgb_mem[j]? = s_b.rgb_mem[j]?) ∧
        (∀ j, j < 3 * (v.W * b) →
          s_b.rgb_mem[j]? = src[4 * (j / 3) + j % 3]? ∧ out[j]? = s_b.rgb_mem[j]?) ∧
        (∀ j, j < 3 * (v.W * (b + 1)) →
          s_b'.rgb_mem[j]? = src[4 * (j / 3) + j % 3]? ∧ out[j]? = s_b'.rgb_mem[j]?)) ∧
      (∀ j, j < 3 * (v.W * (n / v.W)) →
        s_blocks.rgb_mem[j]? = src[4 * (j / 3) + j % 3]? ∧ out[j]? = s_blocks.rgb_mem[j]?) ∧
      (∀ r, r < n % v.W → ∃ s_r s_r' : Cursor,
        for_loop (fun _ s => copy_pixel src s) r (n / v.W * v.W) s_blocks = some s_r ∧
        copy_pixel src s_r = some s_r' ∧
        (∀ j, j < 3 * (v.W * (n / v.W) + r) → s_r'.rgb_mem[j]? = s_r.rgb_mem[j]?) ∧
        (∀ j, j < 3 * (v.W * (n / v.W)) →
          s_r.rgb_mem[j]? = s_blocks.rgb_mem[j]? ∧ s_r'.rgb_mem[j]? = s_blocks.rgb_mem[j]?)) := by
  have hW := vk_width hv
  have hdiv : v.W * (n / v.W) ≤ n := Nat.mul_div_le n v.W
  have hmod : v.W * (n / v.W) + n % v.W = n := Nat.div_add_mod n v.W
  obtain ⟨s_blocks, s_end, hphase, c2, e3, c3, ek⟩ :=
    vk_run_states hv src dst n hn (by omega) hdst
  have hout : ∀ j, j < 3 * n → s_end.rgb_mem[j]? = src[4 * (j / 3) + j % 3]? := c3.2.2.2.1
  refine ⟨s_blocks, s_end, s_end.rgb_mem, hphase, e3, ek, rfl, fun b hb => ?_, fun j hj => ?_,
    fun r hr => ?_⟩
  · have hb1 := vk_blocks_bounds (v := v) n b (by omega)
    have hsucc : v.W * (b + 1) = v.W * b + v.W := Nat.mul_succ _ _
    obtain ⟨s_b, s_b', e0, e1, h0, hframe, hnew⟩ :=
      vk_block_step hv src dst n (by omega) hdst b hb
    refine ⟨s_b, s_b', e0, e1, hframe, fun j hj => ⟨h0 j hj, ?_⟩, fun j hj => ?_⟩
    · rw [hout j (by omega), h0 j hj]
    · have hconv : s_b'.rgb_mem[j]? = src[4 * (j / 3) + j % 3]? := by
        by_cases hlo : j < 3 * (v.W * b)
        · rw [hframe j hlo, h0 j hlo]
        · exact hnew j (by omega) hj
      exact ⟨hconv, by rw [hout j (by omega), hconv]⟩
  · have hconv := c2.2.2.2.1 j hj
    exact ⟨hconv, by rw [hout j (by omega), hconv]⟩
  · obtain ⟨s_r, er, cr⟩ := pixel_loop_spec src dst r (n / v.W * v.W) s_blocks _ c2
      (by omega) (by omega)
    have hlen : s_r.rgb_mem.length = dst.length := cr.2.2.1
    obtain ⟨s_r', er', -, -, reg⟩ := copy_pixel_effect src cr.1 cr.2.1
      (show 4 * (v.W * (n / v.W) + r + 1) ≤ src.length by omega)
      (show 3 * (v.W * (n / v.W) + r + 1) ≤ s_r.rgb_mem.length by omega)
    refine ⟨s_r, s_r', er, er', reg.2.1, fun j hj => ?_⟩
    have h1 : s_r.rgb_mem[j]? = s_blocks.rgb_mem[j]? := by
      rw [cr.2.2.2.1 j (by omega), c2.2.2.2.1 j hj]
    exact ⟨h1, by rw [reg.2.1 j (by omega), h1]⟩

/-- Witness for C31: the width-8 kernel on 25 pixels (three blocks, remainder 1). -/
theorem C31_converted_prefix_never_clobbered_witness :
    vector_kernel_8 ∈ vector_kernels ∧ 25 < 2 ^ 64 ∧
    ((List.range 100).map UInt8.ofNat).length = 4 * 25 ∧
    3 * 25 ≤ (List.replicate 75 (170 : UInt8)).length ∧
    ∃ out, vector_kernel_8.kernel ((List.range 100).map UInt8.ofNat)
        (List.replicate 75 (170 : UInt8)) 25 = some out ∧
      ∀ b, b < 25 / vector_kernel_8.W → ∃ s_b s_b' : Cursor,
        for_loop (fun _ s => vector_kernel_8.main_block ((List.range 100).map UInt8.ofNat) s)
          b 0 ⟨0, 0, List.replicate 75 (170 : UInt8)⟩ = some s_b ∧
        (if b + 1 < 25 / vector_kernel_8.W
          then vector_kernel_8.main_block ((List.range 100).map UInt8.ofNat) s_b
          else vector_kernel_8.last_block ((List.range 100).map UInt8.ofNat) s_b) = some s_b' ∧
        (∀ j, j < 3 * (vector_kernel_8.W * b) → s_b'.rgb_mem[j]? = s_b.rgb_mem[j]?) ∧
        (∀ j, j < 3 * (vector_kernel_8.W * b) →
          s_b.rgb_mem[j]? = ((List.range 100).map UInt8.ofNat)[4 * (j / 3) + j % 3]? ∧
          out[j]? = s_b.rgb_mem[j]?) ∧
        (∀ j, j < 3 * (vector_kernel_8.W * (b + 1)) →
          s_b'.rgb_mem[j]? = ((List.range 100).map UInt8.ofNat)[4 * (j / 3) + j % 3]? ∧
          out[j]? = s_b'.rgb_mem[j]?) :=
  ⟨List.mem_cons_self _ _, by decide, by simp, by simp only [List.length_replicate]; decide,
    (C31_converted_prefix_never_clobbered vector_kernel_8 (List.mem_cons_self _ _) 25
      (by decide) ((List.range 100).map UInt8.ofNat) (List.replicate 75 (170 : UInt8))
      (by simp) (by simp only [List.length_replicate]; decide)).elim
      fun _ h => h.elim fun _ h => h.elim fun out h => ⟨out, h.2.2.1, h.2.2.2.2.1⟩⟩

/-! ## Repeated calls and concatenated sources -/

theorem Converted.again {src dst out out2 : Buf} {a : Nat} (h : Converted src dst out a a)
    (h2 : Converted src out out2 a a) : out2 = out := by
  apply List.ext_getElem?
  intro j
  by_cases hj : j < a
  · rw [h.2.1 j hj, h2.2.1 j hj]
  · rw [h2.2.2 j (by omega)]

/-- C32: idempotence under repeated calls. For every kernel `K` of the registry (three
scalar, four vector), every `n`, every source of at least `4n` bytes and every initial
destination, running `K` again on the same source and on the destination the first run
produced gives that destination again: `K(src, K(src, dst, n), n) = K(src, dst, n)`;
with at least `3n` destination bytes both runs return a buffer, and with fewer the first
run already fails. -/
theorem C32_idempotent_under_repeated_calls (K : test_func_t) (hK : K ∈ registry.map Prod.snd)
    (n : Nat) (hn : n < 2 ^ 64) (src dst : Buf) (hsrc : 4 * n ≤ src.length) :
    (K src dst n).bind (fun out => K src out n) = K src dst n ∧
    (3 * n ≤ dst.length → ∃ out, K src dst n = some out ∧ K src out n = some out) ∧
    (dst.length < 3 * n → K src dst n = none) := by
  obtain ⟨t, ht, rfl⟩ := List.mem_map.mp hK
  have key : 3 * n ≤ dst.length →
      ∃ out, t.2 src dst n = some out ∧ t.2 src out n = some out := by
    intro hdst
    obtain ⟨out, e, c⟩ := registry_kernel_spec t ht src dst n hn hsrc hdst
    obtain ⟨out2, e2, c2⟩ := registry_kernel_spec t ht src out n hn hsrc
      (by rw [c.1]; exact hdst)
    exact ⟨out, e, by rw [e2, c.again c2]⟩
  refine ⟨?_, key, fun hdst => registry_kernel_none t ht src dst hn hdst⟩
  by_cases hdst : 3 * n ≤ dst.length
  · obtain ⟨out, e, e2⟩ := key hdst
    rw [e, Option.some_bind, e2]
  · rw [registry_kernel_none t ht src dst hn (by omega)]
    rfl

/-- Witness for C32: the width-8 kernel on 9 pixels, run twice. -/
theorem C32_idempotent_under_repeated_calls_witness :
    copy_rgba_to_rgb__avx2__8pixels ∈ registry.map Prod.snd ∧ 9 < 2 ^ 64 ∧
    4 * 9 ≤ ((List.range 36).map UInt8.ofNat).length ∧
    3 * 9 ≤ (List.replicate 30 (170 : UInt8)).length ∧
    (copy_rgba_to_rgb__avx2__8pixels ((List.range 36).map UInt8.ofNat)
        (List.replicate 30 (170 : UInt8)) 9).bind
      (fun out => copy_rgba_to_rgb__avx2__8pixels ((List.range 36).map UInt8.ofNat) out 9)
      = copy_rgba_to_rgb__avx2__8pixels ((List.range 36).map UInt8.ofNat)
        (List.replicate 30 (170 : UInt8)) 9 ∧
    ∃ out, copy_rgba_to_rgb__avx2__8pixels ((List.range 36).map UInt8.ofNat)
        (List.replicate 30 (170 : UInt8)) 9 = some out ∧
      copy_rgba_to_rgb__avx2__8pixels ((List.range 36).map UInt8.ofNat) out 9 = some out :=
  ⟨by simp [registry], by decide, by simp, by simp only [List.length_replicate]; decide,
    (C32_idempotent_under_repeated_calls copy_rgba_to_rgb__avx2__8pixels (by simp [registry]) 9
      (by decide) ((List.range 36).map UInt8.ofNat) (List.replicate 30 (170 : UInt8))
      (by simp)).1,
    (C32_idempotent_under_repeated_calls copy_rgba_to_rgb__avx2__8pixels (by simp [registry]) 9
      (by decide) ((List.range 36).map UInt8.ofNat) (List.replicate 30 (170 : UInt8))
      (by simp)).2.1 (by simp only [List.length_replicate]; decide)⟩

theorem converted_take_append {src1 src2 dst dst1 dst2 out out1 out2 : Buf} {n m : Nat}
    (h1 : src1.length = 4 * n)
    (c : Converted (src1 ++ src2) dst out (3 * (n + m)) (3 * (n + m)))
    (c1 : Converted src1 dst1 out1 (3 * n) (3 * n))
    (c2 : Converted src2 dst2 out2 (3 * m) (3 * m))
    (hd1 : 3 * n ≤ dst1.length) :
    out.take (3 * (n + m)) = out1.take (3 * n) ++ out2.take (3 * m) := by
  have hl1 : (out1.take (3 * n)).length = 3 * n := by
    rw [List.length_take, c1.1]; omega
  apply List.ext_getElem?
  intro j
  by_cases hj : j < 3 * n
  · rw [List.getElem?_append_left (by rw [hl1]; exact hj), List.getElem?_take_of_lt hj,
      List.getElem?_take_of_lt (by omega), c.2.1 j (by omega), c1.2.1 j hj,
      List.getElem?_append_left (by omega)]
  · rw [List.getElem?_append_right (by rw [hl1]; omega), hl1]
    by_cases hj2 : j < 3 * (n + m)
    · have e : 4 * (j / 3) + j % 3 - src1.length = 4 * ((j - 3 * n) / 3) + (j - 3 * n) % 3 := by
        omega
      rw [List.getElem?_take_of_lt hj2, List.getElem?_take_of_lt (by omega), c.2.1 j hj2,
        c2.2.1 _ (by omega), List.getElem?_append_right (by omega), e]
    · rw [List.getElem?_eq_none (by rw [List.length_take]; omega),
        List.getElem?_eq_none (by rw [List.length_take]; omega)]

/-- C33: conversion distributes over concatenation. For every `n` and `m`, every `src1`
of `4n` bytes and `src2` of `4m` bytes, and destinations large enough, the first
`3(n+m)` bytes that `copy_rgba_to_rgb__raw_ptr` produces from `src1 ++ src2` with
`n + m` pixels are the first `3n` bytes it produces from `src1` with `n` pixels followed
by the first `3m` bytes it produces from `src2` with `m` pixels; with destinations of
exactly `3(n+m)`, `3n` and `3m` bytes the whole results are related so. -/
theorem C33_conversion_distributes_over_concat (n m : Nat) (src1 src2 dst dst1 dst2 : Buf)
    (h1 : src1.length = 4 * n) (h2 : src2.length = 4 * m) (hd : 3 * (n + m) ≤ dst.length)
    (hd1 : 3 * n ≤ dst1.length) (hd2 : 3 * m ≤ dst2.length) :
    ∃ out out1 out2,
      copy_rgba_to_rgb__raw_ptr (src1 ++ src2) dst (n + m) = some out ∧
      copy_rgba_to_rgb__raw_ptr src1 dst1 n = some out1 ∧
      copy_rgba_to_rgb__raw_ptr src2 dst2 m = some out2 ∧
      out.take (3 * (n + m)) = out1.take (3 * n) ++ out2.take (3 * m) ∧
      (dst.length = 3 * (n + m) → dst1.length = 3 * n → dst2.length = 3 * m →
        out = out1 ++ out2) := by
  obtain ⟨out, e, c⟩ := raw_ptr_kernel_spec (src1 ++ src2) dst (n + m)
    (by rw [List.length_append]; omega) hd
  obtain ⟨out1, e1, c1⟩ := raw_ptr_kernel_spec src1 dst1 n (by omega) hd1
  obtain ⟨out2, e2, c2⟩ := raw_ptr_kernel_spec src2 dst2 m (by omega) hd2
  have ht := converted_take_append h1 c c1 c2 hd1
  refine ⟨out, out1, out2, e, e1, e2, ht, fun l l1 l2 => ?_⟩
  rw [List.take_of_length_le (by rw [c.1]; omega), List.take_of_length_le (by rw [c1.1]; omega),
    List.take_of_length_le (by rw [c2.1]; omega)] at ht
  exact ht

/-- Witness for C33: two pixels followed by one pixel. -/
theorem C33_conversion_distributes_over_concat_witness :
    ([1, 2, 3, 4, 5, 6, 7, 8] : Buf).length = 4 * 2 ∧ ([9, 10, 11, 12] : Buf).length = 4 * 1 ∧
    3 * (2 + 1) ≤ (List.replicate 9 (0 : UInt8)).length ∧
    3 * 2 ≤ (List.replicate 6 (0 : UInt8)).length ∧
    3 * 1 ≤ (List.replicate 3 (0 : UInt8)).length ∧
    ∃ out out1 out2,
      copy_rgba_to_rgb__raw_ptr ([1, 2, 3, 4, 5, 6, 7, 8] ++ [9, 10, 11, 12])
        (List.replicate 9 (0 : UInt8)) (2 + 1) = some out ∧
      copy_rgba_to_rgb__raw_ptr [1, 2, 3, 4, 5, 6, 7, 8] (List.replicate 6 (0 : UInt8)) 2
        = some out1 ∧
      copy_rgba_to_rgb__raw_ptr [9, 10, 11, 12] (List.replicate 3 (0 : UInt8)) 1 = some out2 ∧
      out.take (3 * (2 + 1)) = out1.take (3 * 2) ++ out2.take (3 * 1) ∧
      ((List.replicate 9 (0 : UInt8)).length = 3 * (2 + 1) →
        (List.replicate 6 (0 : UInt8)).length = 3 * 2 →
        (List.replicate 3 (0 : UInt8)).length = 3 * 1 → out = out1 ++ out2) :=
  ⟨rfl, rfl, by decide, by decide, by decide,
    C33_conversion_distributes_over_concat 2 1 [1, 2, 3, 4, 5, 6, 7, 8] [9, 10, 11, 12]
      (List.replicate 9 (0 : UInt8)) (List.replicate 6 (0 : UInt8))
      (List.replicate 3 (0 : UInt8)) rfl rfl (by decide) (by decide) (by decide)⟩

/-! ## The first mismatch and the dump before it -/

theorem mismatch_dump_pixels (rgba rgb : Buf) (n : Nat) :
    mismatch_dump rgba rgb n
      = [StdoutCall.fputs "rgba: ["] ++ pixel_dump rgba 4 n ++
        [StdoutCall.fputs "]\nrgb: ["] ++ pixel_dump rgb 3 n ++ [StdoutCall.fputs "]\n"] := by
  rw [mismatch_dump, dump_calls_pixels rgba 4 (by decide) n,
    dump_calls_pixels rgb 3 (by decide) n]

/-- Counterexample to C15 as worded ("no pixel after i is examined"): with three pixels
whose first mismatch is at pixel 1, changing only a byte of pixel 2 of the rgb buffer
changes what `compare_rgba_to_rgb` writes, because the dump before the mismatch line
reads and prints every pixel; verdict and mismatch index stay the same. -/
theorem C15_pixels_after_mismatch_are_dumped :
    pixel_matches [1, 2, 3, 4, 5, 6, 7, 8, 9, 10, 11, 12] [1, 2, 3, 5, 0, 7, 9, 10, 11] 0 ∧
    ¬ pixel_matches [1, 2, 3, 4, 5, 6, 7, 8, 9, 10, 11, 12] [1, 2, 3, 5, 0, 7, 9, 10, 11] 1 ∧
    (∀ j, j < 3 * (1 + 1) →
      ([1, 2, 3, 5, 0, 7, 9, 10, 99] : Buf)[j]? = ([1, 2, 3, 5, 0, 7, 9, 10, 11] : Buf)[j]?) ∧
    compare_rgba_to_rgb [1, 2, 3, 4, 5, 6, 7, 8, 9, 10, 11, 12] [1, 2, 3, 5, 0, 7, 9, 10, 11] 3
      = some (false, mismatch_dump [1, 2, 3, 4, 5, 6, 7, 8, 9, 10, 11, 12]
          [1, 2, 3, 5, 0, 7, 9, 10, 11] 3 ++
        [mismatch_line [1, 2, 3, 4, 5, 6, 7, 8, 9, 10, 11, 12] [1, 2, 3, 5, 0, 7, 9, 10, 11] 1]) ∧
    compare_rgba_to_rgb [1, 2, 3, 4, 5, 6, 7, 8, 9, 10, 11, 12] [1, 2, 3, 5, 0, 7, 9, 10, 99] 3
      = some (false, mismatch_dump [1, 2, 3, 4, 5, 6, 7, 8, 9, 10, 11, 12]
          [1, 2, 3, 5, 0, 7, 9, 10, 99] 3 ++
        [mismatch_line [1, 2, 3, 4, 5, 6, 7, 8, 9, 10, 11, 12] [1, 2, 3, 5, 0, 7, 9, 10, 11] 1]) ∧
    compare_rgba_to_rgb [1, 2, 3, 4, 5, 6, 7, 8, 9, 10, 11, 12] [1, 2, 3, 5, 0, 7, 9, 10, 11] 3
      ≠ compare_rgba_to_rgb [1, 2, 3, 4, 5, 6, 7, 8, 9, 10, 11, 12]
          [1, 2, 3, 5, 0, 7, 9, 10, 99] 3 ∧
    StdoutCall.fprintf "%d " [PrintfArg.num 99]
      ∈ mismatch_dump [1, 2, 3, 4, 5, 6, 7, 8, 9, 10, 11, 12] [1, 2, 3, 5, 0, 7, 9, 10, 99] 3 ∧
    StdoutCall.fprintf "%d " [PrintfArg.num 99]
      ∉ mismatch_dump [1, 2, 3, 4, 5, 6, 7, 8, 9, 10, 11, 12] [1, 2, 3, 5, 0, 7, 9, 10, 11] 3 := by
  decide

/-- C15, amended: the verifier reports the first mismatch after a dump of all pixels.
Whenever `compare_rgba_to_rgb` returns `false` on buffers of `4n` and `3n` bytes, its
output is the dump of all `n` pixels of both buffers followed by one "Mismatch at i="
line, and the dump holds no such line; the index `i` in that line is the smallest pixel
index at which an R, G or B byte differs; and the comparison returns at pixel `i`: on
any buffers that agree with these up to pixel `i` the verdict is `false` again with the
same mismatch line, behind the dump of all `n` pixels of those buffers. -/
theorem C15_first_mismatch_after_full_dump (n : Nat) (rgba rgb : Buf)
    (ha : rgba.length = 4 * n) (hb : rgb.length = 3 * n) (out : List StdoutCall)
    (h : compare_rgba_to_rgb rgba rgb n = some (false, out)) :
    ∃ i args, i < n ∧ ¬ pixel_matches rgba rgb i ∧
      (∀ i', i' < i → pixel_matches rgba rgb i') ∧
      out = [StdoutCall.fputs "rgba: ["] ++ pixel_dump rgba 4 n ++
        [StdoutCall.fputs "]\nrgb: ["] ++ pixel_dump rgb 3 n ++ [StdoutCall.fputs "]\n"] ++
        [StdoutCall.fprintf
          "Mismatch at i=%zu: RGBA(%d, %d, %d, %d) but got RGB(%d, %d, %d)\n"
          (PrintfArg.num i :: args)] ∧
      (∀ c, c ∈ [StdoutCall.fputs "rgba: ["] ++ pixel_dump rgba 4 n ++
          [StdoutCall.fputs "]\nrgb: ["] ++ pixel_dump rgb 3 n ++ [StdoutCall.fputs "]\n"] →
        ∀ a, c ≠ StdoutCall.fprintf
          "Mismatch at i=%zu: RGBA(%d, %d, %d, %d) but got RGB(%d, %d, %d)\n" a) ∧
      (∀ rgba' rgb' : Buf, rgba'.length = 4 * n → rgb'.length = 3 * n →
        (∀ j, j < 4 * (i + 1) → rgba'[j]? = rgba[j]?) →
        (∀ j, j < 3 * (i + 1) → rgb'[j]? = rgb[j]?) →
        compare_rgba_to_rgb rgba' rgb' n = some (false,
          [StdoutCall.fputs "rgba: ["] ++ pixel_dump rgba' 4 n ++
          [StdoutCall.fputs "]\nrgb: ["] ++ pixel_dump rgb' 3 n ++ [StdoutCall.fputs "]\n"] ++
          [StdoutCall.fprintf
            "Mismatch at i=%zu: RGBA(%d, %d, %d, %d) but got RGB(%d, %d, %d)\n"
            (PrintfArg.num i :: args)])) := by
  rcases compare_cases (show n * 4 ≤ rgba.length by omega) (show n * 3 ≤ rgb.length by omega)
    with ⟨-, e⟩ | ⟨m, hm, hall, hne, e⟩
  · rw [e] at h
    injection h with h
    injection h with h1 h2
    exact absurd h1 (by simp)
  · rw [e] at h
    injection h with h
    injection h with h1 h2
    subst h2
    refine ⟨m, [PrintfArg.num (rgba.getD (m * 4) 0).toNat,
      PrintfArg.num (rgba.getD (m * 4 + 1) 0).toNat,
      PrintfArg.num (rgba.getD (m * 4 + 1) 0).toNat,
      PrintfArg.num (rgba.getD (m * 4 + 3) 0).toNat,
      PrintfArg.num (rgb.getD (m * 3) 0).toNat, PrintfArg.num (rgb.getD (m * 3 + 1) 0).toNat,
      PrintfArg.num (rgb.getD (m * 3 + 2) 0).toNat], hm, hne, hall, ?_, fun c hc a => ?_, ?_⟩
    · rw [mismatch_calls, mismatch_dump_pixels]
      rfl
    · rw [← mismatch_dump_pixels] at hc
      exact mismatch_dump_mem hc a
    · intro rgba' rgb' ha' hb' h4 h3
      have e' := compare_first_mismatch (show n * 4 ≤ rgba'.length by omega)
        (show n * 3 ≤ rgb'.length by omega) hm
        (fun i hi => (pixel_matches_congr h4 h3 (by omega)).mpr (hall i hi))
        (fun hcon => hne ((pixel_matches_congr h4 h3 (Nat.le_refl _)).mp hcon))
      rw [e', mismatch_calls, mismatch_line_congr h4 h3, mismatch_dump_pixels]
      rfl

/-- Witness for the amended C15: three pixels, the second and the third converted
wrongly. -/
theorem C15_first_mismatch_after_full_dump_witness :
    ([1, 2, 3, 4, 5, 6, 7, 8, 9, 10, 11, 12] : Buf).length = 4 * 3 ∧
    ([1, 2, 3, 5, 0, 7, 0, 0, 0] : Buf).length = 3 * 3 ∧
    compare_rgba_to_rgb [1, 2, 3, 4, 5, 6, 7, 8, 9, 10, 11, 12] [1, 2, 3, 5, 0, 7, 0, 0, 0] 3
      = some (false, mismatch_calls [1, 2, 3, 4, 5, 6, 7, 8, 9, 10, 11, 12]
          [1, 2, 3, 5, 0, 7, 0, 0, 0] 3 1) ∧
    ∃ i args, i < 3 ∧
      ¬ pixel_matches [1, 2, 3, 4, 5, 6, 7, 8, 9, 10, 11, 12] [1, 2, 3, 5, 0, 7, 0, 0, 0] i ∧
      (∀ i', i' < i →
        pixel_matches [1, 2, 3, 4, 5, 6, 7, 8, 9, 10, 11, 12] [1, 2, 3, 5, 0, 7, 0, 0, 0] i') ∧
      mismatch_calls [1, 2, 3, 4, 5, 6, 7, 8, 9, 10, 11, 12] [1, 2, 3, 5, 0, 7, 0, 0, 0] 3 1
        = [StdoutCall.fputs "rgba: ["] ++
          pixel_dump [1, 2, 3, 4, 5, 6, 7, 8, 9, 10, 11, 12] 4 3 ++
          [StdoutCall.fputs "]\nrgb: ["] ++ pixel_dump [1, 2, 3, 5, 0, 7, 0, 0, 0] 3 3 ++
          [StdoutCall.fputs "]\n"] ++
          [StdoutCall.fprintf
            "Mismatch at i=%zu: RGBA(%d, %d, %d, %d) but got RGB(%d, %d, %d)\n"
            (PrintfArg.num i :: args)] :=
  ⟨rfl, rfl, by decide,
    (C15_first_mismatch_after_full_dump 3 [1, 2, 3, 4, 5, 6, 7, 8, 9, 10, 11, 12]
      [1, 2, 3, 5, 0, 7, 0, 0, 0] rfl rfl _ (by decide)).elim
      fun i h => h.elim fun args h => ⟨i, args, h.1, h.2.1, h.2.2.1, h.2.2.2.1⟩⟩

end RgbaToRgb
